import Mathlib

/-!
# Filter pipeline core: a shallow embedding

Sequential model of the processing engine shared by the filter stages
(`src/filter-ground`, `src/auth-filter`): the wakeup signal, the bounded
queue, the retrying enqueue of a worker, the least-loaded worker pool, the
sliding-window TPS meter and the admission checks of a filter worker.

Conventions of the embedding.

* A member function `C::f(args)` becomes `C.f self args` and returns the new
  object next to the C++ return value.
* Reference out-parameters (`T &item`) are returned as an `Option`.
* Integers are mathematical integers: counters such as `size_` track the number
  of queued items and stay far from the 64-bit range.
* A `double` is a pair of integers, significand and binary exponent, and every
  operation on `double` returns the `double` nearest to its exact result.
* Loops that may wait for another thread take a `fuel` argument and return
  `none` when the calling thread would still be waiting.
-/

namespace FilterGround

/-! ## errno values used as return codes -/

/-- errno `EAGAIN` (Linux): returned when the queue is full. -/
def EAGAIN : Int := 11

/-- errno `ETIMEDOUT` (Linux): returned when a timed pop expires. -/
def ETIMEDOUT : Int := 110

/-! ## extra/MSignal.h -/

/-- State of `MSignal`: the `signaled_` flag guarded by the internal mutex. -/
structure MSignal where
  signaled_ : Bool := false
deriving DecidableEq, Repr

/-- Models `MSignal::notify_one_nolock`: set the flag unless it is already set. -/
def MSignal.notify_one_nolock (s : MSignal) : MSignal :=
  if s.signaled_ = true then s else { s with signaled_ := true }

/-- Models `MSignal::notify_one()`: take the lock and notify. -/
def MSignal.notify_one (s : MSignal) : MSignal :=
  s.notify_one_nolock

/-- Models `MSignal::wait(msec)`: the predicate consumes a pending signal. With
`msec = 0` the call returns only once the flag is set, so without a pending
signal the calling thread keeps waiting (`none`); with `msec > 0` the wait
times out and returns `false`. -/
def MSignal.wait (s : MSignal) (msec : Nat) : Option (Bool × MSignal) :=
  if s.signaled_ = true then some (true, { s with signaled_ := false })
  else if msec = 0 then none
  else some (false, s)

/-! ## boost::lockfree::queue (fixed size), as a bounded FIFO -/

/-- Models `queue_.push(item)` of a fixed-size lock-free queue: fails when `capacity`
items are stored. -/
def lockfree_push {T : Type} (capacity : Nat) (queue : List T) (item : T) : Option (List T) :=
  if queue.length < capacity then some (queue ++ [item]) else none

/-- Models `queue_.pop(item)`: fails on an empty queue, otherwise removes the oldest item. -/
def lockfree_pop {T : Type} (queue : List T) : Option (T × List T) :=
  match queue with
  | [] => none
  | x :: rest => some (x, rest)

/-! ## extra/BlockingLockFreeQueue.h -/

/-- State of `BlockingLockFreeQueue<SIGNALED, T, Options...>`. -/
structure BlockingLockFreeQueue (T : Type) where
  capacity : Nat
  queue_ : List T
  signal_ : MSignal
  open_ : Bool
  size_ : Int

namespace BlockingLockFreeQueue

variable {T : Type}

/-- Constructor `BlockingLockFreeQueue(capacity, open)`. -/
def create (capacity : Nat) (isOpen : Bool) : BlockingLockFreeQueue T :=
  { capacity := capacity, queue_ := [], signal_ := {}, open_ := isOpen, size_ := 0 }

/-- Member `open()`. -/
def «open» (q : BlockingLockFreeQueue T) : BlockingLockFreeQueue T :=
  { q with open_ := true }

/-- Member `close()`. -/
def close (SIGNALED : Bool) (q : BlockingLockFreeQueue T) : BlockingLockFreeQueue T :=
  let q1 := { q with open_ := false }
  if SIGNALED = true then { q1 with signal_ := q1.signal_.notify_one } else q1

/-- Member `empty()`. -/
def empty (q : BlockingLockFreeQueue T) : Bool := q.queue_.isEmpty

/-- Member `size()`. -/
def size (q : BlockingLockFreeQueue T) : Int := q.size_

/-- Member `is_open()`. -/
def is_open (q : BlockingLockFreeQueue T) : Bool := q.open_

/-- Member `push(item)`: `0` success, `-1` closed, `EAGAIN` full. -/
def push (SIGNALED : Bool) (q : BlockingLockFreeQueue T) (item : T) :
    Int × BlockingLockFreeQueue T :=
  if q.open_ = false then (-1, q)
  else
    match lockfree_push q.capacity q.queue_ item with
    | none => (EAGAIN, q)
    | some queue =>
      let q1 := { q with queue_ := queue, size_ := q.size_ + 1 }
      let q2 :=
        if SIGNALED = true then
          if q1.queue_.isEmpty = false then { q1 with signal_ := q1.signal_.notify_one } else q1
        else q1
      (0, q2)

/-- Member `signaled_pop(item)`. -/
def signaled_pop : Nat → BlockingLockFreeQueue T → Option (Int × Option T × BlockingLockFreeQueue T)
  | 0, _ => none
  | fuel + 1, q =>
    match lockfree_pop q.queue_ with
    | some (x, rest) => some (0, some x, { q with queue_ := rest, size_ := q.size_ - 1 })
    | none =>
      if q.queue_.isEmpty = true ∧ q.open_ = false then some (-1, none, q)
      else
        match q.signal_.wait 0 with
        | none => none
        | some (_, s) => signaled_pop fuel { q with signal_ := s }

/-- The `while` loop of `adaptive_pop`. `steady` lists the successive readings
of `std::chrono::steady_clock` in nanoseconds, `sta` is the reading taken
before the loop, `reads` counts the readings consumed so far. -/
def adaptive_pop_loop (q : BlockingLockFreeQueue T) (timeout_ms : Int) (steady : Nat → Int)
    (sta : Int) : Nat → Nat → Nat → Option (Int × Option T × BlockingLockFreeQueue T)
  | 0, _, _ => none
  | fuel + 1, reads, fails =>
    match lockfree_pop q.queue_ with
    | some (x, rest) => some (0, some x, { q with queue_ := rest, size_ := q.size_ - 1 })
    | none =>
      if q.open_ = false then some (-1, none, q)
      else if timeout_ms > 0 then
        if Int.tdiv (steady reads - sta) 1000000 ≥ timeout_ms then some (ETIMEDOUT, none, q)
        else adaptive_pop_loop q timeout_ms steady sta fuel (reads + 1)
          (if fails < 1000 then fails + 1 else fails)
      else adaptive_pop_loop q timeout_ms steady sta fuel reads
        (if fails < 1000 then fails + 1 else fails)

/-- Member `adaptive_pop(item, timeout_ms)`. -/
def adaptive_pop (q : BlockingLockFreeQueue T) (timeout_ms : Int) (steady : Nat → Int)
    (fuel : Nat) : Option (Int × Option T × BlockingLockFreeQueue T) :=
  adaptive_pop_loop q timeout_ms steady (steady 0) fuel 1 0

/-- Member `pop(item, timeout_ms)`. -/
def pop (SIGNALED : Bool) (q : BlockingLockFreeQueue T) (timeout_ms : Int) (steady : Nat → Int)
    (fuel : Nat) : Option (Int × Option T × BlockingLockFreeQueue T) :=
  if SIGNALED = true then signaled_pop fuel q
  else adaptive_pop q timeout_ms steady fuel

/-- Scenario driver: push the items one after the other on the same queue and
keep every return code. -/
def push_all (SIGNALED : Bool) : BlockingLockFreeQueue T → List T → List Int × BlockingLockFreeQueue T
  | q, [] => ([], q)
  | q, x :: xs =>
    ((q.push SIGNALED x).1 :: (push_all SIGNALED (q.push SIGNALED x).2 xs).1,
      (push_all SIGNALED (q.push SIGNALED x).2 xs).2)

/-- Scenario driver: `n` calls of `pop` in a row on the same queue; each call
gets `fuel` loop iterations. The return code and the received item of every
call are kept. -/
def pop_many (SIGNALED : Bool) (timeout_ms : Int) (steady : Nat → Int) (fuel : Nat) :
    Nat → BlockingLockFreeQueue T → Option (List (Int × Option T) × BlockingLockFreeQueue T)
  | 0, q => some ([], q)
  | n + 1, q =>
    match q.pop SIGNALED timeout_ms steady fuel with
    | none => none
    | some (r, item, q1) =>
      match pop_many SIGNALED timeout_ms steady fuel n q1 with
      | none => none
      | some (rs, q2) => some ((r, item) :: rs, q2)

end BlockingLockFreeQueue

/-! ## Worker.h -/

/-- State of `Worker<WOKER_RECV_TYPE, POOL_PUSH_TYPE>`: the spinning queue
`waiter_` of the base class `LockFreeQueueThread<false, ...>` and the ordinal
given by the pool. -/
structure Worker (T : Type) where
  waiter_ : BlockingLockFreeQueue T
  assigned_no_ : Nat

/-- What the other threads (the consuming worker thread, `stop()`) did to the
queue since the previous `waiter_.push` of a `try_push` call; the argument is
the index of the attempt about to be made. The identity is the sequential run. -/
abbrev Interference (T : Type) := Nat → BlockingLockFreeQueue T → BlockingLockFreeQueue T

/-- Outcome of `Worker::try_push`: the return value, the worker afterwards,
the return codes of the `waiter_.push` calls that were made, in order
(bookkeeping of the model), and whether `queue_item.destroy()` was called. -/
structure TryPush (T : Type) where
  result : Int
  worker : Worker T
  attempts : List Int
  destroyed : Bool

namespace Worker

variable {T : Type}

/-- Member `size()` inherited from `LockFreeQueueThread`. -/
def size (w : Worker T) : Int := w.waiter_.size

/-- The `for` loop of `try_push`: `remaining` iterations are left, `index` is
the loop variable, `attempts` the return codes seen so far. Running out of
iterations is the `handle_return(EAGAIN, queue_item)` after the loop. -/
def try_push_for (env : Interference T) (item : T) (w : Worker T) :
    Nat → Nat → BlockingLockFreeQueue T → List Int → TryPush T
  | 0, _, q, attempts =>
    { result := EAGAIN, worker := { w with waiter_ := q }, attempts := attempts,
      destroyed := true }
  | remaining + 1, index, q, attempts =>
    if ((env index q).push false item).1 ≤ 0 then
      { result := ((env index q).push false item).1,
        worker := { w with waiter_ := ((env index q).push false item).2 },
        attempts := attempts ++ [((env index q).push false item).1],
        destroyed := decide (((env index q).push false item).1 ≠ 0) }
    else
      try_push_for env item w remaining (index + 1) ((env index q).push false item).2
        (attempts ++ [((env index q).push false item).1])

/-- Member `try_push(item, max_retries)`. -/
def try_push (env : Interference T) (w : Worker T) (item : T) (max_retries : Nat) : TryPush T :=
  if max_retries = 0 then
    { result := ((env 0 w.waiter_).push false item).1,
      worker := { w with waiter_ := ((env 0 w.waiter_).push false item).2 },
      attempts := [((env 0 w.waiter_).push false item).1],
      destroyed := decide (((env 0 w.waiter_).push false item).1 ≠ 0) }
  else try_push_for env item w max_retries 0 w.waiter_ []

/-- The `waiter_.push(queue_item)` calls that a retry loop started on queue `q`
makes one after another as long as it goes on: the return code of the call of
index `n` and the queue after it. Before each call the other threads act on
the queue left by the call before. -/
def nth_push (env : Interference T) (item : T) (q : BlockingLockFreeQueue T) :
    Nat → Int × BlockingLockFreeQueue T
  | 0 => (env 0 q).push false item
  | n + 1 => (env (n + 1) (nth_push env item q n).2).push false item

end Worker

/-! ## extra/helper.h -/

/-- The `for` loop of `std14_min_element`: `it` is the position of the
iterator, `min` and `vmin` the position and the element of the current
minimum; the list holds the elements from `it` to `end`. -/
def std14_min_element_loop {α : Type} (comp : α → α → Bool) : List α → Nat → Nat → α → Nat × α
  | [], _, min, vmin => (min, vmin)
  | x :: rest, it, min, vmin =>
    if comp x vmin = true then std14_min_element_loop comp rest (it + 1) it x
    else std14_min_element_loop comp rest (it + 1) min vmin

/-- Models `std14_min_element(begin, end, comp)`: position and element of the returned
iterator. On an empty range the source steps past `end`; the model has no
result there (`none`). -/
def std14_min_element {α : Type} (comp : α → α → Bool) : List α → Option (Nat × α)
  | [] => none
  | x :: rest => some (std14_min_element_loop comp rest 1 0 x)

/-! ## WorkerPool.h -/

/-- What `WorkerPool<WORKER, POOL_PUSH_TYPE>` uses of its `WORKER` parameter:
`size()` and `push(message)`. A worker's `push` may also change state shared
by the whole process (`σ`: meters, publishers). -/
structure WorkerOps (W M σ : Type) where
  size : W → Int
  push : W → M → σ → Int × W × σ

/-- State of `WorkerPool`: the deque `workers_`. -/
structure WorkerPool (W : Type) where
  workers_ : List W

namespace WorkerPool

variable {W M σ : Type}

/-- Member `push(message)`: least-loaded dispatch. -/
def push (ops : WorkerOps W M σ) (pool : WorkerPool W) (message : M) (s : σ) :
    Int × WorkerPool W × σ :=
  if pool.workers_.isEmpty = true then (-1, pool, s)
  else
    match std14_min_element (fun a b => decide (ops.size a < ops.size b)) pool.workers_ with
    | none => (-1, pool, s)
    | some (i, wk) =>
      ((ops.push wk message s).1,
        { workers_ := pool.workers_.set i (ops.push wk message s).2.1 },
        (ops.push wk message s).2.2)

end WorkerPool

/-! ## extra/TpsMeter.h

Time points of `std::chrono::system_clock` are integers counting nanoseconds. -/

/-- Models `std::chrono::seconds(1)` in clock ticks. -/
def one_second : Int := 1000000000

/-- Models `std::multiset<time_point, std::greater<time_point>>::insert`: the set is
kept in descending order and a new element goes behind the elements that are
not smaller. -/
def multiset_insert (t : Int) : List Int → List Int
  | [] => [t]
  | e :: es => if t > e then t :: e :: es else e :: multiset_insert t es

/-- Models `lower_bound(cutoff)` under `std::greater`: position of the first element
`e` for which `e > cutoff` is false. -/
def multiset_lower_bound (cutoff : Int) : List Int → Nat
  | [] => 0
  | e :: es => if e > cutoff then multiset_lower_bound cutoff es + 1 else 0

/-- State of `TpsMeter`: the multiset `transactions_`, newest first. -/
structure TpsMeter where
  transactions_ : List Int := []
deriving DecidableEq, Repr

namespace TpsMeter

/-- Member `cleanup_cutoff()`; `now` is the clock reading taken there. -/
def cleanup_cutoff (m : TpsMeter) (now : Int) : TpsMeter :=
  { transactions_ :=
      m.transactions_.take (multiset_lower_bound (now - one_second) m.transactions_) }

/-- Member `get_tps_nolock()`. -/
def get_tps_nolock (m : TpsMeter) (now : Int) : Nat × TpsMeter :=
  ((m.cleanup_cutoff now).transactions_.length, m.cleanup_cutoff now)

/-- Member `add_transaction()`; `now_insert` is the clock reading that is
recorded, `now` the later reading taken by `cleanup_cutoff`. -/
def add_transaction (m : TpsMeter) (now_insert now : Int) : Nat × TpsMeter :=
  get_tps_nolock { transactions_ := multiset_insert now_insert m.transactions_ } now

/-- Member `get_tps()`. -/
def get_tps (m : TpsMeter) (now : Int) : Nat × TpsMeter :=
  m.get_tps_nolock now

end TpsMeter

/-- A call on a `TpsMeter` made at one point in time `t`. -/
inductive TpsCall where
  | add_transaction (t : Int)
  | get_tps (t : Int)
deriving DecidableEq, Repr

/-- The time at which a call is made. -/
def TpsCall.time : TpsCall → Int
  | .add_transaction t => t
  | .get_tps t => t

/-- Perform one call: return value and meter afterwards. -/
def TpsMeter.call (m : TpsMeter) : TpsCall → Nat × TpsMeter
  | .add_transaction t => m.add_transaction t t
  | .get_tps t => m.get_tps t

/-- Perform a sequence of calls, oldest first. -/
def TpsMeter.run (m : TpsMeter) : List TpsCall → TpsMeter
  | [] => m
  | c :: cs => TpsMeter.run (m.call c).2 cs

/-- The timestamps recorded by a sequence of calls: one per `add_transaction`. -/
def recorded : List TpsCall → List Int
  | [] => []
  | .add_transaction t :: cs => t :: recorded cs
  | .get_tps _ :: cs => recorded cs

/-! ## extra/Toggle.h -/

/-- State of `Toggle`. -/
structure Toggle where
  on_ : Bool := false
  use_lock_ : Bool := true
deriving DecidableEq, Repr

/-- Models `Toggle::turn_on`: `true` only when the toggle was off. -/
def Toggle.turn_on (t : Toggle) : Bool × Toggle :=
  if t.on_ = true then (false, t) else (true, { t with on_ := true })

/-- Models `Toggle::turn_off`: `true` only when the toggle was on. -/
def Toggle.turn_off (t : Toggle) : Bool × Toggle :=
  if t.on_ = false then (false, t) else (true, { t with on_ := false })

/-! ## filter_info.h, filter_info/*.h -/

/-- Models `filtering_time_t`. -/
structure filtering_time_t where
  filterName : String
  startTime : Int
  endTime : Int
deriving DecidableEq, Repr

/-- Models `filtering_time_objs`, a `std::map<std::string, filtering_time_t>`: the
entries in key order. -/
abbrev filtering_time_objs := List (String × filtering_time_t)

/-- Models `filtering_times[key]` followed by the assignment of all three members of
the entry: the entry is created on first use and overwritten otherwise. -/
def filtering_time_objs.assign (key : String) (value : filtering_time_t) :
    filtering_time_objs → filtering_time_objs
  | [] => [(key, value)]
  | (k, v) :: rest =>
    if key < k then (key, value) :: (k, v) :: rest
    else if key = k then (k, value) :: rest
    else (k, v) :: filtering_time_objs.assign key value rest

/-- Models `result_info_t`. -/
structure result_info_t where
  smppResult : Int := 0
  resultCode : Int := 0
  reasonCode : Int := 0
  spamPattern1 : String := ""
  spamPattern2 : Option String := none
  spamPattern3 : Option String := none
  imageFileName : Option String := none
  filterStartTime : Int := 0
  filterEndTime : Int := 0
  filteringTime : filtering_time_objs := []
deriving DecidableEq, Repr

/-- Models `message_info_t`; `filter_info/message_info.h` is not among the sources,
the model keeps the member that the code at hand reads. -/
structure message_info_t where
  destinationMdn : String := ""
deriving DecidableEq, Repr

/-- Models `customer_info_t`; `filter_info/customer_info.h` is not among the sources,
the model keeps the member that the code at hand reads. -/
structure customer_info_t where
  traceFlag : Int := 0
deriving DecidableEq, Repr

/-- Models `filter_info_t`. -/
structure filter_info_t where
  messageInfo : message_info_t := {}
  customerInfo : customer_info_t := {}
  resultInfo : result_info_t := {}
deriving DecidableEq, Repr

/-! ## AppConf.h -/

/-- The members of `AppConf` read by the filter worker (`uint32_t` values). -/
structure AppConf where
  procname : String := ""
  nats_sender_subject : String := ""
  discard_timeout_ms : Nat := 3000
  discard_queue_size : Nat := 1000
  discard_tps_in : Nat := 1000
  discard_tps_out : Nat := 1000
deriving DecidableEq, Repr

/-- The result and reason codes of `asis_predefined.h`. The header is not
among the sources, so the values are parameters of the model. -/
structure Predefined where
  SMPP_DISCARD : Int
  SMPP_RESULT_HAM : Int
  SMPP_RESULT_SPAM : Int
  TRANS_RESULT_CODE_HAM_FAIL : Int
  TRANS_RESULT_CODE_SPAM : Int
  DISCARD_ENQUEUE_TPS : Int
  DISCARD_DEQUEUE_TPS : Int
  DISCARD_TIMEOUT : Int
  DISCARD_QUEUEFULL : Int
  SYSTEM_DB_ERROR : Int
  F01_TRAP_CUST_SPAM : Int
deriving DecidableEq, Repr

/-! ## The process around a filter worker -/

/-- Log levels of the stream logger. -/
inductive LogLevel where
  | error
  | warn
  | info
  | debug
deriving DecidableEq, Repr

/-- What a worker does to the outside, in the order it happens. -/
inductive Event where
  /-- one `sfs_log` / `ap_log` line -/
  | log (level : LogLevel) (message : String)
  /-- Models `nats_result.publish(to_json(filter))` -/
  | nats_result_publish (filter : filter_info_t)
  /-- Models `nats_sender.publish(to_json(filter))` -/
  | nats_sender_publish (filter : filter_info_t)
  /-- Models `trap_info_list.contains(number)` -/
  | trap_lookup (number : String)
  /-- execution of the `CustomerWithTrace` query for a number -/
  | customer_query (number : String)
deriving DecidableEq, Repr

/-- Outcome of the customer query: a first row, no row, or `sql::SQLException`
with its `what()` text. -/
inductive QueryResult where
  | row (customer : customer_info_t)
  | no_row
  | exception (what : String)
deriving DecidableEq, Repr

/-- The collaborators outside the engine, as functions: the codes, the JSON
conversions of `filter_info.h`, the trap list and the customer database.
`from_filter_info_json` is the value that the parser returns for a payload;
the calls in which the parser does not return are in
`FilterWorker.push_or_abort`. -/
structure Collaborators where
  codes : Predefined
  from_filter_info_json : String → Except String filter_info_t
  to_json : filter_info_t → String
  trap_numbers : List String
  customer_query : String → QueryResult

/-- The process-wide state a worker touches: the readings of
`std::chrono::system_clock` still to come (`clock`, in nanoseconds, `ticks`
of them already consumed), the singletons `tps_meter_in` and `tps_meter_out`,
the logger's debug switch, and the events so far. -/
structure World where
  clock : Nat → Int
  ticks : Nat
  tps_meter_in : TpsMeter
  tps_meter_out : TpsMeter
  filter_logger_debug_on : Bool
  events : List Event

namespace World

/-- Models `SysDateTime::now()` / `system_clock::now()`: the next clock reading. -/
def now (w : World) : Int × World :=
  (w.clock w.ticks, { w with ticks := w.ticks + 1 })

/-- Append one event. -/
def emit (w : World) (e : Event) : World :=
  { w with events := w.events ++ [e] }

/-- Models `tps_meter_in.get_tps()`. -/
def tps_meter_in_get_tps (w : World) : Nat × World :=
  ((w.tps_meter_in.get_tps w.now.1).1,
    { w.now.2 with tps_meter_in := (w.tps_meter_in.get_tps w.now.1).2 })

/-- Models `tps_meter_in.add_transaction()`: one reading is recorded, the next one
is used by the cleanup. -/
def tps_meter_in_add_transaction (w : World) : Nat × World :=
  ((w.tps_meter_in.add_transaction w.now.1 w.now.2.now.1).1,
    { w.now.2.now.2 with
      tps_meter_in := (w.tps_meter_in.add_transaction w.now.1 w.now.2.now.1).2 })

/-- Models `tps_meter_out.get_tps()`. -/
def tps_meter_out_get_tps (w : World) : Nat × World :=
  ((w.tps_meter_out.get_tps w.now.1).1,
    { w.now.2 with tps_meter_out := (w.tps_meter_out.get_tps w.now.1).2 })

/-- Models `tps_meter_out.add_transaction()`. -/
def tps_meter_out_add_transaction (w : World) : Nat × World :=
  ((w.tps_meter_out.add_transaction w.now.1 w.now.2.now.1).1,
    { w.now.2.now.2 with
      tps_meter_out := (w.tps_meter_out.add_transaction w.now.1 w.now.2.now.1).2 })

end World

/-- The stream logger joins the pieces of a line with its default delimiter,
one blank. -/
def log_line (pieces : List String) : String := String.intercalate " " pieces

/-! ## double arithmetic

The conversions and operations on `double` that the sources use, computed
exactly: a finite `double` is a pair of integers, and every operation returns
the `double` nearest to its exact result. The operands in the sources come
from `int64_t` values, so infinities and NaN do not arise and are not
modelled. -/

/-- A finite value of the C++ type `double` (IEEE 754 binary64): `m * 2 ^ e`. -/
structure double where
  m : Int
  e : Int
deriving DecidableEq, Repr

/-- Number of binary digits of `n` added to `acc`, by halving; `fuel` bounds
the halvings. -/
def bit_length_fuel : Nat → Nat → Nat → Nat
  | 0, _, acc => acc
  | _, 0, acc => acc
  | fuel + 1, n + 1, acc => bit_length_fuel fuel ((n + 1) / 2) (acc + 1)

/-- Number of binary digits of `n`. -/
def bit_length (n : Nat) : Nat := bit_length_fuel n n 0

/-- Nearest integer to `num / den` for a positive `den`, a tie going to the
even one. -/
def round_half_even (num : Int) (den : Nat) : Int :=
  if 2 * (num % den) < den then num / den
  else if (den : Int) < 2 * (num % den) then num / den + 1
  else if (num / den) % 2 = 0 then num / den else num / den + 1

/-- The exponent of the leading binary digit of `a / den`, both positive. -/
def binary_exponent (a den : Nat) : Int :=
  if den * 2 ^ ((bit_length a : Int) - bit_length den).toNat
      ≤ a * 2 ^ ((bit_length den : Int) - bit_length a).toNat
  then (bit_length a : Int) - bit_length den
  else (bit_length a : Int) - bit_length den - 1

/-- The `double` that an operation with the exact result `num / den` returns
in the default rounding mode, which the program never changes: the nearest
number with 53 significant binary digits and exponent at least `-1074`, a tie
going to the even significand. -/
def round_double (num : Int) (den : Nat) : double :=
  { m := round_half_even
      (num * 2 ^ (-(max (binary_exponent num.natAbs den - 52) (-1074))).toNat)
      (den * 2 ^ (max (binary_exponent num.natAbs den - 52) (-1074)).toNat),
    e := max (binary_exponent num.natAbs den - 52) (-1074) }

/-- Conversion of an `int64_t` to `double`. -/
def double_of_int64 (n : Int) : double := round_double n 1

/-- Conversion of a `double` to `int64_t`: the fraction is discarded. -/
def int64_of_double (x : double) : Int := Int.tdiv (x.m * 2 ^ x.e.toNat) (2 ^ (-x.e).toNat)

/-- Division of a `double` by the `double` literal `1000000.`. -/
def double_div_1000000 (x : double) : double :=
  round_double (x.m * 2 ^ x.e.toNat) (1000000 * 2 ^ (-x.e).toNat)

/-- Subtraction of two `double` values. -/
def double_sub (x y : double) : double :=
  round_double
    ((x.m * 2 ^ (x.e - min x.e y.e).toNat - y.m * 2 ^ (y.e - min x.e y.e).toNat)
      * 2 ^ (min x.e y.e).toNat)
    (2 ^ (-(min x.e y.e)).toNat)

/-- The rational number that a `double` stands for; the properties of the
arithmetic are stated with it. -/
def double.value (x : double) : ℚ := x.m * (2 : ℚ) ^ x.e

/-- Nearest integer to a rational number, a tie going to the even one. -/
def round_half_even_rat (x : ℚ) : Int :=
  if x - ⌊x⌋ < 1 / 2 then ⌊x⌋
  else if 1 / 2 < x - ⌊x⌋ then ⌊x⌋ + 1
  else if ⌊x⌋ % 2 = 0 then ⌊x⌋ else ⌊x⌋ + 1

/-! ## extra/SysDateTime.h -/

/-- Models `SysDateTime::duration_t::millisecs()`: `nanosecs() / 1000000.`, the
`int64_t` count of nanoseconds converted to `double` and divided as a
`double`. -/
def millisecs (nanosecs : Int) : double := double_div_1000000 (double_of_int64 nanosecs)

/-- What an `int64_t` holds after `duration().millisecs()` is assigned to it. -/
def millisecs_int64 (nanosecs : Int) : Int := int64_of_double (millisecs nanosecs)

/-- The results handed to `nats_result.publish`, oldest first. -/
def published_results : List Event → List filter_info_t
  | [] => []
  | .nats_result_publish f :: es => f :: published_results es
  | _ :: es => published_results es

/-- Whether an event is a business step of the auth filter: a trap lookup, a
customer query or a publish to the next stage. -/
def Event.is_business_step : Event → Bool
  | .trap_lookup _ => true
  | .customer_query _ => true
  | .nats_sender_publish _ => true
  | _ => false

/-! ## FilterWorker.h, FilterWorker.cpp -/

/-- The queue item of a filter worker: subject, filter and receive time
(`std::tuple<std::string, filter_info_t, SysDateTime>`, the time in
nanoseconds). -/
abbrev QueueItem := String × filter_info_t × Int

/-- State of `FilterWorker`. -/
structure FilterWorker extends Worker QueueItem where
  handle_discard_ : Bool := false
  error_toggle_ : Toggle := { on_ := false, use_lock_ := false }

namespace FilterWorker

/-- Member `set_filtering_time(filtering_times, recv_time)`. -/
def set_filtering_time (conf : AppConf) (filtering_times : filtering_time_objs)
    (recv_time : Int) (w : World) : filtering_time_objs × World :=
  (filtering_time_objs.assign conf.procname
      { filterName := conf.procname,
        startTime := millisecs_int64 recv_time,
        endTime := millisecs_int64 w.now.1 } filtering_times,
    w.now.2)

/-- Member `to_result_nats(filter, recv_time, smpp_result, result_code,
reason_code)`: returns the filter as published. -/
def to_result_nats (C : Collaborators) (conf : AppConf) (self : FilterWorker)
    (filter : filter_info_t) (recv_time : Int) (smpp_result result_code reason_code : Int)
    (w : World) : filter_info_t × World :=
  let result : result_info_t :=
    { filter.resultInfo with
      smppResult := smpp_result, resultCode := result_code, reasonCode := reason_code }
  let times := set_filtering_time conf result.filteringTime recv_time w
  let filter1 : filter_info_t :=
    { filter with resultInfo := { result with filteringTime := times.1 } }
  let tps := times.2.tps_meter_out_get_tps
  let line := log_line
    ["out tps:", toString (if self.handle_discard_ = true then tps.1 else tps.1 + 1),
      ":result nats:",
      if tps.2.filter_logger_debug_on = true
        then conf.nats_sender_subject ++ " " ++ C.to_json filter1
        else conf.nats_sender_subject]
  (filter1, (tps.2.emit (.log .info line)).emit (.nats_result_publish filter1))

/-- Member `to_next_nats(filter, recv_time)`: returns the filter as published. -/
def to_next_nats (C : Collaborators) (conf : AppConf) (filter : filter_info_t)
    (recv_time : Int) (w : World) : filter_info_t × World :=
  let times := set_filtering_time conf filter.resultInfo.filteringTime recv_time w
  let filter1 : filter_info_t :=
    { filter with resultInfo := { filter.resultInfo with filteringTime := times.1 } }
  let tps := times.2.tps_meter_out_get_tps
  let line := log_line
    ["out tps:", toString (tps.1 + 1), ":next nats:",
      if tps.2.filter_logger_debug_on = true
        then conf.nats_sender_subject ++ " " ++ C.to_json filter1
        else conf.nats_sender_subject]
  (filter1, (tps.2.emit (.log .info line)).emit (.nats_sender_publish filter1))

/-- Member `parse_message(message)`, for a call of `from_filter_info_json` that
returns. -/
def parse_message (C : Collaborators) (self : FilterWorker) (message : String) (w : World) :
    Option filter_info_t × FilterWorker × World :=
  match C.from_filter_info_json message with
  | .error e =>
    (none, { self with error_toggle_ := self.error_toggle_.turn_on.2 },
      w.emit (.log .error e))
  | .ok filter =>
    (some filter, { self with error_toggle_ := self.error_toggle_.turn_off.2 },
      if self.error_toggle_.turn_off.1 = true
        then w.emit (.log .info "JSON parse error cleared.") else w)

/-- Member `discard_tps_in(filter, recv_time)`. -/
def discard_tps_in (C : Collaborators) (conf : AppConf) (self : FilterWorker)
    (filter : filter_info_t) (recv_time : Int) (w : World) : Bool × filter_info_t × World :=
  let current := w.tps_meter_in_get_tps
  if current.1 < conf.discard_tps_in then (false, filter, current.2)
  else
    let filter1 : filter_info_t :=
      { filter with resultInfo := { filter.resultInfo with
          spamPattern1 := toString current.1 ++ "/" ++ toString conf.discard_tps_in } }
    let sent := to_result_nats C conf self filter1 recv_time C.codes.SMPP_DISCARD
      C.codes.TRANS_RESULT_CODE_HAM_FAIL C.codes.DISCARD_ENQUEUE_TPS current.2
    (true, sent.1, sent.2)

/-- Member `discard_tps_out(filter, recv_time)`. -/
def discard_tps_out (C : Collaborators) (conf : AppConf) (self : FilterWorker)
    (filter : filter_info_t) (recv_time : Int) (w : World) : Bool × filter_info_t × World :=
  let current := w.tps_meter_out_get_tps
  if current.1 < conf.discard_tps_out then (false, filter, current.2)
  else
    let filter1 : filter_info_t :=
      { filter with resultInfo := { filter.resultInfo with
          spamPattern1 := toString current.1 ++ "/" ++ toString conf.discard_tps_out } }
    let sent := to_result_nats C conf self filter1 recv_time C.codes.SMPP_DISCARD
      C.codes.TRANS_RESULT_CODE_HAM_FAIL C.codes.DISCARD_DEQUEUE_TPS current.2
    (true, sent.1, sent.2)

/-- The `duration_millisecs` of `discard_timeout`:
`SysDateTime::now().duration().millisecs() - filter.resultInfo.filterStartTime`,
a `double` minus an `int64_t` that is converted to `double` first, the
difference converted to `int64_t`. -/
def duration_millisecs (now_nanosecs : Int) (filterStartTime : Int) : Int :=
  int64_of_double (double_sub (millisecs now_nanosecs) (double_of_int64 filterStartTime))

/-- Member `discard_timeout(filter, recv_time)`. -/
def discard_timeout (C : Collaborators) (conf : AppConf) (self : FilterWorker)
    (filter : filter_info_t) (recv_time : Int) (w : World) : Bool × filter_info_t × World :=
  let duration := duration_millisecs w.now.1 filter.resultInfo.filterStartTime
  if duration < (conf.discard_timeout_ms : Int) then (false, filter, w.now.2)
  else
    let filter1 : filter_info_t :=
      { filter with resultInfo := { filter.resultInfo with
          spamPattern1 := toString duration ++ "/" ++ toString conf.discard_timeout_ms } }
    let sent := to_result_nats C conf self filter1 recv_time C.codes.SMPP_DISCARD
      C.codes.TRANS_RESULT_CODE_HAM_FAIL C.codes.DISCARD_TIMEOUT w.now.2
    (true, sent.1, sent.2)

/-- Member `discard_queue_full(filter, recv_time)`. -/
def discard_queue_full (C : Collaborators) (conf : AppConf) (self : FilterWorker)
    (filter : filter_info_t) (recv_time : Int) (w : World) : Bool × filter_info_t × World :=
  let filter1 : filter_info_t :=
    { filter with resultInfo := { filter.resultInfo with
        spamPattern1 := toString self.waiter_.size ++ "/" ++ toString conf.discard_queue_size } }
  let sent := to_result_nats C conf self filter1 recv_time C.codes.SMPP_DISCARD
    C.codes.TRANS_RESULT_CODE_HAM_FAIL C.codes.DISCARD_QUEUEFULL w
  (true, sent.1, sent.2)

/-- Member `handle_discard(filter, recv_time)`: the `ScopeExit` sets
`handle_discard_` on every return except the last one. -/
def handle_discard (C : Collaborators) (conf : AppConf) (self : FilterWorker)
    (filter : filter_info_t) (recv_time : Int) (w : World) :
    Bool × filter_info_t × FilterWorker × World :=
  let out := discard_tps_out C conf self filter recv_time w
  if out.1 = true then (true, out.2.1, { self with handle_discard_ := true }, out.2.2)
  else
    let late := discard_timeout C conf self out.2.1 recv_time out.2.2
    if late.1 = true then (true, late.2.1, { self with handle_discard_ := true }, late.2.2)
    else (false, late.2.1, self, late.2.2)

/-- The `SCOPE_EXIT` of `push`: the log line with `tps_meter_in.get_tps()`. -/
def push_scope_exit (subject_message : String × String) (w : World) : World :=
  let tps := w.tps_meter_in_get_tps
  tps.2.emit (.log .info (log_line
    ["in tps:", toString tps.1, ":recv nats:",
      if tps.2.filter_logger_debug_on = true
        then subject_message.1 ++ " " ++ subject_message.2
        else subject_message.1]))

/-- Member `push(subject_message)`. -/
def push (C : Collaborators) (conf : AppConf) (env : Interference QueueItem)
    (self : FilterWorker) (subject_message : String × String) (w : World) :
    Int × FilterWorker × World :=
  let recv_time := w.now
  let parsed := parse_message C self subject_message.2 recv_time.2
  match parsed.1 with
  | none => (0, parsed.2.1, parsed.2.2)
  | some filter =>
    let ingress := discard_tps_in C conf parsed.2.1 filter recv_time.1 parsed.2.2
    if ingress.1 = true then (0, parsed.2.1, push_scope_exit subject_message ingress.2.2)
    else
      let w1 := push_scope_exit subject_message ingress.2.2.tps_meter_in_add_transaction.2
      let res := Worker.try_push env parsed.2.1.toWorker
        (subject_message.1, ingress.2.1, recv_time.1) 1000
      let self1 : FilterWorker := { parsed.2.1 with toWorker := res.worker }
      if res.result < 0 then (res.result, self1, w1)
      else if res.result = EAGAIN then
        (0, self1, (discard_queue_full C conf self1 ingress.2.1 recv_time.1 w1).2.2)
      else (res.result, self1, w1)

end FilterWorker

/-! ## auth-filter/AuthFilterWorker.cpp -/

namespace AuthFilterWorker

/-- Member `set_customer_info(filter, recv_time)`. -/
def set_customer_info (C : Collaborators) (conf : AppConf) (self : FilterWorker)
    (filter : filter_info_t) (recv_time : Int) (w : World) : Bool × filter_info_t × World :=
  let w1 := w.emit (.customer_query filter.messageInfo.destinationMdn)
  match C.customer_query filter.messageInfo.destinationMdn with
  | .row customer => (true, { filter with customerInfo := customer }, w1)
  | .no_row =>
    let filter1 : filter_info_t :=
      { filter with resultInfo := { filter.resultInfo with
          spamPattern1 := "not found destinationMdn: " ++ filter.messageInfo.destinationMdn } }
    let sent := FilterWorker.to_result_nats C conf self filter1 recv_time
      C.codes.SMPP_RESULT_HAM C.codes.TRANS_RESULT_CODE_HAM_FAIL C.codes.SYSTEM_DB_ERROR w1
    (false, sent.1, sent.2)
  | .exception what =>
    let filter1 : filter_info_t :=
      { filter with resultInfo := { filter.resultInfo with spamPattern1 := what } }
    let sent := FilterWorker.to_result_nats C conf self filter1 recv_time
      C.codes.SMPP_RESULT_HAM C.codes.TRANS_RESULT_CODE_HAM_FAIL C.codes.SYSTEM_DB_ERROR w1
    (false, sent.1, sent.2)

/-- Member `handle_filter(filter, subject, recv_time)`. -/
def handle_filter (C : Collaborators) (conf : AppConf) (self : FilterWorker)
    (filter : filter_info_t) (subject : String) (recv_time : Int) (w : World) :
    FilterWorker × World :=
  let w0 := w.emit (.log .debug subject)
  let discard := FilterWorker.handle_discard C conf self filter recv_time w0
  if discard.1 = true then (discard.2.2.1, discard.2.2.2)
  else
    let self1 := discard.2.2.1
    let filter1 := discard.2.1
    let w1 := discard.2.2.2.emit (.trap_lookup filter1.messageInfo.destinationMdn)
    if C.trap_numbers.contains filter1.messageInfo.destinationMdn = true then
      let filter2 : filter_info_t :=
        { filter1 with resultInfo := { filter1.resultInfo with
            spamPattern1 := filter1.messageInfo.destinationMdn } }
      (self1, (FilterWorker.to_result_nats C conf self1 filter2 recv_time
        C.codes.SMPP_RESULT_SPAM C.codes.TRANS_RESULT_CODE_SPAM C.codes.F01_TRAP_CUST_SPAM w1).2)
    else
      let customer := set_customer_info C conf self1 filter1 recv_time w1
      if customer.1 = false then (self1, customer.2.2)
      else if customer.2.1.customerInfo.traceFlag ≠ 0 then
        (self1, (FilterWorker.to_next_nats C conf customer.2.1 recv_time customer.2.2).2)
      else (self1, (FilterWorker.to_next_nats C conf customer.2.1 recv_time customer.2.2).2)

end AuthFilterWorker

/-! ## Scenario inputs -/

/-- Scenario input: codes numbered from one. -/
def scenario_codes : Predefined :=
  { SMPP_DISCARD := 1, SMPP_RESULT_HAM := 2, SMPP_RESULT_SPAM := 3,
    TRANS_RESULT_CODE_HAM_FAIL := 4, TRANS_RESULT_CODE_SPAM := 5,
    DISCARD_ENQUEUE_TPS := 6, DISCARD_DEQUEUE_TPS := 7, DISCARD_TIMEOUT := 8,
    DISCARD_QUEUEFULL := 9, SYSTEM_DB_ERROR := 10, F01_TRAP_CUST_SPAM := 11 }

/-- Scenario input: every payload parses to the default filter, the trap list
is empty and the customer query finds no row. -/
def scenario_collaborators : Collaborators :=
  { codes := scenario_codes,
    from_filter_info_json := fun _ => Except.ok {},
    to_json := fun _ => "",
    trap_numbers := [],
    customer_query := fun _ => QueryResult.no_row }

/-- Scenario input: a process whose clock always reads `0.5 s`, with the given
timestamps in the two meters and no event so far. -/
def scenario_world (in_window out_window : List Int) : World :=
  { clock := fun _ => 500000000, ticks := 0,
    tps_meter_in := { transactions_ := in_window },
    tps_meter_out := { transactions_ := out_window },
    filter_logger_debug_on := false, events := [] }

/-- Scenario input: a process whose clock always reads `nanosecs`, with empty
meters and no event so far. -/
def scenario_clock_world (nanosecs : Int) : World :=
  { scenario_world [] [] with clock := fun _ => nanosecs }

/-- Scenario input: a started worker whose queue of the given capacity holds
the given items. -/
def scenario_worker (capacity : Nat) (queue : List QueueItem) : FilterWorker :=
  { waiter_ := { capacity := capacity, queue_ := queue, signal_ := {}, open_ := true,
                 size_ := queue.length },
    assigned_no_ := 1 }

/-- Scenario input: as `scenario_collaborators`, but only the payload `ok`
parses; every other payload is a parse error. -/
def scenario_strict_collaborators : Collaborators :=
  { scenario_collaborators with
    from_filter_info_json := fun s =>
      if s = "ok" then Except.ok {} else Except.error "JSON parse error!" }
/-! ## NatsRecvers.h -/

/-- What a pool of filter workers hands to `WorkerPool`: `size()` of the
worker and `FilterWorker::push`; the state shared by the workers is the
process `World`. -/
def filter_worker_ops (C : Collaborators) (conf : AppConf) (env : Interference QueueItem) :
    WorkerOps FilterWorker (String × String) World :=
  { size := fun worker => worker.toWorker.size,
    push := fun worker message w => FilterWorker.push C conf env worker message w }

namespace NatsRecvers

/-- The callback that `start()` gives to `subscribeGroup`: the `while (true)`
loop around `worker_pool.push`, which returns on `0` and on `-1` and goes
round again on every other code. `push` is the push of the pool on the state
of pool and process; `fuel` bounds the number of iterations. -/
def callback {σ : Type} (push : σ → Int × σ) : Nat → σ → Option σ
  | 0, _ => none
  | fuel + 1, s =>
    if (push s).1 = 0 then some (push s).2
    else if (push s).1 = -1 then some (push s).2
    else callback push fuel (push s).2

/-- The push of a pool of filter workers for one delivered message, on the
pair of pool and process state. -/
def pool_push (C : Collaborators) (conf : AppConf) (env : Interference QueueItem)
    (subject message : String) (s : WorkerPool FilterWorker × World) :
    Int × WorkerPool FilterWorker × World :=
  WorkerPool.push (filter_worker_ops C conf env) s.1 (subject, message) s.2

end NatsRecvers
/-- Scenario driver: `push` for each delivered message in turn on the same
worker, no other thread touching the queue. -/
def FilterWorker.push_each (C : Collaborators) (conf : AppConf) :
    FilterWorker → World → List (String × String) → FilterWorker × World
  | self, w, [] => (self, w)
  | self, w, m :: ms =>
    FilterWorker.push_each C conf (FilterWorker.push C conf (fun _ q => q) self m w).2.1
      (FilterWorker.push C conf (fun _ q => q) self m w).2.2 ms

/-- The messages of the error-level log lines among the events, oldest first. -/
def error_logs : List Event → List String
  | [] => []
  | .log .error message :: es => message :: error_logs es
  | _ :: es => error_logs es
/-- The filters handed to `nats_sender.publish`, oldest first. -/
def published_next : List Event → List filter_info_t
  | [] => []
  | .nats_sender_publish f :: es => f :: published_next es
  | _ :: es => published_next es
/-! ## NatsPublisher.h, NatsPublisherPool.h -/

/-- State of `NatsPublisher`: the spinning queue `waiter_` of subject and
message pairs and the ordinal. -/
structure NatsPublisher where
  waiter_ : BlockingLockFreeQueue (String × String)
  assigned_no_ : Nat

/-- Member `publish(subject, message)` of `NatsPublisher`: a single
`waiter_.push`; when it does not return `0` the item is destroyed and the
call returns all the same. -/
def NatsPublisher.publish (p : NatsPublisher) (subject message : String) : NatsPublisher :=
  { p with waiter_ := (p.waiter_.push false (subject, message)).2 }

/-- The members of `NatsPublisherPool::params_t`. -/
structure NatsPublisherPool.params_t where
  publisher_num : Nat := 1
  queue_size : Nat := 10000
  urls : List String := []
  subject : String := ""

/-- State of `NatsPublisherPool`. -/
structure NatsPublisherPool where
  params_ : NatsPublisherPool.params_t
  publishers_ : List NatsPublisher
  sequence_ : Nat

/-- Member `publish(message, subject)` of `NatsPublisherPool`: the return
value, the pool afterwards and the log lines written. Without publishers the
index `sequence_ % publishers_.size()` is undefined and the model has no
result. `sequence_` is a `size_t`. -/
def NatsPublisherPool.publish (pool : NatsPublisherPool) (message : String) (subject : String) :
    Option (Bool × NatsPublisherPool × List Event) :=
  if subject = "" ∧ pool.params_.subject = "" then
    some (false, pool, [Event.log LogLevel.error "subject is empty"])
  else
    match pool.publishers_[pool.sequence_ % pool.publishers_.length]? with
    | none => none
    | some publisher =>
      some (true,
        { pool with
          publishers_ := pool.publishers_.set (pool.sequence_ % pool.publishers_.length)
            (publisher.publish (if subject = "" then pool.params_.subject else subject) message),
          sequence_ := (pool.sequence_ + 1) % 2 ^ 64 },
        [])

/-- Scenario input: a result publisher pool with subject `result` and one
started publisher whose queue of capacity one already holds a message. -/
def scenario_full_result_pool : NatsPublisherPool :=
  { params_ := { subject := "result" },
    publishers_ :=
      [{ waiter_ := { capacity := 1, queue_ := [("result", "old")], signal_ := {},
                      open_ := true, size_ := 1 },
         assigned_no_ := 1 }],
    sequence_ := 0 }
/-! ## FilterWorker::run, LockFreeQueueThread::stop -/

namespace BlockingLockFreeQueue

/-- The `while` loop of `adaptive_pop` with the other threads made explicit:
`env round` is what they do to the queue between the failed `queue_.pop` of
that round and the `open_.load()` that follows it. -/
def adaptive_pop_loop_with {T : Type} (env : Interference T) (timeout_ms : Int)
    (steady : Nat → Int) (sta : Int) :
    Nat → BlockingLockFreeQueue T → Nat → Nat → Nat →
      Option (Int × Option T × BlockingLockFreeQueue T)
  | 0, _, _, _, _ => none
  | fuel + 1, q, reads, fails, round =>
    match lockfree_pop q.queue_ with
    | some (x, rest) => some (0, some x, { q with queue_ := rest, size_ := q.size_ - 1 })
    | none =>
      if (env round q).open_ = false then some (-1, none, env round q)
      else if timeout_ms > 0 then
        if Int.tdiv (steady reads - sta) 1000000 ≥ timeout_ms then
          some (ETIMEDOUT, none, env round q)
        else adaptive_pop_loop_with env timeout_ms steady sta fuel (env round q) (reads + 1)
          (if fails < 1000 then fails + 1 else fails) (round + 1)
      else adaptive_pop_loop_with env timeout_ms steady sta fuel (env round q) reads
        (if fails < 1000 then fails + 1 else fails) (round + 1)

/-- Member `adaptive_pop(item, timeout_ms)` with the other threads made explicit. -/
def adaptive_pop_with {T : Type} (env : Interference T) (q : BlockingLockFreeQueue T)
    (timeout_ms : Int) (steady : Nat → Int) (fuel : Nat) :
    Option (Int × Option T × BlockingLockFreeQueue T) :=
  adaptive_pop_loop_with env timeout_ms steady (steady 0) fuel q 1 0 0

end BlockingLockFreeQueue

/-- Member `assigned_no_str()` of `Worker`, `to_stringf(assigned_no_, "%02d")`:
the ordinal in at least two digits. -/
def Worker.assigned_no_str {T : Type} (w : Worker T) : String :=
  if w.assigned_no_ < 10 then "0" ++ toString w.assigned_no_ else toString w.assigned_no_

/-- The virtual member `handle_filter(filter, subject, recv_time)` of a filter
worker, as a function of worker and process. -/
abbrev HandleFilter := FilterWorker → filter_info_t → String → Int → World → FilterWorker × World

namespace FilterWorker

/-- Member `handle_filter` of the base class `FilterWorker`: it does nothing. -/
def handle_filter : HandleFilter := fun self _ _ _ w => (self, w)

/-- The body of the `while` loop of `run()` for one dequeued item:
`handle_discard_` is reset, `handle_filter` runs, and on leaving the scope the
`SCOPE_EXIT` calls `tps_meter_out.add_transaction()` unless `handle_discard_`
is set. -/
def run_body (handle_filter : HandleFilter) (self : FilterWorker) (item : QueueItem)
    (w : World) : FilterWorker × World :=
  let handled := handle_filter { self with handle_discard_ := false } item.2.1 item.1 item.2.2 w
  if handled.1.handle_discard_ = true then handled
  else (handled.1, handled.2.tps_meter_out_add_transaction.2)

/-- The call `waiter_.pop(queueable_item)` as the worker thread executes it:
the queue before the call to the return code, the item and the queue after it. -/
abbrev WaiterPop :=
  BlockingLockFreeQueue QueueItem →
    Option (Int × Option QueueItem × BlockingLockFreeQueue QueueItem)

/-- The `while (waiter_.pop(queueable_item) == 0)` loop of `run()` and the log
line after it. `fuel` bounds the number of `pop` calls. A `pop` that returns
`0` always carries an item. -/
def run_loop (handle_filter : HandleFilter) (pop : WaiterPop) :
    Nat → FilterWorker → World → Option (FilterWorker × World)
  | 0, _, _ => none
  | fuel + 1, self, w =>
    match pop self.waiter_ with
    | none => none
    | some (code, item, q) =>
      if code = 0 then
        match item with
        | none => none
        | some it =>
          run_loop handle_filter pop fuel
            (run_body handle_filter { self with waiter_ := q } it w).1
            (run_body handle_filter { self with waiter_ := q } it w).2
      else
        some ({ self with waiter_ := q },
          w.emit (.log .info (log_line ["Stop FilterWorker:", self.assigned_no_str])))

/-- Member `run()`. -/
def run (handle_filter : HandleFilter) (pop : WaiterPop) (fuel : Nat)
    (self : FilterWorker) (w : World) : Option (FilterWorker × World) :=
  run_loop handle_filter pop fuel self
    (w.emit (.log .info (log_line ["Start FilterWorker:", self.assigned_no_str])))

/-- Member `stop()` inherited from `LockFreeQueueThread`, for a started worker
whose thread is about to call `pop`: the queue is closed and `MThread::join()`
returns `true` once the loop of `run()` has ended. -/
def stop (handle_filter : HandleFilter) (pop : WaiterPop) (fuel : Nat)
    (self : FilterWorker) (w : World) : Option (Bool × FilterWorker × World) :=
  if self.waiter_.is_open = false then some (true, self, w)
  else
    match run_loop handle_filter pop fuel
        { self with waiter_ := self.waiter_.close false } w with
    | none => none
    | some done => some (true, done.1, done.2)

/-- Scenario driver: the loop body for each of the given items in turn, each
item being taken from the head of the worker queue first. -/
def handle_each (handle_filter : HandleFilter) :
    List QueueItem → FilterWorker → World → FilterWorker × World
  | [], self, w => (self, w)
  | it :: rest, self, w =>
    handle_each handle_filter rest
      (run_body handle_filter
        { self with waiter_ := { self.waiter_ with queue_ := self.waiter_.queue_.tail, size_ := self.waiter_.size_ - 1 } } it w).1
      (run_body handle_filter
        { self with waiter_ := { self.waiter_ with queue_ := self.waiter_.queue_.tail, size_ := self.waiter_.size_ - 1 } } it w).2

end FilterWorker

/-- Scenario input: a `handle_filter` that records the subject of every item
it is given and nothing else. -/
def scenario_recording_handler : HandleFilter :=
  fun self _ subject _ w => (self, w.emit (.log .debug subject))

/-! ## extra/MSignal.h: sequences of calls, `wait(func)` -/

/-- A call made on one `MSignal`, the calls being made one after the other. -/
inductive SignalCall where
  | notify_one
  | wait (msec : Nat)
deriving DecidableEq, Repr

/-- What a call did, as seen from outside: a notification was sent, or a `wait`
returned `true` (woken up) or `false` (timed out). -/
inductive SignalEvent where
  | notified
  | woken_up
  | timed_out
deriving DecidableEq, Repr

/-- Scenario driver: the calls one after the other on the same signal; the
events so far are extended by one event per call. A `wait` that never returns
ends the run without a result. -/
def MSignal.run : MSignal → List SignalCall → List SignalEvent →
    Option (List SignalEvent × MSignal)
  | s, [], history => some (history, s)
  | s, .notify_one :: calls, history =>
    MSignal.run s.notify_one calls (history ++ [.notified])
  | s, .wait msec :: calls, history =>
    match s.wait msec with
    | none => none
    | some (woken, s1) =>
      MSignal.run s1 calls (history ++ [if woken = true then .woken_up else .timed_out])

/-- The wording of the contract, to be compared with the flag of the code: a
notification has occurred since the last `wait` that was woken up, or since
construction when no `wait` was woken up. -/
def notified_since_last_wakeup (history : List SignalEvent) : Prop :=
  ∃ before after, history = before ++ SignalEvent.notified :: after ∧
    SignalEvent.woken_up ∉ after

/-- One call of the predicate `pred` of `wait(func)`, as bookkeeping of the
model: the local copy `signaled` and, when `func` was called, what it returned. -/
structure PredCall where
  signaled : Bool
  evaluated : Option Bool
deriving DecidableEq, Repr

/-- The lambda `pred` of `MSignal::wait(std::function<bool()> func)`. `func`
reads the state `x` shared with the notifying thread; `none` is `nullptr`.
Result: the return value, `count` and the signal afterwards, and the record of
the call. -/
def MSignal.wait_func_pred {σ : Type} (func : Option (σ → Bool)) (count : Nat) (s : MSignal)
    (x : σ) : Bool × Nat × MSignal × PredCall :=
  let signaled := s.signaled_
  let s1 : MSignal := if s.signaled_ = true then { s with signaled_ := false } else s
  match func with
  | some f =>
    if count = 0 then (f x, count + 1, s1, { signaled := signaled, evaluated := some (f x) })
    else if signaled = true then
      (f x, count + 1, s1, { signaled := signaled, evaluated := some (f x) })
    else (signaled, count + 1, s1, { signaled := signaled, evaluated := none })
  | none => (signaled, count, s1, { signaled := signaled, evaluated := none })

/-- The `cond_.wait(lock, pred)` of `wait(func)`, that is `while (!pred())
cond_.wait(lock)`. While the thread sleeps in round `round` the mutex is free
and the other threads do `env round` to the signal and to the shared state;
then the thread wakes up, because of a notification or without one. `fuel`
bounds the number of calls of `pred`; `calls` records them. -/
def MSignal.wait_func_loop {σ : Type} (func : Option (σ → Bool))
    (env : Nat → MSignal × σ → MSignal × σ) :
    Nat → Nat → Nat → MSignal → σ → List PredCall → Option (MSignal × σ × List PredCall)
  | 0, _, _, _, _, _ => none
  | fuel + 1, round, count, s, x, calls =>
    if (s.wait_func_pred func count x).1 = true then
      some ((s.wait_func_pred func count x).2.2.1, x,
        calls ++ [(s.wait_func_pred func count x).2.2.2])
    else
      MSignal.wait_func_loop func env fuel (round + 1) (s.wait_func_pred func count x).2.1
        (env round ((s.wait_func_pred func count x).2.2.1, x)).1
        (env round ((s.wait_func_pred func count x).2.2.1, x)).2
        (calls ++ [(s.wait_func_pred func count x).2.2.2])

/-- Models `MSignal::wait(std::function<bool()> func)`: signal and shared state when
the call returns, and the record of the calls of `pred`. -/
def MSignal.wait_func {σ : Type} (func : Option (σ → Bool))
    (env : Nat → MSignal × σ → MSignal × σ) (fuel : Nat) (s : MSignal) (x : σ) :
    Option (MSignal × σ × List PredCall) :=
  MSignal.wait_func_loop func env fuel 0 0 s x []

/-- Scenario input: the shared state is a counter. In round `0` the other
thread raises it to `5` without notifying (the wakeup that follows is not due
to a notification); in every later round it notifies. -/
def scenario_wait_env : Nat → MSignal × Nat → MSignal × Nat :=
  fun round st => if round = 0 then (st.1, 5) else (st.1.notify_one, st.2)
/-! ## rapidjson values (`rapidjson::Value`), as far as the sources use them

Strings are taken without embedded NUL characters. An integer number is kept
with its value; `IsInt` and `IsInt64` are the range tests of the library. -/

/-- How a call ends: with a value, with a thrown `std::string`, or in a failed
`RAPIDJSON_ASSERT` (by default `assert`, which aborts the process). -/
inductive Outcome (α : Type) where
  | value (a : α)
  | thrown (what : String)
  | assertion (condition : String)
deriving DecidableEq, Repr

/-- Sequencing: the second step runs only after a value. -/
def Outcome.bind {α β : Type} (o : Outcome α) (next : α → Outcome β) : Outcome β :=
  match o with
  | .value a => next a
  | .thrown what => .thrown what
  | .assertion condition => .assertion condition

/-- Models `rapidjson::Value`. -/
inductive RapidValue where
  | null
  | bool (b : Bool)
  | int (n : Int)
  | double (text : String)
  | string (s : String)
  | array (items : List RapidValue)
  | object (members : List (String × RapidValue))

namespace RapidValue

/-- Member `IsObject()`. -/
def IsObject : RapidValue → Bool
  | .object _ => true
  | _ => false

/-- Member `IsArray()`. -/
def IsArray : RapidValue → Bool
  | .array _ => true
  | _ => false

/-- Member `IsString()`. -/
def IsString : RapidValue → Bool
  | .string _ => true
  | _ => false

/-- Member `IsInt()`: an integer that fits `int32_t`. -/
def IsInt : RapidValue → Bool
  | .int n => decide (-2147483648 ≤ n ∧ n ≤ 2147483647)
  | _ => false

/-- Member `IsInt64()`: an integer that fits `int64_t`. -/
def IsInt64 : RapidValue → Bool
  | .int n => decide (-9223372036854775808 ≤ n ∧ n ≤ 9223372036854775807)
  | _ => false

/-- Member `HasMember(name)`: asserts `IsObject()`. -/
def HasMember (v : RapidValue) (name : String) : Outcome Bool :=
  match v with
  | .object members => .value (members.lookup name).isSome
  | _ => .assertion "IsObject()"

/-- Models `operator[](name)`: the first member of that name; asserts `IsObject()` and
that the member exists. -/
def member (v : RapidValue) (name : String) : Outcome RapidValue :=
  match v with
  | .object members =>
    match members.lookup name with
    | some x => .value x
    | none => .assertion "member not found"
  | _ => .assertion "IsObject()"

/-- Member `GetString()`: asserts `IsString()`. -/
def GetString : RapidValue → Outcome String
  | .string s => .value s
  | _ => .assertion "IsString()"

/-- Member `GetInt()`: asserts `IsInt()`. -/
def GetInt (v : RapidValue) : Outcome Int :=
  match v with
  | .int n => if v.IsInt = true then .value n else .assertion "IsInt()"
  | _ => .assertion "IsInt()"

/-- Member `GetInt64()`: asserts `IsInt64()`. -/
def GetInt64 (v : RapidValue) : Outcome Int :=
  match v with
  | .int n => if v.IsInt64 = true then .value n else .assertion "IsInt64()"
  | _ => .assertion "IsInt64()"

end RapidValue

/-! ## extra/rapidjson_helper.h -/

/-- Models `is_valid(const int32_t &, obj, name)`. -/
def is_valid_int32 (obj : RapidValue) (name : String) : Outcome Bool :=
  (obj.HasMember name).bind fun has =>
    if has = false then .value false
    else (obj.member name).bind fun v => .value v.IsInt

/-- Models `is_valid(const int64_t &, obj, name)`. -/
def is_valid_int64 (obj : RapidValue) (name : String) : Outcome Bool :=
  (obj.HasMember name).bind fun has =>
    if has = false then .value false
    else (obj.member name).bind fun v => .value v.IsInt64

/-- Models `is_valid(const std::string &, obj, name)`. -/
def is_valid_string (obj : RapidValue) (name : String) : Outcome Bool :=
  (obj.HasMember name).bind fun has =>
    if has = false then .value false
    else (obj.member name).bind fun v => .value v.IsString

/-- Models `set_value(int32_t &, obj, name)`: the value stored into `val`. -/
def set_value_int32 (obj : RapidValue) (name : String) : Outcome Int :=
  (is_valid_int32 obj name).bind fun valid =>
    if valid = false then .thrown ("Not found or Invalid type " ++ name)
    else (obj.member name).bind fun v => v.GetInt

/-- Models `set_value(int64_t &, obj, name)`. -/
def set_value_int64 (obj : RapidValue) (name : String) : Outcome Int :=
  (is_valid_int64 obj name).bind fun valid =>
    if valid = false then .thrown ("Not found or Invalid type " ++ name)
    else (obj.member name).bind fun v => v.GetInt64

/-- Models `set_value(std::string &, obj, name)`. -/
def set_value_string (obj : RapidValue) (name : String) : Outcome String :=
  (is_valid_string obj name).bind fun valid =>
    if valid = false then .thrown ("Not found or Invalid type " ++ name)
    else (obj.member name).bind fun v => v.GetString

/-- Models `set_value(Optional<std::string> &, obj, name)`: `nullopt` when the member
is absent; otherwise `GetString()` is called, whose pointer is never null. -/
def set_value_optional_string (obj : RapidValue) (name : String) : Outcome (Option String) :=
  (obj.HasMember name).bind fun has =>
    if has = false then .value none
    else (obj.member name).bind fun v => v.GetString.bind fun s => .value (some s)

/-- Models `add_member(obj, name, const Optional<std::string> &, al)`: the members
added, none for `nullopt`. -/
def add_member_optional_string (name : String) (value : Option String) :
    List (String × RapidValue) :=
  match value with
  | none => []
  | some s => [(name, .string s)]

/-! ## filter_info/filtering_time.h, filter_info/result_info.h, filter_info.h -/

/-- The `for` loop of `set_value(filtering_time_objs &, obj, name)`: for every
item the entry `filtering_times[name]` is taken and its three members are set
from the item. -/
def set_value_filtering_time_loop (name : String) :
    List RapidValue → filtering_time_objs → Outcome filtering_time_objs
  | [], filtering_times => .value filtering_times
  | item :: rest, filtering_times =>
    (set_value_string item "filterName").bind fun filterName =>
    (set_value_int64 item "startTime").bind fun startTime =>
    (set_value_int64 item "endTime").bind fun endTime =>
      set_value_filtering_time_loop name rest
        (filtering_times.assign name
          { filterName := filterName, startTime := startTime, endTime := endTime })

/-- Models `set_value(filtering_time_objs &, obj, name)`. -/
def set_value_filtering_time_objs (filtering_times : filtering_time_objs) (obj : RapidValue)
    (name : String) : Outcome filtering_time_objs :=
  (obj.HasMember name).bind fun has =>
    if has = false then .thrown ("Not found or Invalid type " ++ name)
    else (obj.member name).bind fun items =>
      match items with
      | .array elements => set_value_filtering_time_loop name elements filtering_times
      | _ => .thrown ("Not found or Invalid type " ++ name)

/-- Models `add_member(obj, name, const filtering_time_objs &, al)`: the array that is
added under `name`. -/
def add_member_filtering_time_objs (filtering_times : filtering_time_objs) : RapidValue :=
  .array (filtering_times.map fun entry =>
    .object [("filterName", .string entry.1), ("startTime", .int entry.2.startTime),
      ("endTime", .int entry.2.endTime)])

/-- Models `add_member(obj, name, const result_info_t &, al)`: the object `sub` that is
added under `name`. -/
def add_member_result_info (value : result_info_t) : RapidValue :=
  .object
    ([("smppResult", .int value.smppResult), ("resultCode", .int value.resultCode),
      ("reasonCode", .int value.reasonCode), ("spamPattern1", .string value.spamPattern1)] ++
     add_member_optional_string "spamPattern2" value.spamPattern2 ++
     add_member_optional_string "spamPattern3" value.spamPattern3 ++
     add_member_optional_string "imageFileName" value.imageFileName ++
     [("filterStartTime", .int value.filterStartTime),
      ("filterEndTime", .int value.filterEndTime),
      ("filteringTime", add_member_filtering_time_objs value.filteringTime)])

/-- Models `set_value(result_info_t &, obj)`. -/
def set_value_result_info (value : result_info_t) (obj : RapidValue) : Outcome result_info_t :=
  (set_value_int32 obj "smppResult").bind fun smppResult =>
  (set_value_int32 obj "resultCode").bind fun resultCode =>
  (set_value_int32 obj "reasonCode").bind fun reasonCode =>
  (set_value_string obj "spamPattern1").bind fun spamPattern1 =>
  (set_value_optional_string obj "spamPattern2").bind fun spamPattern2 =>
  (set_value_optional_string obj "spamPattern3").bind fun spamPattern3 =>
  (set_value_int64 obj "filterStartTime").bind fun filterStartTime =>
  (set_value_int64 obj "filterEndTime").bind fun filterEndTime =>
  (set_value_filtering_time_objs value.filteringTime obj "filteringTime").bind
    fun filteringTime =>
      .value { value with
        smppResult := smppResult, resultCode := resultCode, reasonCode := reasonCode,
        spamPattern1 := spamPattern1, spamPattern2 := spamPattern2,
        spamPattern3 := spamPattern3, filterStartTime := filterStartTime,
        filterEndTime := filterEndTime, filteringTime := filteringTime }

/-- What `from_filter_info_json` uses from outside the sources at hand: the
parser of rapidjson (`none` is `HasParseError()`; a document of any JSON type
parses) and the `set_value` overloads of `message_info.h` and
`customer_info.h`. -/
structure JsonEnv where
  Parse : String → Option RapidValue
  set_value_message_info : RapidValue → Outcome message_info_t
  set_value_customer_info : RapidValue → Outcome customer_info_t

/-- The checks of `from_filter_info_json` for one of the three members. -/
def required_object (doc : RapidValue) (name : String) : Outcome (Except String RapidValue) :=
  (doc.HasMember name).bind fun has =>
    if has = false then .value (.error ("Not found " ++ name))
    else (doc.member name).bind fun v =>
      if v.IsObject = false then .value (.error ("Invalid type " ++ name))
      else .value (.ok v)

/-- The `try` block of `from_filter_info_json` with its `catch (const
std::string &)`. -/
def from_filter_info_json_try (env : JsonEnv) (messageInfo customerInfo resultInfo : RapidValue) :
    Outcome (Except String filter_info_t) :=
  match
    (env.set_value_message_info messageInfo).bind fun m =>
    (env.set_value_customer_info customerInfo).bind fun c =>
    (set_value_result_info {} resultInfo).bind fun r =>
      Outcome.value ({ messageInfo := m, customerInfo := c, resultInfo := r } : filter_info_t)
  with
  | .value v => .value (.ok v)
  | .thrown what => .value (.error what)
  | .assertion condition => .assertion condition

/-- Models `from_filter_info_json(json)`. -/
def from_filter_info_json (env : JsonEnv) (json : String) :
    Outcome (Except String filter_info_t) :=
  match env.Parse json with
  | none => .value (.error "JSON parse error!")
  | some doc =>
    (required_object doc "messageInfo").bind fun messageInfo =>
      match messageInfo with
      | .error e => .value (.error e)
      | .ok m =>
        (required_object doc "customerInfo").bind fun customerInfo =>
          match customerInfo with
          | .error e => .value (.error e)
          | .ok c =>
            (required_object doc "resultInfo").bind fun resultInfo =>
              match resultInfo with
              | .error e => .value (.error e)
              | .ok r => from_filter_info_json_try env m c r

/-- Scenario input: a parser that knows four payloads and setters that accept
every object. -/
def scenario_json_env : JsonEnv :=
  { Parse := fun json =>
      if json = "[]" then some (.array [])
      else if json = "7" then some (.int 7)
      else if json = "null" then some .null
      else if json = "\x7b\x7d" then some (.object [])
      else none,
    set_value_message_info := fun _ => .value {},
    set_value_customer_info := fun _ => .value {} }

/-- Scenario input: the JSON record of one filtering time, as
`add_member(obj, name, const filtering_time_objs &, al)` writes it. -/
def filtering_time_record (value : filtering_time_t) : RapidValue :=
  .object [("filterName", .string value.filterName), ("startTime", .int value.startTime),
    ("endTime", .int value.endTime)]

/-- The range of `int32_t`. -/
abbrev fits_int32 (n : Int) : Prop := -2147483648 ≤ n ∧ n ≤ 2147483647

/-- The range of `int64_t`. -/
abbrev fits_int64 (n : Int) : Prop := -9223372036854775808 ≤ n ∧ n ≤ 9223372036854775807

/-- What parsing makes of a filtering-time map that was written as an array:
nothing for an empty array, otherwise the single entry under the member name
with the values of the last record. -/
def filtering_time_collapsed (name : String) (records : List filtering_time_t) :
    filtering_time_objs :=
  match records.getLast? with
  | none => []
  | some last => [(name, last)]

/-- The record that `add_member(obj, name, const filtering_time_objs &, al)` writes
for one entry of the map: the key as `filterName`, and the two times. -/
def filtering_time_written (entry : String × filtering_time_t) : filtering_time_t :=
  { filterName := entry.1, startTime := entry.2.startTime, endTime := entry.2.endTime }
/-! ## extra/MJsonObject.h, extra/MJsonValue.inl, extra/MJsonObject.inl, extra/MJsonArray.inl

A thrown `std::runtime_error` is `Except.error` with its `what()`. -/

/-- Enumeration `MJsonValue::TYPE`. -/
inductive MJsonValue.TYPE where
  | VALUE
  | ARRAY
  | OBJECT
deriving DecidableEq, Repr

/-- Enumeration `MJsonValue::ValueType`. -/
inductive MJsonValue.ValueType where
  | NIL
  | BOOL
  | NUMBER
  | STRING
deriving DecidableEq, Repr

/-- State of an `MJsonValue`, an `MJsonArray` (with `elements`) or an
`MJsonObject` (with `members`, a map: the first member of a name counts). -/
inductive MJsonValue where
  | mk (path_ name_ value_ : String) (value_type_ : MJsonValue.ValueType)
      (type_ : MJsonValue.TYPE) (exception_ : Bool) (elements : List MJsonValue)
      (members : List (String × MJsonValue))

namespace MJsonValue

/-- Member `path_`. -/
def path_ : MJsonValue → String
  | .mk p _ _ _ _ _ _ _ => p

/-- Member `name_`. -/
def name_ : MJsonValue → String
  | .mk _ n _ _ _ _ _ _ => n

/-- Member `value_`. -/
def value_ : MJsonValue → String
  | .mk _ _ v _ _ _ _ _ => v

/-- Member `value_type_`. -/
def value_type_ : MJsonValue → ValueType
  | .mk _ _ _ t _ _ _ _ => t

/-- Member `type_`. -/
def type_ : MJsonValue → TYPE
  | .mk _ _ _ _ t _ _ _ => t

/-- Member `exception_`. -/
def exception_ : MJsonValue → Bool
  | .mk _ _ _ _ _ e _ _ => e

/-- Member `elements` of `MJsonArray`. -/
def elements : MJsonValue → List MJsonValue
  | .mk _ _ _ _ _ _ es _ => es

/-- Member `members` of `MJsonObject`. -/
def members : MJsonValue → List (String × MJsonValue)
  | .mk _ _ _ _ _ _ _ ms => ms

/-- Member `type_str()`. -/
def type_str (v : MJsonValue) : String :=
  match v.type_ with
  | .VALUE => "MJsonValue"
  | .OBJECT => "MJsonObject"
  | .ARRAY => "MJsonArray"

/-- Member `value_type_str(value_type)`. -/
def value_type_str : ValueType → String
  | .NIL => "null"
  | .BOOL => "boolean"
  | .NUMBER => "number"
  | .STRING => "string"

/-- Member `exception()`: throws when the value stands for something that was
not found. -/
def exception (v : MJsonValue) : Except String Unit :=
  if v.exception_ = true then .error (v.path_ ++ v.name_ ++ ": not found") else .ok ()

/-- Member `get_self<MJsonArray>()`. -/
def get_self_array (v : MJsonValue) : Except String MJsonValue :=
  match v.exception with
  | .error e => .error e
  | .ok _ =>
    if v.type_ = TYPE.ARRAY then .ok v
    else .error (v.path_ ++ v.name_ ++ ": expected MJsonArray, got " ++ v.type_str)

/-- Member `get_self<MJsonObject>()`. -/
def get_self_object (v : MJsonValue) : Except String MJsonValue :=
  match v.exception with
  | .error e => .error e
  | .ok _ =>
    if v.type_ = TYPE.OBJECT then .ok v
    else .error (v.path_ ++ v.name_ ++ ": expected MJsonObject, got " ++ v.type_str)

/-- Member `throw_value_type(value_type)`. -/
def throw_value_type (v : MJsonValue) (value_type : ValueType) : Except String Unit :=
  match v.exception with
  | .error e => .error e
  | .ok _ =>
    if v.type_ ≠ TYPE.VALUE then
      .error (v.path_ ++ v.name_ ++ ": expected MJsonValue, got " ++ v.type_str)
    else if value_type ≠ v.value_type_ then
      .error (v.path_ ++ v.name_ ++ ": expected " ++ value_type_str value_type ++ ", got " ++
        value_type_str v.value_type_)
    else .ok ()

/-- Member `MJsonObject::by(name)`: the member, or a value marked `exception_`
when there is none. -/
def «by» (self : MJsonValue) (name : String) : Except String MJsonValue :=
  match self.exception with
  | .error e => .error e
  | .ok _ =>
    match self.members.lookup name with
    | none =>
      .ok (.mk (self.path_ ++ self.name_ ++ "/") name "" self.value_type_ self.type_ true [] [])
    | some member => .ok member

/-- Member `MJsonArray::at(index)`. -/
def «at» (self : MJsonValue) (index : Nat) : Except String MJsonValue :=
  match self.exception with
  | .error e => .error e
  | .ok _ =>
    match self.elements[index]? with
    | none =>
      .ok (.mk (self.path_ ++ self.name_ ++ "/") ("[" ++ toString index ++ "]") ""
        self.value_type_ self.type_ true [] [])
    | some element => .ok element

/-- Models `operator[](const std::string &name)`. -/
def index_name (self : MJsonValue) (name : String) : Except String MJsonValue :=
  match self.exception with
  | .error e => .error e
  | .ok _ =>
    match self.get_self_object with
    | .error e => .error e
    | .ok object => object.by name

end MJsonValue

/-- The digits at the head of the text, read as a decimal number after `acc`. -/
def atoi_digits : List Char → Int → Int
  | [], acc => acc
  | c :: rest, acc =>
    if c.isDigit = true then atoi_digits rest (acc * 10 + ((c.toNat - 48 : Nat) : Int)) else acc

/-- Models `atoi` of the C library: white space is skipped, an optional sign is read,
then the digits; text without digits gives `0`. Values outside `int` are not
modelled. -/
def atoi (text : String) : Int :=
  match text.toList.dropWhile (fun c => c = ' ' ∨ ('\t' ≤ c ∧ c ≤ '\r')) with
  | '-' :: rest => - atoi_digits rest 0
  | '+' :: rest => atoi_digits rest 0
  | rest => atoi_digits rest 0

namespace MJsonValue

/-- Member `as_int()`. -/
def as_int (v : MJsonValue) : Except String Int :=
  match v.exception with
  | .error e => .error e
  | .ok _ =>
    match v.throw_value_type ValueType.NUMBER with
    | .error e => .error e
    | .ok _ => .ok (atoi v.value_)

/-- Member `as_str()`. -/
def as_str (v : MJsonValue) : Except String String :=
  match v.exception with
  | .error e => .error e
  | .ok _ =>
    match v.throw_value_type ValueType.STRING with
    | .error e => .error e
    | .ok _ => .ok v.value_

/-- Member `as_int_or(value)`; the body has no `throw`. -/
def as_int_or (v : MJsonValue) (value : Int) : Int :=
  if v.exception_ = true then value else atoi v.value_

/-- Member `as_bool_or(value)`. -/
def as_bool_or (v : MJsonValue) (value : Bool) : Bool :=
  if v.exception_ = true then value else decide (v.value_ = "true")

/-- Member `as_str_or(value)`. -/
def as_str_or (v : MJsonValue) (value : String) : String :=
  if v.exception_ = true then value else v.value_

/-- The conversion `MJsonValue(std::shared_ptr<MJsonValue> val)` that turns an
element into the argument of a handler. -/
def from_ptr (val : MJsonValue) : Except String MJsonValue :=
  match val.exception with
  | .error e => .error e
  | .ok _ =>
    if val.type_ ≠ TYPE.VALUE then .error ": expected MJsonValue"
    else .ok (.mk val.path_ val.name_ val.value_ val.value_type_ val.type_ val.exception_ [] [])

end MJsonValue

/-- What a call of `optional` invoked, in order. -/
inductive OptionalCall where
  | handler (element : MJsonValue)
  | alternative

/-- How a call of `optional(index, ...)` ends: it returns after the recorded
invocations, it throws, or it reads `elements[index]` with `index` outside the
vector. -/
inductive OptionalOutcome where
  | returned (calls : List OptionalCall)
  | runtime_error (what : String)
  | read_outside (index size : Nat)

/-- Models `MJsonValue::optional(size_t index, handler, alternative)`;
`alternative_given` says that `alternative` is not `nullptr`. -/
def MJsonValue.optional_index (self : MJsonValue) (index : Nat) (alternative_given : Bool) :
    OptionalOutcome :=
  match self.exception with
  | .error e => .runtime_error e
  | .ok _ =>
    match self.get_self_array with
    | .error e => .runtime_error e
    | .ok array =>
      if array.elements.length ≥ index then
        .returned (if alternative_given = true then [.alternative] else [])
      else
        match array.elements[index]? with
        | none => .read_outside index array.elements.length
        | some element =>
          match MJsonValue.from_ptr element with
          | .error e => .runtime_error e
          | .ok argument => .returned [.handler argument]

/-! ## extra/MJsonObject.h: parse functions -/

mutual

/-- Models `parse_value(path, name, value)` for the scalar types, and the dispatch on
the type of an element or member that `parse_array` and `parse_object` make. -/
def parse_element (path name : String) : RapidValue → MJsonValue
  | .null => .mk path name "" .NIL .VALUE false [] []
  | .bool b => .mk path name (if b = true then "true" else "false") .BOOL .VALUE false [] []
  | .int n => .mk path name (toString n) .NUMBER .VALUE false [] []
  | .double text => .mk path name text .NUMBER .VALUE false [] []
  | .string s => .mk path name s .STRING .VALUE false [] []
  | .array items =>
    .mk path name "" .NIL .ARRAY false (parse_array_loop path name 0 items) []
  | .object members =>
    .mk path name "" .NIL .OBJECT false [] (parse_object_loop (path ++ name ++ "/") members)

/-- The `for` loop of `parse_array`: `path` grows by `name + "/"` in every
round. -/
def parse_array_loop (path name : String) (index : Nat) : List RapidValue → List MJsonValue
  | [] => []
  | element :: rest =>
    parse_element (path ++ name ++ "/") ("[" ++ toString index ++ "]") element ::
      parse_array_loop (path ++ name ++ "/") name (index + 1) rest

/-- The `for` loop of `parse_object`. -/
def parse_object_loop (path : String) : List (String × RapidValue) → List (String × MJsonValue)
  | [] => []
  | (sub_name, sub_element) :: rest =>
    (sub_name, parse_element path sub_name sub_element) :: parse_object_loop path rest

end

/-- Models `parse_object(value)` for the root object of a parsed document. -/
def parse_object (value : RapidValue) : MJsonValue :=
  parse_element "" "" value
/-! ## Sequences of `push` calls -/

/-- Bookkeeping of the model: the clock reading that `FilterWorker::push` hands
to `tps_meter_in.add_transaction()`, when the message parses and passes the
ingress check. -/
def FilterWorker.ingress_recorded (C : Collaborators) (conf : AppConf)
    (subject_message : String × String) (w : World) : Option Int :=
  match C.from_filter_info_json subject_message.2 with
  | .error _ => none
  | .ok _ =>
    if (w.tps_meter_in.get_tps (w.clock (w.ticks + 1))).1 < conf.discard_tps_in
      then some (w.clock (w.ticks + 2)) else none

/-- Scenario driver: `push` calls made one at a time. Each call is made on some
worker of the process, in whatever state, with some behaviour of the other
threads towards its queue; the process state is carried from call to call. -/
def push_calls (C : Collaborators) (conf : AppConf) :
    List (Interference QueueItem × FilterWorker × (String × String)) → World → World
  | [], w => w
  | call :: rest, w =>
    push_calls C conf rest (FilterWorker.push C conf call.1 call.2.1 call.2.2 w).2.2

/-- Bookkeeping of the model: the clock readings recorded in `tps_meter_in` by
a sequence of `push` calls, one for every message that passed the ingress
check. -/
def push_calls_recorded (C : Collaborators) (conf : AppConf) :
    List (Interference QueueItem × FilterWorker × (String × String)) → World → List Int
  | [], _ => []
  | call :: rest, w =>
    push_calls_recorded C conf rest (FilterWorker.push C conf call.1 call.2.1 call.2.2 w).2.2 ++
      (FilterWorker.ingress_recorded C conf call.2.2 w).toList

/-- The meter holds, in descending order, the recorded readings that can still
fall into the window of a reading taken at `bound` or later. -/
def window_tracks (m : TpsMeter) (bound : Int) (recorded_times : List Int) : Prop :=
  m.transactions_.Pairwise (fun a b => a ≥ b) ∧
  ∀ c, bound - one_second ≤ c →
    (m.transactions_.filter (fun e => decide (e > c))).Perm
      (recorded_times.filter (fun e => decide (e > c)))

/-! ## Sequences of dispatches -/

/-- Scenario driver: `WorkerPool::push` for each message in turn. -/
def WorkerPool.push_each {W M σ : Type} (ops : WorkerOps W M σ) :
    WorkerPool W → List M → σ → WorkerPool W × σ
  | pool, [], s => (pool, s)
  | pool, message :: rest, s =>
    WorkerPool.push_each ops (pool.push ops message s).2.1 rest (pool.push ops message s).2.2

/-- Whether, in the dispatches of `push_each`, every selected worker enqueued
the item: its `size()` after its `push` is its `size()` before plus one. -/
def WorkerPool.each_enqueued {W M σ : Type} (ops : WorkerOps W M σ) :
    WorkerPool W → List M → σ → Bool
  | _, [], _ => true
  | pool, message :: rest, s =>
    match std14_min_element (fun a b => decide (ops.size a < ops.size b)) pool.workers_ with
    | none => false
    | some (_, wk) =>
      decide (ops.size (ops.push wk message s).2.1 = ops.size wk + 1) &&
        WorkerPool.each_enqueued ops (pool.push ops message s).2.1 rest
          (pool.push ops message s).2.2

/-! ## FilterWorker::push and the subscription callback with the parser of filter_info.h

`Collaborators.from_filter_info_json` gives the value that the parser returns
for a payload. `from_filter_info_json` of `filter_info.h` does not return for
every payload: an assertion of rapidjson can fail in it, which ends the
process. The definitions of this part run `push`, the push of the pool and the
callback of `NatsRecvers` with that parser. -/

/-- The collaborators of a call in which the parser has returned `parsed`. -/
def Collaborators.with_parsed (C : Collaborators) (parsed : Except String filter_info_t) :
    Collaborators :=
  { C with from_filter_info_json := fun _ => parsed }

/-- `FilterWorker::push(subject_message)` with `from_filter_info_json` of
`filter_info.h`. `push` calls `parse_message`, which calls the parser on the
payload, once. If an assertion fails in the parser the process ends there and
`push` has no return value; otherwise `push` runs with what the parser
returned. -/
def FilterWorker.push_or_abort (J : JsonEnv) (C : Collaborators) (conf : AppConf)
    (env : Interference QueueItem) (self : FilterWorker) (subject_message : String × String)
    (w : World) : Outcome (Int × FilterWorker × World) :=
  (from_filter_info_json J subject_message.2).bind fun parsed =>
    .value (FilterWorker.push (C.with_parsed parsed) conf env self subject_message w)

namespace NatsRecvers

/-- The push of a pool of filter workers for one delivered message, with
`from_filter_info_json` of `filter_info.h`. A pool without workers returns
`-1` and calls no worker; otherwise `WorkerPool::push` calls the `push` of the
worker it chose, and with it the parser. -/
def pool_push_or_abort (J : JsonEnv) (C : Collaborators) (conf : AppConf)
    (env : Interference QueueItem) (subject message : String)
    (s : WorkerPool FilterWorker × World) : Outcome (Int × WorkerPool FilterWorker × World) :=
  if s.1.workers_.isEmpty = true then .value (pool_push C conf env subject message s)
  else
    (from_filter_info_json J message).bind fun parsed =>
      .value (pool_push (C.with_parsed parsed) conf env subject message s)

/-- The callback that `start()` gives to `subscribeGroup`, for a push that may
not return: the `while (true)` loop returns on `0` and on `-1`, goes round
again on every other code, and is over when the push ends the process.
`fuel` bounds the number of iterations. -/
def callback_or_abort {σ : Type} (push : σ → Outcome (Int × σ)) : Nat → σ → Option (Outcome σ)
  | 0, _ => none
  | fuel + 1, s =>
    match push s with
    | .value r =>
      if r.1 = 0 then some (.value r.2)
      else if r.1 = -1 then some (.value r.2)
      else callback_or_abort push fuel r.2
    | .thrown what => some (.thrown what)
    | .assertion condition => some (.assertion condition)

end NatsRecvers

/-! # Theorems -/

section DoubleLemmas

theorem bit_length_fuel_spec (fuel : Nat) : ∀ (n acc : Nat), n ≤ fuel →
    ∃ b, bit_length_fuel fuel n acc = acc + b ∧ (n = 0 → b = 0) ∧
      (0 < n → 1 ≤ b ∧ 2 ^ (b - 1) ≤ n ∧ n < 2 ^ b) := by
  induction fuel with
  | zero =>
    intro n acc hn
    have h0 : n = 0 := by omega
    subst h0
    exact ⟨0, by simp [bit_length_fuel], fun _ => rfl, fun h => absurd h (by decide)⟩
  | succ fuel ih =>
    intro n acc hn
    cases n with
    | zero => exact ⟨0, by simp [bit_length_fuel], fun _ => rfl, fun h => absurd h (by decide)⟩
    | succ n =>
      obtain ⟨b, hb, hzero, hpos⟩ := ih ((n + 1) / 2) (acc + 1) (by omega)
      refine ⟨b + 1, ?_, ?_, ?_⟩
      · simp only [bit_length_fuel]
        rw [hb]
        omega
      · intro h
        omega
      · intro _
        by_cases hm : (n + 1) / 2 = 0
        · have hb0 := hzero hm
          subst hb0
          have hn0 : n = 0 := by omega
          subst hn0
          simp
        · obtain ⟨h1, h2, h3⟩ := hpos (by omega)
          have hpow : 2 ^ b = 2 * 2 ^ (b - 1) := by
            rw [← pow_succ']
            congr 1
            omega
          refine ⟨by omega, ?_, ?_⟩
          · simp only [Nat.add_sub_cancel]
            omega
          · rw [pow_succ]
            omega

theorem bit_length_spec (n : Nat) (hn : 0 < n) :
    1 ≤ bit_length n ∧ 2 ^ (bit_length n - 1) ≤ n ∧ n < 2 ^ bit_length n := by
  obtain ⟨b, hb, _, hpos⟩ := bit_length_fuel_spec n n 0 (le_refl n)
  have hbl : bit_length n = b := by
    unfold bit_length
    rw [hb]
    omega
  rw [hbl]
  exact hpos hn

theorem round_half_even_rat_floor (x : ℚ) :
    ⌊x⌋ ≤ round_half_even_rat x ∧ round_half_even_rat x ≤ ⌊x⌋ + 1 := by
  unfold round_half_even_rat
  split_ifs <;> omega

theorem round_half_even_rat_near (x : ℚ) : |(round_half_even_rat x : ℚ) - x| ≤ 1 / 2 := by
  have h1 := Int.floor_le x
  have h2 := Int.lt_floor_add_one x
  unfold round_half_even_rat
  rw [abs_le]
  split_ifs with ha hb hc
  · constructor <;> linarith
  · push_cast
    constructor <;> linarith
  · constructor <;> linarith
  · push_cast
    constructor <;> linarith

theorem round_half_even_rat_intCast (k : Int) : round_half_even_rat (k : ℚ) = k := by
  simp [round_half_even_rat]

theorem round_half_even_rat_mono {x y : ℚ} (h : x ≤ y) :
    round_half_even_rat x ≤ round_half_even_rat y := by
  have hfl : ⌊x⌋ ≤ ⌊y⌋ := Int.floor_mono h
  rcases lt_or_eq_of_le hfl with hlt | heq
  · have hx := (round_half_even_rat_floor x).2
    have hy := (round_half_even_rat_floor y).1
    omega
  · unfold round_half_even_rat
    rw [← heq]
    split_ifs <;> first | omega | (exfalso; linarith)

theorem round_half_even_rat_neg (x : ℚ) :
    round_half_even_rat (-x) = -round_half_even_rat x := by
  by_cases hx : x = (⌊x⌋ : ℚ)
  · rw [hx]
    have hneg : -((⌊x⌋ : ℤ) : ℚ) = ((-⌊x⌋ : ℤ) : ℚ) := by push_cast; ring
    rw [hneg, round_half_even_rat_intCast, round_half_even_rat_intCast]
  · have h1 := Int.floor_le x
    have h2 := Int.lt_floor_add_one x
    have h1s : (⌊x⌋ : ℚ) < x := lt_of_le_of_ne h1 (fun h => hx h.symm)
    have hfloor : ⌊-x⌋ = -⌊x⌋ - 1 := by
      rw [Int.floor_eq_iff]
      push_cast
      constructor <;> linarith
    unfold round_half_even_rat
    rw [hfloor]
    push_cast
    split_ifs <;> first | omega | (exfalso; linarith)

theorem round_half_even_eq_rat (num : Int) (den : Nat) (hden : 0 < den) :
    round_half_even num den = round_half_even_rat ((num : ℚ) / (den : ℚ)) := by
  have hfloor : ⌊(num : ℚ) / (den : ℚ)⌋ = num / (den : ℤ) := Rat.floor_intCast_div_natCast num den
  have hdq : (0 : ℚ) < (den : ℚ) := by exact_mod_cast hden
  have hsplit : (num : ℚ) = ((num % (den : ℤ) : ℤ) : ℚ) + (den : ℚ) * ((num / (den : ℤ) : ℤ) : ℚ) := by
    have := Int.emod_add_ediv num (den : ℤ)
    exact_mod_cast this.symm
  have hfrac : (num : ℚ) / (den : ℚ) - ((num / (den : ℤ) : ℤ) : ℚ)
      = ((num % (den : ℤ) : ℤ) : ℚ) / (den : ℚ) := by
    field_simp
    linarith
  have hc1 : (2 * (num % (den : ℤ)) < (den : ℤ)) ↔
      ((num % (den : ℤ) : ℤ) : ℚ) / (den : ℚ) < 1 / 2 := by
    rw [div_lt_iff₀ hdq]
    constructor
    · intro h
      have : ((2 * (num % (den : ℤ)) : ℤ) : ℚ) < ((den : ℤ) : ℚ) := by exact_mod_cast h
      push_cast at this
      linarith
    · intro h
      have : ((2 * (num % (den : ℤ)) : ℤ) : ℚ) < ((den : ℤ) : ℚ) := by
        push_cast
        linarith
      exact_mod_cast this
  have hc2 : ((den : ℤ) < 2 * (num % (den : ℤ))) ↔
      1 / 2 < ((num % (den : ℤ) : ℤ) : ℚ) / (den : ℚ) := by
    rw [lt_div_iff₀ hdq]
    constructor
    · intro h
      have : ((den : ℤ) : ℚ) < ((2 * (num % (den : ℤ)) : ℤ) : ℚ) := by exact_mod_cast h
      push_cast at this
      linarith
    · intro h
      have : ((den : ℤ) : ℚ) < ((2 * (num % (den : ℤ)) : ℤ) : ℚ) := by
        push_cast
        linarith
      exact_mod_cast this
  unfold round_half_even round_half_even_rat
  rw [hfloor, hfrac]
  simp only [hc1, hc2]

theorem two_zpow_split (e : Int) :
    (2 : ℚ) ^ e = (2 : ℚ) ^ e.toNat / (2 : ℚ) ^ (-e).toNat := by
  rcases le_total 0 e with h | h
  · obtain ⟨n, rfl⟩ := Int.eq_ofNat_of_zero_le h
    have h0 : (-(n : ℤ)).toNat = 0 := by omega
    simp [h0]
  · obtain ⟨n, hn⟩ := Int.eq_ofNat_of_zero_le (by omega : 0 ≤ -e)
    have he : e = -(n : ℤ) := by omega
    subst he
    have h0 : (-(n : ℤ)).toNat = 0 := by omega
    simp [h0, zpow_neg]

theorem two_zpow_pos (e : Int) : (0 : ℚ) < (2 : ℚ) ^ e := zpow_pos (by norm_num) e

theorem binary_exponent_spec (a den : Nat) (ha : 0 < a) (hden : 0 < den) :
    (2 : ℚ) ^ binary_exponent a den ≤ (a : ℚ) / (den : ℚ) ∧
    (a : ℚ) / (den : ℚ) < (2 : ℚ) ^ (binary_exponent a den + 1) := by
  obtain ⟨ha1, ha2, ha3⟩ := bit_length_spec a ha
  obtain ⟨hd1, hd2, hd3⟩ := bit_length_spec den hden
  have hdq : (0 : ℚ) < (den : ℚ) := by exact_mod_cast hden
  have hA2 : (2 : ℚ) ^ ((bit_length a : ℤ) - 1) ≤ (a : ℚ) := by
    have h : ((2 ^ (bit_length a - 1) : ℕ) : ℚ) ≤ (a : ℚ) := by exact_mod_cast ha2
    have hc : ((bit_length a - 1 : ℕ) : ℤ) = (bit_length a : ℤ) - 1 := by omega
    rw [← hc, zpow_natCast]
    exact_mod_cast h
  have hA3 : (a : ℚ) < (2 : ℚ) ^ (bit_length a : ℤ) := by
    rw [zpow_natCast]
    exact_mod_cast ha3
  have hD2 : (2 : ℚ) ^ ((bit_length den : ℤ) - 1) ≤ (den : ℚ) := by
    have h : ((2 ^ (bit_length den - 1) : ℕ) : ℚ) ≤ (den : ℚ) := by exact_mod_cast hd2
    have hc : ((bit_length den - 1 : ℕ) : ℤ) = (bit_length den : ℤ) - 1 := by omega
    rw [← hc, zpow_natCast]
    exact_mod_cast h
  have hD3 : (den : ℚ) < (2 : ℚ) ^ (bit_length den : ℤ) := by
    rw [zpow_natCast]
    exact_mod_cast hd3
  have hcond : (den * 2 ^ ((bit_length a : Int) - bit_length den).toNat
      ≤ a * 2 ^ ((bit_length den : Int) - bit_length a).toNat) ↔
      (2 : ℚ) ^ ((bit_length a : ℤ) - bit_length den) ≤ (a : ℚ) / (den : ℚ) := by
    have hneg : ((bit_length den : ℤ) - bit_length a) = -((bit_length a : ℤ) - bit_length den) := by
      ring
    rw [two_zpow_split ((bit_length a : ℤ) - bit_length den), ← hneg,
      le_div_iff₀ hdq, div_mul_eq_mul_div,
      div_le_iff₀ (pow_pos (by norm_num) _)]
    constructor
    · intro h
      have : ((den * 2 ^ ((bit_length a : Int) - bit_length den).toNat : ℕ) : ℚ)
          ≤ ((a * 2 ^ ((bit_length den : Int) - bit_length a).toNat : ℕ) : ℚ) := by
        exact_mod_cast h
      push_cast at this
      linarith
    · intro h
      have : ((den * 2 ^ ((bit_length a : Int) - bit_length den).toNat : ℕ) : ℚ)
          ≤ ((a * 2 ^ ((bit_length den : Int) - bit_length a).toNat : ℕ) : ℚ) := by
        push_cast
        linarith
      exact_mod_cast this
  unfold binary_exponent
  by_cases hc : den * 2 ^ ((bit_length a : Int) - bit_length den).toNat
      ≤ a * 2 ^ ((bit_length den : Int) - bit_length a).toNat
  · rw [if_pos hc]
    refine ⟨hcond.mp hc, ?_⟩
    rw [div_lt_iff₀ hdq]
    have hsplit : (2 : ℚ) ^ (bit_length a : ℤ)
        = (2 : ℚ) ^ ((bit_length a : ℤ) - bit_length den + 1)
          * (2 : ℚ) ^ ((bit_length den : ℤ) - 1) := by
      rw [← zpow_add₀ (by norm_num : (2 : ℚ) ≠ 0)]
      congr 1
      ring
    calc (a : ℚ) < (2 : ℚ) ^ (bit_length a : ℤ) := hA3
      _ = (2 : ℚ) ^ ((bit_length a : ℤ) - bit_length den + 1)
          * (2 : ℚ) ^ ((bit_length den : ℤ) - 1) := hsplit
      _ ≤ (2 : ℚ) ^ ((bit_length a : ℤ) - bit_length den + 1) * (den : ℚ) :=
          mul_le_mul_of_nonneg_left hD2 (le_of_lt (two_zpow_pos _))
  · rw [if_neg hc]
    have hnot : ¬ (2 : ℚ) ^ ((bit_length a : ℤ) - bit_length den) ≤ (a : ℚ) / (den : ℚ) :=
      fun h => hc (hcond.mpr h)
    constructor
    · rw [le_div_iff₀ hdq]
      have hsplit : (2 : ℚ) ^ ((bit_length a : ℤ) - 1)
          = (2 : ℚ) ^ ((bit_length a : ℤ) - bit_length den - 1)
            * (2 : ℚ) ^ (bit_length den : ℤ) := by
        rw [← zpow_add₀ (by norm_num : (2 : ℚ) ≠ 0)]
        congr 1
        ring
      calc (2 : ℚ) ^ ((bit_length a : ℤ) - bit_length den - 1) * (den : ℚ)
          ≤ (2 : ℚ) ^ ((bit_length a : ℤ) - bit_length den - 1)
            * (2 : ℚ) ^ (bit_length den : ℤ) :=
            mul_le_mul_of_nonneg_left (le_of_lt hD3) (le_of_lt (two_zpow_pos _))
        _ = (2 : ℚ) ^ ((bit_length a : ℤ) - 1) := hsplit.symm
        _ ≤ (a : ℚ) := hA2
    · have : (bit_length a : ℤ) - bit_length den - 1 + 1 = (bit_length a : ℤ) - bit_length den := by
        ring
      rw [this]
      exact not_le.mp hnot

theorem round_double_value (num : Int) (den : Nat) (hden : 0 < den) :
    (round_double num den).value
      = (round_half_even_rat ((num : ℚ) / (den : ℚ) / (2 : ℚ) ^ (round_double num den).e) : ℚ)
        * (2 : ℚ) ^ (round_double num den).e := by
  have hm : (round_double num den).m
      = round_half_even (num * 2 ^ (-(round_double num den).e).toNat)
          (den * 2 ^ ((round_double num den).e).toNat) := rfl
  have hpos : 0 < den * 2 ^ ((round_double num den).e).toNat :=
    Nat.mul_pos hden (pow_pos (by norm_num) _)
  have hdq : (den : ℚ) ≠ 0 := by
    have : (0 : ℚ) < (den : ℚ) := by exact_mod_cast hden
    exact ne_of_gt this
  unfold double.value
  rw [hm, round_half_even_eq_rat _ _ hpos]
  generalize (round_double num den).e = e
  have hquot : ((num * 2 ^ (-e).toNat : ℤ) : ℚ) / ((den * 2 ^ e.toNat : ℕ) : ℚ)
      = (num : ℚ) / (den : ℚ) / (2 : ℚ) ^ e := by
    rw [two_zpow_split e]
    have h1 : ((2 : ℚ) ^ e.toNat) ≠ 0 := pow_ne_zero _ (by norm_num)
    have h2 : ((2 : ℚ) ^ (-e).toNat) ≠ 0 := pow_ne_zero _ (by norm_num)
    push_cast
    field_simp
  rw [hquot]

theorem round_double_exponent (num : Int) (den : Nat) (hnum : num ≠ 0) (hden : 0 < den) :
    -1074 ≤ (round_double num den).e ∧
    |(num : ℚ) / (den : ℚ)| < (2 : ℚ) ^ ((round_double num den).e + 53) ∧
    ((round_double num den).e = -1074 ∨
      (2 : ℚ) ^ ((round_double num den).e + 52) ≤ |(num : ℚ) / (den : ℚ)|) := by
  have he : (round_double num den).e = max (binary_exponent num.natAbs den - 52) (-1074) := rfl
  have hdq : (0 : ℚ) < (den : ℚ) := by exact_mod_cast hden
  have habs : |(num : ℚ) / (den : ℚ)| = (num.natAbs : ℚ) / (den : ℚ) := by
    rw [abs_div, abs_of_pos hdq, Nat.cast_natAbs, Int.cast_abs]
  obtain ⟨hlo, hhi⟩ := binary_exponent_spec num.natAbs den (Int.natAbs_pos.mpr hnum) hden
  rw [habs, he]
  refine ⟨le_max_right _ _, ?_, ?_⟩
  · refine lt_of_lt_of_le hhi (zpow_le_zpow_right₀ (by norm_num) ?_)
    have := le_max_left (binary_exponent num.natAbs den - 52) (-1074)
    omega
  · rcases max_choice (binary_exponent num.natAbs den - 52) (-1074) with h | h
    · right
      rw [h]
      have : binary_exponent num.natAbs den - 52 + 52 = binary_exponent num.natAbs den := by ring
      rw [this]
      exact hlo
    · left
      exact h

theorem rounded_mono_pos {x y : ℚ} {e1 e2 : Int} (hxy : x ≤ y)
    (h1 : -1074 ≤ e1) (h1u : x < (2 : ℚ) ^ (e1 + 53))
    (h1l : e1 = -1074 ∨ (2 : ℚ) ^ (e1 + 52) ≤ x)
    (h2 : -1074 ≤ e2) (h2u : y < (2 : ℚ) ^ (e2 + 53))
    (h2l : e2 = -1074 ∨ (2 : ℚ) ^ (e2 + 52) ≤ y) :
    (round_half_even_rat (x / (2 : ℚ) ^ e1) : ℚ) * (2 : ℚ) ^ e1
      ≤ (round_half_even_rat (y / (2 : ℚ) ^ e2) : ℚ) * (2 : ℚ) ^ e2 := by
  have hle : e1 ≤ e2 := by
    rcases h1l with h | h
    · omega
    · have hlt : (2 : ℚ) ^ (e1 + 52) < (2 : ℚ) ^ (e2 + 53) :=
        lt_of_le_of_lt h (lt_of_le_of_lt hxy h2u)
      have := (zpow_lt_zpow_iff_right₀ (by norm_num : (1 : ℚ) < 2)).mp hlt
      omega
  rcases lt_or_eq_of_le hle with hlt | heq
  · have h2lo : (2 : ℚ) ^ (e2 + 52) ≤ y := by
      rcases h2l with h | h
      · omega
      · exact h
    have hbig : ((2 ^ 52 : ℤ) : ℚ) ≤ (round_half_even_rat (y / (2 : ℚ) ^ e2) : ℚ) := by
      have hq : (((2 ^ 52 : ℤ) : ℤ) : ℚ) ≤ y / (2 : ℚ) ^ e2 := by
        rw [le_div_iff₀ (two_zpow_pos e2)]
        have : (2 : ℚ) ^ (e2 + 52) = ((2 ^ 52 : ℤ) : ℚ) * (2 : ℚ) ^ e2 := by
          rw [zpow_add₀ (by norm_num : (2 : ℚ) ≠ 0)]
          push_cast
          rw [mul_comm]
          norm_num
        rw [← this]
        exact h2lo
      have := round_half_even_rat_mono hq
      rw [round_half_even_rat_intCast] at this
      exact_mod_cast this
    have hsmall : (round_half_even_rat (x / (2 : ℚ) ^ e1) : ℚ) ≤ ((2 ^ 53 : ℤ) : ℚ) := by
      have hq : x / (2 : ℚ) ^ e1 ≤ (((2 ^ 53 : ℤ) : ℤ) : ℚ) := by
        rw [div_le_iff₀ (two_zpow_pos e1)]
        have : (2 : ℚ) ^ (e1 + 53) = ((2 ^ 53 : ℤ) : ℚ) * (2 : ℚ) ^ e1 := by
          rw [zpow_add₀ (by norm_num : (2 : ℚ) ≠ 0)]
          push_cast
          rw [mul_comm]
          norm_num
        rw [← this]
        exact le_of_lt h1u
      have := round_half_even_rat_mono hq
      rw [round_half_even_rat_intCast] at this
      exact_mod_cast this
    have hstep : ((2 ^ 53 : ℤ) : ℚ) * (2 : ℚ) ^ e1 ≤ ((2 ^ 52 : ℤ) : ℚ) * (2 : ℚ) ^ e2 := by
      have ha : ((2 ^ 53 : ℤ) : ℚ) * (2 : ℚ) ^ e1 = (2 : ℚ) ^ (e1 + 53) := by
        rw [zpow_add₀ (by norm_num : (2 : ℚ) ≠ 0)]
        push_cast
        rw [mul_comm]
        norm_num
      have hb : ((2 ^ 52 : ℤ) : ℚ) * (2 : ℚ) ^ e2 = (2 : ℚ) ^ (e2 + 52) := by
        rw [zpow_add₀ (by norm_num : (2 : ℚ) ≠ 0)]
        push_cast
        rw [mul_comm]
        norm_num
      rw [ha, hb]
      exact zpow_le_zpow_right₀ (by norm_num) (by omega)
    calc (round_half_even_rat (x / (2 : ℚ) ^ e1) : ℚ) * (2 : ℚ) ^ e1
        ≤ ((2 ^ 53 : ℤ) : ℚ) * (2 : ℚ) ^ e1 :=
          mul_le_mul_of_nonneg_right hsmall (le_of_lt (two_zpow_pos e1))
      _ ≤ ((2 ^ 52 : ℤ) : ℚ) * (2 : ℚ) ^ e2 := hstep
      _ ≤ (round_half_even_rat (y / (2 : ℚ) ^ e2) : ℚ) * (2 : ℚ) ^ e2 :=
          mul_le_mul_of_nonneg_right hbig (le_of_lt (two_zpow_pos e2))
  · subst heq
    have hq : x / (2 : ℚ) ^ e1 ≤ y / (2 : ℚ) ^ e1 :=
      div_le_div_of_nonneg_right hxy (le_of_lt (two_zpow_pos e1))
    have := round_half_even_rat_mono hq
    exact mul_le_mul_of_nonneg_right (by exact_mod_cast this) (le_of_lt (two_zpow_pos e1))

theorem round_double_zero (den : Nat) (hden : 0 < den) : (round_double 0 den).value = 0 := by
  rw [round_double_value 0 den hden]
  have : ((0 : ℤ) : ℚ) / (den : ℚ) / (2 : ℚ) ^ (round_double 0 den).e = ((0 : ℤ) : ℚ) := by simp
  rw [this, round_half_even_rat_intCast]
  simp

theorem round_double_neg (num : Int) (den : Nat) (hden : 0 < den) :
    (round_double (-num) den).value = -(round_double num den).value := by
  have he : (round_double (-num) den).e = (round_double num den).e := by
    show max (binary_exponent (-num).natAbs den - 52) (-1074)
      = max (binary_exponent num.natAbs den - 52) (-1074)
    rw [Int.natAbs_neg]
  rw [round_double_value (-num) den hden, round_double_value num den hden, he]
  have : ((-num : ℤ) : ℚ) / (den : ℚ) / (2 : ℚ) ^ (round_double num den).e
      = -((num : ℚ) / (den : ℚ) / (2 : ℚ) ^ (round_double num den).e) := by
    push_cast
    ring
  rw [this, round_half_even_rat_neg]
  push_cast
  ring

theorem round_double_mono_pos (num1 : Int) (den1 : Nat) (num2 : Int) (den2 : Nat)
    (hden1 : 0 < den1) (hden2 : 0 < den2) (hpos : 0 < num1)
    (h : (num1 : ℚ) / (den1 : ℚ) ≤ (num2 : ℚ) / (den2 : ℚ)) :
    (round_double num1 den1).value ≤ (round_double num2 den2).value := by
  have hd1 : (0 : ℚ) < (den1 : ℚ) := by exact_mod_cast hden1
  have hd2 : (0 : ℚ) < (den2 : ℚ) := by exact_mod_cast hden2
  have hx : (0 : ℚ) < (num1 : ℚ) / (den1 : ℚ) := div_pos (by exact_mod_cast hpos) hd1
  have hy : (0 : ℚ) < (num2 : ℚ) / (den2 : ℚ) := lt_of_lt_of_le hx h
  have hnum2 : 0 < num2 := by
    by_contra hc
    have : (num2 : ℚ) ≤ 0 := by exact_mod_cast (not_lt.mp hc)
    have := div_nonpos_of_nonpos_of_nonneg this (le_of_lt hd2)
    linarith
  obtain ⟨a1, a2, a3⟩ := round_double_exponent num1 den1 (ne_of_gt hpos) hden1
  obtain ⟨b1, b2, b3⟩ := round_double_exponent num2 den2 (ne_of_gt hnum2) hden2
  rw [abs_of_pos hx] at a2 a3
  rw [abs_of_pos hy] at b2 b3
  rw [round_double_value num1 den1 hden1, round_double_value num2 den2 hden2]
  exact rounded_mono_pos h a1 a2 a3 b1 b2 b3

theorem round_double_nonneg (num : Int) (den : Nat) (hden : 0 < den) (h : 0 ≤ num) :
    0 ≤ (round_double num den).value := by
  rw [round_double_value num den hden]
  have hd : (0 : ℚ) < (den : ℚ) := by exact_mod_cast hden
  have hq : (((0 : ℤ) : ℤ) : ℚ) ≤ (num : ℚ) / (den : ℚ) / (2 : ℚ) ^ (round_double num den).e := by
    have : (0 : ℚ) ≤ (num : ℚ) := by exact_mod_cast h
    have := div_nonneg (div_nonneg this (le_of_lt hd)) (le_of_lt (two_zpow_pos (round_double num den).e))
    simpa using this
  have := round_half_even_rat_mono hq
  rw [round_half_even_rat_intCast] at this
  exact mul_nonneg (by exact_mod_cast this) (le_of_lt (two_zpow_pos _))

theorem round_double_mono (num1 : Int) (den1 : Nat) (num2 : Int) (den2 : Nat)
    (hden1 : 0 < den1) (hden2 : 0 < den2)
    (h : (num1 : ℚ) / (den1 : ℚ) ≤ (num2 : ℚ) / (den2 : ℚ)) :
    (round_double num1 den1).value ≤ (round_double num2 den2).value := by
  have hd1 : (0 : ℚ) < (den1 : ℚ) := by exact_mod_cast hden1
  have hd2 : (0 : ℚ) < (den2 : ℚ) := by exact_mod_cast hden2
  rcases lt_trichotomy 0 num1 with hpos | hzero | hneg
  · exact round_double_mono_pos num1 den1 num2 den2 hden1 hden2 hpos h
  · subst hzero
    rw [round_double_zero den1 hden1]
    apply round_double_nonneg num2 den2 hden2
    by_contra hc
    have h2 : (num2 : ℚ) < 0 := by exact_mod_cast (not_le.mp hc)
    have := div_neg_of_neg_of_pos h2 hd2
    simp at h
    linarith
  · by_cases h2 : 0 ≤ num2
    · have hv1 : (round_double num1 den1).value ≤ 0 := by
        have := round_double_nonneg (-num1) den1 hden1 (by omega)
        rw [round_double_neg num1 den1 hden1] at this
        linarith
      exact le_trans hv1 (round_double_nonneg num2 den2 hden2 h2)
    · have hmono := round_double_mono_pos (-num2) den2 (-num1) den1 hden2 hden1 (by omega) (by
        push_cast
        rw [neg_div, neg_div]
        linarith)
      rw [round_double_neg num2 den2 hden2, round_double_neg num1 den1 hden1] at hmono
      linarith

theorem round_double_error (num : Int) (den : Nat) (hden : 0 < den) :
    |(round_double num den).value - (num : ℚ) / (den : ℚ)|
      ≤ (2 : ℚ) ^ (round_double num den).e / 2 := by
  rw [round_double_value num den hden]
  generalize (round_double num den).e = e
  have hpos := two_zpow_pos e
  have hx : (num : ℚ) / (den : ℚ) = (num : ℚ) / (den : ℚ) / (2 : ℚ) ^ e * (2 : ℚ) ^ e := by
    rw [div_mul_cancel₀ _ (ne_of_gt hpos)]
  have hnear := round_half_even_rat_near ((num : ℚ) / (den : ℚ) / (2 : ℚ) ^ e)
  have hfact : (round_half_even_rat ((num : ℚ) / (den : ℚ) / (2 : ℚ) ^ e) : ℚ) * (2 : ℚ) ^ e
        - (num : ℚ) / (den : ℚ)
      = ((round_half_even_rat ((num : ℚ) / (den : ℚ) / (2 : ℚ) ^ e) : ℚ)
          - (num : ℚ) / (den : ℚ) / (2 : ℚ) ^ e) * (2 : ℚ) ^ e := by
    rw [sub_mul]
    rw [← hx]
  rw [hfact, abs_mul, abs_of_pos hpos]
  calc |(round_half_even_rat ((num : ℚ) / (den : ℚ) / (2 : ℚ) ^ e) : ℚ)
          - (num : ℚ) / (den : ℚ) / (2 : ℚ) ^ e| * (2 : ℚ) ^ e
      ≤ 1 / 2 * (2 : ℚ) ^ e := mul_le_mul_of_nonneg_right hnear (le_of_lt hpos)
    _ = (2 : ℚ) ^ e / 2 := by ring

theorem round_double_error_bound (num : Int) (den : Nat) (hden : 0 < den) (k : Int)
    (hk : -1021 ≤ k) (hlt : |(num : ℚ) / (den : ℚ)| < (2 : ℚ) ^ k) :
    |(round_double num den).value - (num : ℚ) / (den : ℚ)| ≤ (2 : ℚ) ^ (k - 54) := by
  by_cases hnum : num = 0
  · subst hnum
    rw [round_double_zero den hden]
    simp only [Int.cast_zero, zero_div, sub_zero, abs_zero]
    exact le_of_lt (two_zpow_pos _)
  · obtain ⟨a1, a2, a3⟩ := round_double_exponent num den hnum hden
    have he : (round_double num den).e ≤ k - 53 := by
      rcases a3 with h | h
      · omega
      · have := (zpow_lt_zpow_iff_right₀ (by norm_num : (1 : ℚ) < 2)).mp (lt_of_le_of_lt h hlt)
        omega
    refine le_trans (round_double_error num den hden) ?_
    have h2 : (2 : ℚ) ^ (round_double num den).e / 2 = (2 : ℚ) ^ ((round_double num den).e - 1) := by
      rw [zpow_sub₀ (by norm_num : (2 : ℚ) ≠ 0)]
      simp
    rw [h2]
    exact zpow_le_zpow_right₀ (by norm_num) (by omega)

theorem double_value_quotient (x : double) :
    x.value = ((x.m * 2 ^ x.e.toNat : ℤ) : ℚ) / ((2 ^ (-x.e).toNat : ℕ) : ℚ) := by
  unfold double.value
  rw [two_zpow_split x.e]
  push_cast
  ring

theorem int64_of_double_eq (x : double) :
    int64_of_double x = if 0 ≤ x.value then ⌊x.value⌋ else ⌈x.value⌉ := by
  have hB : 0 < 2 ^ (-x.e).toNat := pow_pos (by norm_num) _
  have hBq : (0 : ℚ) < ((2 ^ (-x.e).toNat : ℕ) : ℚ) := by exact_mod_cast hB
  rw [double_value_quotient x]
  unfold int64_of_double
  generalize x.m * 2 ^ x.e.toNat = A
  have hcast : ((2 : ℤ) ^ (-x.e).toNat) = ((2 ^ (-x.e).toNat : ℕ) : ℤ) := by push_cast; rfl
  rw [hcast]
  generalize 2 ^ (-x.e).toNat = B at hB hBq
  by_cases hA : 0 ≤ A
  · have hq : (0 : ℚ) ≤ (A : ℚ) / (B : ℚ) := div_nonneg (by exact_mod_cast hA) (le_of_lt hBq)
    rw [if_pos hq, Rat.floor_intCast_div_natCast, Int.tdiv_eq_ediv hA (by omega)]
  · have hq : ¬ (0 : ℚ) ≤ (A : ℚ) / (B : ℚ) := by
      have hAq : (A : ℚ) < 0 := by exact_mod_cast (not_le.mp hA)
      have := div_neg_of_neg_of_pos hAq hBq
      linarith
    rw [if_neg hq]
    have hneg : (A : ℚ) / (B : ℚ) = -(((-A : ℤ) : ℚ) / (B : ℚ)) := by
      push_cast
      ring
    rw [hneg, Int.ceil_neg, Rat.floor_intCast_div_natCast]
    have h1 : A.tdiv (B : ℤ) = -((-A).tdiv (B : ℤ)) := by
      rw [Int.neg_tdiv, neg_neg]
    rw [h1, Int.tdiv_eq_ediv (by omega) (by omega)]

theorem int64_of_double_mono (x y : double) (h : x.value ≤ y.value) :
    int64_of_double x ≤ int64_of_double y := by
  rw [int64_of_double_eq, int64_of_double_eq]
  by_cases hx : 0 ≤ x.value
  · have hy : 0 ≤ y.value := le_trans hx h
    rw [if_pos hx, if_pos hy]
    exact Int.floor_mono h
  · rw [if_neg hx]
    by_cases hy : 0 ≤ y.value
    · rw [if_pos hy]
      have h1 : ⌈x.value⌉ ≤ 0 := by
        rw [Int.ceil_le]
        push_cast
        linarith
      have h2 : 0 ≤ ⌊y.value⌋ := Int.floor_nonneg.mpr hy
      omega
    · rw [if_neg hy]
      exact Int.ceil_mono h

theorem int64_of_double_ge (x : double) (L : Int) (h : (L : ℚ) ≤ x.value) :
    L ≤ int64_of_double x := by
  rw [int64_of_double_eq]
  split_ifs
  · exact Int.le_floor.mpr h
  · have := Int.le_ceil x.value
    have h2 : (L : ℚ) ≤ (⌈x.value⌉ : ℚ) := le_trans h this
    exact_mod_cast h2

theorem int64_of_double_lt (x : double) (L : Int) (hL : 1 ≤ L) (h : x.value < (L : ℚ)) :
    int64_of_double x < L := by
  rw [int64_of_double_eq]
  split_ifs with h0
  · exact Int.floor_lt.mpr h
  · have h1 : ⌈x.value⌉ ≤ 0 := by
      rw [Int.ceil_le]
      push_cast
      linarith
    omega

theorem double_of_int64_mono (a b : Int) (h : a ≤ b) :
    (double_of_int64 a).value ≤ (double_of_int64 b).value := by
  refine round_double_mono a 1 b 1 Nat.one_pos Nat.one_pos ?_
  have : (a : ℚ) ≤ (b : ℚ) := by exact_mod_cast h
  simpa using this

theorem double_div_1000000_quotient (x : double) :
    ((x.m * 2 ^ x.e.toNat : ℤ) : ℚ) / ((1000000 * 2 ^ (-x.e).toNat : ℕ) : ℚ)
      = x.value / 1000000 := by
  rw [double_value_quotient x]
  push_cast
  rw [div_div, mul_comm (1000000 : ℚ)]

theorem double_div_1000000_den_pos (x : double) : 0 < 1000000 * 2 ^ (-x.e).toNat :=
  Nat.mul_pos (by norm_num) (pow_pos (by norm_num) _)

theorem double_div_1000000_mono (x y : double) (h : x.value ≤ y.value) :
    (double_div_1000000 x).value ≤ (double_div_1000000 y).value := by
  refine round_double_mono _ _ _ _ (double_div_1000000_den_pos x) (double_div_1000000_den_pos y) ?_
  rw [double_div_1000000_quotient, double_div_1000000_quotient]
  exact div_le_div_of_nonneg_right h (by norm_num)

theorem millisecs_mono (a b : Int) (h : a ≤ b) : (millisecs a).value ≤ (millisecs b).value :=
  double_div_1000000_mono _ _ (double_of_int64_mono a b h)

theorem millisecs_int64_mono (a b : Int) (h : a ≤ b) : millisecs_int64 a ≤ millisecs_int64 b :=
  int64_of_double_mono _ _ (millisecs_mono a b h)

theorem millisecs_near (n : Int) (h1 : -(2 ^ 63) ≤ n) (h2 : n < 2 ^ 63) :
    |(millisecs n).value - (n : ℚ) / 1000000| ≤ 2001 / 1000000 := by
  have hq1 : (-(2 ^ 63 : ℚ)) ≤ (n : ℚ) := by exact_mod_cast h1
  have hq2 : (n : ℚ) < (2 ^ 63 : ℚ) := by exact_mod_cast h2
  have hn : |(n : ℚ) / ((1 : ℕ) : ℚ)| < (2 : ℚ) ^ (64 : ℤ) := by
    rw [abs_lt]
    norm_num
    constructor <;> linarith
  have e1 := round_double_error_bound n 1 Nat.one_pos 64 (by norm_num) hn
  have hp1 : (2 : ℚ) ^ ((64 : ℤ) - 54) = 1024 := by norm_num
  rw [hp1] at e1
  simp only [Nat.cast_one, div_one] at e1
  rw [abs_le] at e1
  have hd : |((double_of_int64 n).m * 2 ^ (double_of_int64 n).e.toNat : ℤ)
      / ((1000000 * 2 ^ (-(double_of_int64 n).e).toNat : ℕ) : ℚ)| < (2 : ℚ) ^ (44 : ℤ) := by
    rw [double_div_1000000_quotient, abs_lt]
    have : (double_of_int64 n).value = (round_double n 1).value := rfl
    rw [this]
    norm_num
    constructor
    · rw [lt_div_iff₀ (by norm_num)]
      linarith [e1.1]
    · rw [div_lt_iff₀ (by norm_num)]
      linarith [e1.2]
  have e2 := round_double_error_bound _ _ (double_div_1000000_den_pos (double_of_int64 n)) 44
    (by norm_num) hd
  have hp2 : (2 : ℚ) ^ ((44 : ℤ) - 54) = 1 / 1024 := by
    have : (44 : ℤ) - 54 = -10 := by norm_num
    rw [this, zpow_neg]
    norm_num
  rw [hp2, double_div_1000000_quotient, abs_le] at e2
  have hms : (millisecs n).value
      = (round_double ((double_of_int64 n).m * 2 ^ (double_of_int64 n).e.toNat)
          (1000000 * 2 ^ (-(double_of_int64 n).e).toNat)).value := rfl
  have hdv : (double_of_int64 n).value = (round_double n 1).value := rfl
  rw [hms, abs_le]
  rw [hdv] at e2
  constructor
  · have := e2.1
    have := e1.1
    linarith
  · have := e2.2
    have := e1.2
    linarith

theorem millisecs_int64_near (n : Int) (h0 : 0 ≤ n) (h2 : n < 2 ^ 63) :
    Int.tdiv n 1000000 - 1 ≤ millisecs_int64 n ∧ millisecs_int64 n ≤ Int.tdiv n 1000000 + 1 := by
  have hnear := millisecs_near n (by omega) h2
  rw [abs_le] at hnear
  rw [Int.tdiv_eq_ediv h0 (by norm_num)]
  have hsplit := Int.emod_add_ediv n 1000000
  have hm1 := Int.emod_nonneg n (by norm_num : (1000000 : ℤ) ≠ 0)
  have hm2 := Int.emod_lt_of_pos n (by norm_num : (0 : ℤ) < 1000000)
  have hlo : ((n / 1000000 : ℤ) : ℚ) * 1000000 ≤ (n : ℚ) := by
    have : (n / 1000000) * 1000000 ≤ n := by omega
    exact_mod_cast this
  have hhi : (n : ℚ) < (((n / 1000000 : ℤ) : ℚ) + 1) * 1000000 := by
    have : n < (n / 1000000 + 1) * 1000000 := by omega
    exact_mod_cast this
  constructor
  · apply int64_of_double_ge
    have := hnear.1
    push_cast
    linarith
  · have : millisecs_int64 n < n / 1000000 + 2 := by
      apply int64_of_double_lt
      · have : 0 ≤ n / 1000000 := Int.ediv_nonneg h0 (by norm_num)
        omega
      · have := hnear.2
        push_cast
        linarith
    omega

end DoubleLemmas

section QueueLemmas

variable {T : Type}

theorem push_all_spec (SIGNALED : Bool) (items : List T) :
    ∀ q : BlockingLockFreeQueue T, q.open_ = true →
      q.queue_.length + items.length ≤ q.capacity →
      (BlockingLockFreeQueue.push_all SIGNALED q items).1 = List.replicate items.length 0 ∧
      (BlockingLockFreeQueue.push_all SIGNALED q items).2.queue_ = q.queue_ ++ items ∧
      (BlockingLockFreeQueue.push_all SIGNALED q items).2.open_ = true ∧
      (BlockingLockFreeQueue.push_all SIGNALED q items).2.size_ = q.size_ + items.length ∧
      (BlockingLockFreeQueue.push_all SIGNALED q items).2.capacity = q.capacity := by
  induction items with
  | nil => intro q hopen _; simp [BlockingLockFreeQueue.push_all, hopen]
  | cons x xs ih =>
    intro q hopen hcap
    simp only [List.length_cons] at hcap
    have hlt : q.queue_.length < q.capacity := by omega
    have hp : (q.push SIGNALED x).1 = 0 ∧ (q.push SIGNALED x).2.queue_ = q.queue_ ++ [x] ∧
        (q.push SIGNALED x).2.open_ = true ∧ (q.push SIGNALED x).2.size_ = q.size_ + 1 ∧
        (q.push SIGNALED x).2.capacity = q.capacity := by
      unfold BlockingLockFreeQueue.push lockfree_push
      cases SIGNALED <;> simp [hopen, hlt]
    obtain ⟨h1, h2, h3, h4, h5⟩ := hp
    have hcap2 : (q.push SIGNALED x).2.queue_.length + xs.length ≤ (q.push SIGNALED x).2.capacity := by
      rw [h2, h5]; simp; omega
    obtain ⟨i1, i2, i3, i4, i5⟩ := ih (q.push SIGNALED x).2 h3 hcap2
    simp only [BlockingLockFreeQueue.push_all]
    refine ⟨?_, ?_, i3, ?_, ?_⟩
    · rw [h1, i1]; simp [List.replicate_succ]
    · rw [i2, h2]; simp
    · rw [i4, h4]; simp only [List.length_cons]; push_cast; ring
    · rw [i5, h5]

theorem pop_nonempty (SIGNALED : Bool) (q : BlockingLockFreeQueue T) (x : T) (rest : List T)
    (timeout_ms : Int) (steady : Nat → Int) (fuel : Nat) (hq : q.queue_ = x :: rest)
    (hfuel : 0 < fuel) :
    q.pop SIGNALED timeout_ms steady fuel =
      some (0, some x, { q with queue_ := rest, size_ := q.size_ - 1 }) := by
  obtain ⟨k, rfl⟩ : ∃ k, fuel = k + 1 := ⟨fuel - 1, by omega⟩
  cases SIGNALED <;>
    simp [BlockingLockFreeQueue.pop, BlockingLockFreeQueue.adaptive_pop,
      BlockingLockFreeQueue.adaptive_pop_loop, BlockingLockFreeQueue.signaled_pop,
      lockfree_pop, hq]

theorem pop_closed_empty (SIGNALED : Bool) (q : BlockingLockFreeQueue T)
    (timeout_ms : Int) (steady : Nat → Int) (fuel : Nat) (hq : q.queue_ = [])
    (hclosed : q.open_ = false) (hfuel : 0 < fuel) :
    q.pop SIGNALED timeout_ms steady fuel = some (-1, none, q) := by
  obtain ⟨k, rfl⟩ : ∃ k, fuel = k + 1 := ⟨fuel - 1, by omega⟩
  cases SIGNALED <;>
    simp [BlockingLockFreeQueue.pop, BlockingLockFreeQueue.adaptive_pop,
      BlockingLockFreeQueue.adaptive_pop_loop, BlockingLockFreeQueue.signaled_pop,
      lockfree_pop, hq, hclosed]

theorem pop_many_drains (SIGNALED : Bool) (timeout_ms : Int) (steady : Nat → Int) (fuel : Nat)
    (hfuel : 0 < fuel) (items : List T) :
    ∀ (q : BlockingLockFreeQueue T) (rest : List T), q.queue_ = items ++ rest →
      BlockingLockFreeQueue.pop_many SIGNALED timeout_ms steady fuel items.length q =
        some (items.map (fun x => (0, some x)),
          { q with queue_ := rest, size_ := q.size_ - items.length }) := by
  induction items with
  | nil =>
    intro q rest hq
    simp only [List.nil_append] at hq
    simp [BlockingLockFreeQueue.pop_many, ← hq]
  | cons x xs ih =>
    intro q rest hq
    have hpop := pop_nonempty SIGNALED q x (xs ++ rest) timeout_ms steady fuel
      (by simpa using hq) hfuel
    simp only [List.length_cons, BlockingLockFreeQueue.pop_many, hpop]
    rw [ih { q with queue_ := xs ++ rest, size_ := q.size_ - 1 } rest rfl]
    simp only [List.map_cons, Option.some.injEq, Prod.mk.injEq, true_and]
    congr 1
    push_cast; ring

theorem pop_many_append (SIGNALED : Bool) (timeout_ms : Int) (steady : Nat → Int) (fuel : Nat)
    (n m : Nat) :
    ∀ (q q1 q2 : BlockingLockFreeQueue T) (rs1 rs2 : List (Int × Option T)),
      BlockingLockFreeQueue.pop_many SIGNALED timeout_ms steady fuel n q = some (rs1, q1) →
      BlockingLockFreeQueue.pop_many SIGNALED timeout_ms steady fuel m q1 = some (rs2, q2) →
      BlockingLockFreeQueue.pop_many SIGNALED timeout_ms steady fuel (n + m) q =
        some (rs1 ++ rs2, q2) := by
  induction n with
  | zero =>
    intro q q1 q2 rs1 rs2 h1 h2
    simp only [BlockingLockFreeQueue.pop_many, Option.some.injEq, Prod.mk.injEq] at h1
    obtain ⟨rfl, rfl⟩ := h1
    simpa using h2
  | succ k ih =>
    intro q q1 q2 rs1 rs2 h1 h2
    have hk : k + 1 + m = (k + m) + 1 := by omega
    rw [hk]
    simp only [BlockingLockFreeQueue.pop_many] at h1 ⊢
    cases hp : q.pop SIGNALED timeout_ms steady fuel with
    | none => simp [hp] at h1
    | some res =>
      obtain ⟨r, item, qa⟩ := res
      simp only [hp] at h1 ⊢
      cases hrest : BlockingLockFreeQueue.pop_many SIGNALED timeout_ms steady fuel k qa with
      | none => simp [hrest] at h1
      | some res2 =>
        obtain ⟨rs, qb⟩ := res2
        simp only [hrest, Option.some.injEq, Prod.mk.injEq] at h1
        obtain ⟨rfl, rfl⟩ := h1
        rw [ih qa qb q2 rs rs2 hrest h2]
        simp

theorem pop_many_drains_closed (SIGNALED : Bool) (timeout_ms : Int) (steady : Nat → Int)
    (fuel : Nat) (hfuel : 0 < fuel) (items : List T) (q : BlockingLockFreeQueue T)
    (hq : q.queue_ = items) (hclosed : q.open_ = false) :
    BlockingLockFreeQueue.pop_many SIGNALED timeout_ms steady fuel (items.length + 1) q =
      some (items.map (fun x => (0, some x)) ++ [(-1, none)],
        { q with queue_ := [], size_ := q.size_ - items.length }) := by
  have hdrain := pop_many_drains SIGNALED timeout_ms steady fuel hfuel items q []
    (by simp [hq])
  have hlast := pop_closed_empty SIGNALED
    ({ q with queue_ := [], size_ := q.size_ - items.length } : BlockingLockFreeQueue T)
    timeout_ms steady fuel rfl hclosed hfuel
  have hone : BlockingLockFreeQueue.pop_many SIGNALED timeout_ms steady fuel 1
      ({ q with queue_ := [], size_ := q.size_ - items.length } : BlockingLockFreeQueue T)
        = some ([(-1, none)], { q with queue_ := [], size_ := q.size_ - items.length }) := by
    simp only [BlockingLockFreeQueue.pop_many, hlast]
  exact pop_many_append SIGNALED timeout_ms steady fuel _ _ _ _ _ _ _ hdrain hone

theorem filterMap_snd_map_some (items : List T) :
    List.filterMap Prod.snd (items.map (fun x => ((0 : Int), some x))) = items := by
  induction items with
  | nil => rfl
  | cons x xs ih => simp only [List.map_cons, List.filterMap_cons, ih]

end QueueLemmas

/-- C2: on an open, empty queue of capacity at least `N`, the `N` pushes all
return `0`; after `close()` the next `N` pops each return `0` with the pushed
items (here even in the order pushed) and only pop number `N + 1` returns
`-1`. Moreover in either wait strategy a pop on a queue that still holds an
item returns that item with `0`, whether the queue is open or closed, so
`-1` is never returned while an item is queued. One loop iteration per pop
is enough for every one of these calls to return. -/
theorem poison_drains_first {T : Type} (SIGNALED : Bool) (q0 : BlockingLockFreeQueue T)
    (items : List T) (timeout_ms : Int) (steady : Nat → Int) (fuel : Nat)
    (hopen : q0.open_ = true) (hempty : q0.queue_ = [])
    (hcap : items.length ≤ q0.capacity) (hfuel : 0 < fuel) :
    (BlockingLockFreeQueue.push_all SIGNALED q0 items).1 = List.replicate items.length 0 ∧
    (∃ qf, BlockingLockFreeQueue.pop_many SIGNALED timeout_ms steady fuel (items.length + 1)
        ((BlockingLockFreeQueue.push_all SIGNALED q0 items).2.close SIGNALED) =
          some (items.map (fun x => (0, some x)) ++ [(-1, none)], qf)) ∧
    (∀ (q : BlockingLockFreeQueue T) (x : T) (rest : List T), q.queue_ = x :: rest →
      ∃ qn, q.pop SIGNALED timeout_ms steady fuel = some (0, some x, qn)) := by
  obtain ⟨h1, h2, _, _, _⟩ := push_all_spec SIGNALED items q0 hopen (by simp [hempty, hcap])
  refine ⟨h1, ?_, ?_⟩
  · have hq : ((BlockingLockFreeQueue.push_all SIGNALED q0 items).2.close SIGNALED).queue_
        = items := by
      cases SIGNALED <;> simp [BlockingLockFreeQueue.close, h2, hempty]
    have hc : ((BlockingLockFreeQueue.push_all SIGNALED q0 items).2.close SIGNALED).open_
        = false := by
      cases SIGNALED <;> simp [BlockingLockFreeQueue.close]
    exact ⟨_, pop_many_drains_closed SIGNALED timeout_ms steady fuel hfuel items _ hq hc⟩
  · intro q x rest hq
    exact ⟨_, pop_nonempty SIGNALED q x rest timeout_ms steady fuel hq hfuel⟩

/-- Witness of C2: three items on a fresh spinning queue of capacity three. -/
theorem poison_drains_first_witness :
    (BlockingLockFreeQueue.push_all false (BlockingLockFreeQueue.create 3 true) [7, 8, 9]).1
      = List.replicate 3 0 ∧
    (∃ qf, BlockingLockFreeQueue.pop_many false 0 (fun _ => 0) 1 (3 + 1)
        ((BlockingLockFreeQueue.push_all false (BlockingLockFreeQueue.create 3 true)
          [7, 8, 9]).2.close false) =
          some ([7, 8, 9].map (fun x => (0, some x)) ++ [(-1, none)], qf)) ∧
    (∀ (q : BlockingLockFreeQueue Nat) (x : Nat) (rest : List Nat), q.queue_ = x :: rest →
      ∃ qn, q.pop false 0 (fun _ => 0) 1 = some (0, some x, qn)) :=
  poison_drains_first false (BlockingLockFreeQueue.create 3 true) [7, 8, 9] 0 (fun _ => 0) 1
    rfl rfl (by decide) (by decide)

/-- C3: on an open, empty queue with `size() = 0` and capacity at least `N`,
every one of the `N` pushes returns `0`, and `N` subsequent pops all return
`0` and deliver exactly the pushed items, each once (as a list in the order
pushed, hence as a multiset); afterwards the queue is empty and `size()` is
`0`. One loop iteration per pop is enough for each pop to return. -/
theorem queue_delivery {T : Type} (SIGNALED : Bool) (q0 : BlockingLockFreeQueue T)
    (items : List T) (timeout_ms : Int) (steady : Nat → Int) (fuel : Nat)
    (hopen : q0.open_ = true) (hempty : q0.queue_ = []) (hsize : q0.size = 0)
    (hcap : items.length ≤ q0.capacity) (hfuel : 0 < fuel) :
    (BlockingLockFreeQueue.push_all SIGNALED q0 items).1 = List.replicate items.length 0 ∧
    (∃ popped qf, BlockingLockFreeQueue.pop_many SIGNALED timeout_ms steady fuel items.length
        (BlockingLockFreeQueue.push_all SIGNALED q0 items).2 = some (popped, qf) ∧
      popped.map Prod.fst = List.replicate items.length 0 ∧
      popped.filterMap Prod.snd = items ∧
      (popped.filterMap Prod.snd).Perm items ∧
      popped.length = items.length ∧
      qf.queue_ = [] ∧ qf.size = 0) := by
  obtain ⟨h1, h2, _, h4, _⟩ := push_all_spec SIGNALED items q0 hopen (by simp [hempty, hcap])
  refine ⟨h1, ?_⟩
  have hq : (BlockingLockFreeQueue.push_all SIGNALED q0 items).2.queue_ = items ++ [] := by
    simp [h2, hempty]
  have hdrain := pop_many_drains SIGNALED timeout_ms steady fuel hfuel items _ [] hq
  have hfm := filterMap_snd_map_some items
  refine ⟨_, _, hdrain, ?_, hfm, ?_, by simp, rfl, ?_⟩
  · simp [List.map_map, Function.comp_def]
  · rw [hfm]
  · simp only [BlockingLockFreeQueue.size] at hsize ⊢
    rw [h4, hsize]; simp

/-- Witness of C3: three items on a fresh signaled queue of capacity five. -/
theorem queue_delivery_witness :
    (BlockingLockFreeQueue.push_all true (BlockingLockFreeQueue.create 5 true) [7, 8, 7]).1
      = List.replicate 3 0 ∧
    (∃ popped qf, BlockingLockFreeQueue.pop_many true 0 (fun _ => 0) 1 3
        (BlockingLockFreeQueue.push_all true (BlockingLockFreeQueue.create 5 true)
          [7, 8, 7]).2 = some (popped, qf) ∧
      popped.map Prod.fst = List.replicate 3 0 ∧
      popped.filterMap Prod.snd = [7, 8, 7] ∧
      (popped.filterMap Prod.snd).Perm [7, 8, 7] ∧
      popped.length = 3 ∧
      qf.queue_ = [] ∧ qf.size = 0) :=
  queue_delivery true (BlockingLockFreeQueue.create 5 true) [7, 8, 7] 0 (fun _ => 0) 1
    rfl rfl rfl (by decide) (by decide)

/-- C1: `push` is a total function of the queue state (it never waits). It
returns `0` exactly when the queue is open and holds fewer than `capacity`
items, and then the item is appended and `size()` grows by one; it returns
`-1` whenever the queue is closed, full or not, and `EAGAIN` when the queue
is open and already holds `capacity` items; after a failed push the queue
state, contents and `size()` included, is unchanged. -/
theorem push_contract {T : Type} (SIGNALED : Bool) (q : BlockingLockFreeQueue T) (item : T) :
    ((q.push SIGNALED item).1 = 0 ↔ (q.open_ = true ∧ q.queue_.length < q.capacity)) ∧
    ((q.push SIGNALED item).1 = 0 →
      (q.push SIGNALED item).2.queue_ = q.queue_ ++ [item] ∧
      (q.push SIGNALED item).2.size = q.size + 1 ∧
      (q.push SIGNALED item).2.open_ = true ∧
      (q.push SIGNALED item).2.capacity = q.capacity) ∧
    ((q.push SIGNALED item).1 = -1 ↔ q.open_ = false) ∧
    ((q.push SIGNALED item).1 = EAGAIN ↔ (q.open_ = true ∧ q.capacity ≤ q.queue_.length)) ∧
    ((q.push SIGNALED item).1 ≠ 0 → (q.push SIGNALED item).2 = q) := by
  unfold BlockingLockFreeQueue.push lockfree_push BlockingLockFreeQueue.size EAGAIN
  cases hopen : q.open_ <;> by_cases hlen : q.queue_.length < q.capacity <;>
    cases SIGNALED <;> simp [hlen] <;> omega

section WorkerLemmas

variable {T : Type}

theorem push_codes (SIGNALED : Bool) (q : BlockingLockFreeQueue T) (item : T) :
    (q.push SIGNALED item).1 = 0 ∨ (q.push SIGNALED item).1 = -1 ∨
      (q.push SIGNALED item).1 = EAGAIN := by
  unfold BlockingLockFreeQueue.push
  by_cases ho : q.open_ = false
  · simp [ho]
  · cases hp : lockfree_push q.capacity q.queue_ item <;> simp [ho]

theorem try_push_for_spec (env : Interference T) (item : T) (w : Worker T) (remaining : Nat) :
    ∀ (index : Nat) (q : BlockingLockFreeQueue T) (attempts : List Int),
      (((Worker.try_push_for env item w remaining index q attempts).result = 0 ∨
          (Worker.try_push_for env item w remaining index q attempts).result = -1) ∧
        ∃ k, k < remaining ∧
          (Worker.try_push_for env item w remaining index q attempts).attempts =
            attempts ++ List.replicate k EAGAIN ++
              [(Worker.try_push_for env item w remaining index q attempts).result]) ∨
      ((Worker.try_push_for env item w remaining index q attempts).result = EAGAIN ∧
        (Worker.try_push_for env item w remaining index q attempts).attempts =
          attempts ++ List.replicate remaining EAGAIN) := by
  induction remaining with
  | zero => intro index q attempts; right; simp [Worker.try_push_for]
  | succ n ih =>
    intro index q attempts
    rcases push_codes false (env index q) item with h | h | h
    · left
      simp only [Worker.try_push_for, h, le_refl, if_true]
      exact ⟨Or.inl trivial, 0, by omega, by simp⟩
    · left
      simp only [Worker.try_push_for, h]
      exact ⟨Or.inr rfl, 0, by omega, by simp⟩
    · have hpos : ¬ ((env index q).push false item).1 ≤ 0 := by rw [h]; decide
      simp only [Worker.try_push_for, hpos, if_false]
      rcases ih (index + 1) ((env index q).push false item).2
          (attempts ++ [((env index q).push false item).1]) with ⟨hr, k, hk, ha⟩ | ⟨hr, ha⟩
      · left
        refine ⟨hr, k + 1, by omega, ?_⟩
        rw [ha, h]
        simp [List.replicate_succ]
      · right
        refine ⟨hr, ?_⟩
        rw [ha, h]
        simp [List.replicate_succ]

theorem nth_push_shift (env : Interference T) (item : T) (q : BlockingLockFreeQueue T)
    (n : Nat) :
    Worker.nth_push env item q (n + 1)
      = Worker.nth_push (fun i => env (i + 1)) item ((env 0 q).push false item).2 n := by
  induction n with
  | zero => simp [Worker.nth_push]
  | succ n ih =>
    rw [Worker.nth_push, ih]
    simp [Worker.nth_push]

theorem try_push_for_nth (item : T) (w : Worker T) (remaining : Nat) :
    ∀ (env : Interference T) (index : Nat) (q : BlockingLockFreeQueue T) (attempts : List Int),
      (∀ k, k < remaining →
        (∀ j, j < k → (Worker.nth_push (fun i => env (index + i)) item q j).1 = EAGAIN) →
        (Worker.nth_push (fun i => env (index + i)) item q k).1 ≠ EAGAIN →
        (Worker.try_push_for env item w remaining index q attempts).result
          = (Worker.nth_push (fun i => env (index + i)) item q k).1 ∧
        (Worker.try_push_for env item w remaining index q attempts).attempts
          = attempts ++ (List.range (k + 1)).map
              (fun j => (Worker.nth_push (fun i => env (index + i)) item q j).1) ∧
        (Worker.try_push_for env item w remaining index q attempts).worker
          = { w with waiter_ := (Worker.nth_push (fun i => env (index + i)) item q k).2 } ∧
        (Worker.try_push_for env item w remaining index q attempts).destroyed
          = decide ((Worker.nth_push (fun i => env (index + i)) item q k).1 ≠ 0)) ∧
      ((∀ j, j < remaining →
          (Worker.nth_push (fun i => env (index + i)) item q j).1 = EAGAIN) →
        (Worker.try_push_for env item w remaining index q attempts).result = EAGAIN ∧
        (Worker.try_push_for env item w remaining index q attempts).attempts
          = attempts ++ (List.range remaining).map
              (fun j => (Worker.nth_push (fun i => env (index + i)) item q j).1) ∧
        (Worker.try_push_for env item w remaining index q attempts).worker
          = { w with waiter_ := match remaining with
              | 0 => q
              | r + 1 => (Worker.nth_push (fun i => env (index + i)) item q r).2 } ∧
        (Worker.try_push_for env item w remaining index q attempts).destroyed = true) := by
  induction remaining with
  | zero =>
    intro env index q attempts
    refine ⟨fun k hk => absurd hk (by omega), fun _ => ?_⟩
    simp [Worker.try_push_for]
  | succ n ih =>
    intro env index q attempts
    have hP0 : Worker.nth_push (fun i => env (index + i)) item q 0
        = (env index q).push false item := by
      simp [Worker.nth_push]
    have hshift : ∀ j, Worker.nth_push (fun i => env (index + i)) item q (j + 1)
        = Worker.nth_push (fun i => env (index + 1 + i)) item
            ((env index q).push false item).2 j := by
      intro j
      rw [nth_push_shift]
      have hfun : (fun i => (fun i => env (index + i)) (i + 1))
          = (fun i => env (index + 1 + i)) := by
        funext i
        show env (index + (i + 1)) = env (index + 1 + i)
        rw [show index + (i + 1) = index + 1 + i by omega]
      rw [hfun]
      simp
    have hrange : ∀ (m : Nat) (f : Nat → Int),
        (List.range (m + 1)).map f = f 0 :: (List.range m).map (fun j => f (j + 1)) := by
      intro m f
      rw [List.range_succ_eq_map, List.map_cons, List.map_map]
      rfl
    by_cases hle : ((env index q).push false item).1 ≤ 0
    · have hne : ((env index q).push false item).1 ≠ EAGAIN := by
        intro h
        rw [h] at hle
        exact absurd hle (by decide)
      constructor
      · intro k hk hbefore hstop
        cases k with
        | zero =>
          simp only [Worker.try_push_for, hle, if_true]
          refine ⟨by rw [hP0], ?_, by rw [hP0], by rw [hP0]⟩
          rw [hrange 0, hP0]
          simp
        | succ k =>
          have := hbefore 0 (by omega)
          rw [hP0] at this
          exact absurd this hne
      · intro hall
        have := hall 0 (by omega)
        rw [hP0] at this
        exact absurd this hne
    · have hE : ((env index q).push false item).1 = EAGAIN := by
        rcases push_codes false (env index q) item with h | h | h
        · rw [h] at hle
          exact absurd (le_refl (0 : Int)) hle
        · rw [h] at hle
          exact absurd (by decide : (-1 : Int) ≤ 0) hle
        · exact h
      obtain ⟨ih1, ih2⟩ := ih env (index + 1) ((env index q).push false item).2
        (attempts ++ [((env index q).push false item).1])
      constructor
      · intro k hk hbefore hstop
        cases k with
        | zero =>
          rw [hP0] at hstop
          exact absurd hE hstop
        | succ k =>
          have h1 := ih1 k (by omega)
            (fun j hj => by rw [← hshift]; exact hbefore (j + 1) (by omega))
            (by rw [← hshift]; exact hstop)
          simp only [Worker.try_push_for, hle, if_false]
          obtain ⟨a1, a2, a3, a4⟩ := h1
          refine ⟨?_, ?_, ?_, ?_⟩
          · rw [a1, hshift]
          · rw [a2, hrange (k + 1), hP0]
            simp only [hshift, List.append_assoc, List.singleton_append]
          · rw [a3, hshift]
          · rw [a4, hshift]
      · intro hall
        have h2 := ih2 (fun j hj => by rw [← hshift]; exact hall (j + 1) (by omega))
        simp only [Worker.try_push_for, hle, if_false]
        obtain ⟨a1, a2, a3, a4⟩ := h2
        refine ⟨a1, ?_, ?_, a4⟩
        · rw [a2, hrange n, hP0]
          simp only [hshift, List.append_assoc, List.singleton_append]
        · rw [a3]
          cases n with
          | zero => simp [hP0]
          | succ m => simp [hshift]

end WorkerLemmas

/-- C4: for `max_retries >= 1`, whatever the other threads do to the queue
between attempts, `try_push` calls `waiter_.push` on the queue as the call
before left it, one call after another. Every such call returns `0`, `-1` or
`EAGAIN`. At the first call that does not return `EAGAIN`, if it is among the
first `max_retries`, `try_push` stops: it returns the code of that call, `0`
or `-1`, it has made exactly that call and the ones before it, and the queue
of the worker is the one that call left. If the first `max_retries` calls all
return `EAGAIN`, `try_push` returns `EAGAIN` after exactly `max_retries` calls.
On a queue that stays open and full, `max_retries = 3` makes exactly three
pushes, each returning `EAGAIN`, and returns `EAGAIN`, leaving the queue as it
was; on an open queue with room the first push stores the item and `try_push`
returns `0`; on a closed queue the first push returns `-1` and so does
`try_push`. -/
theorem try_push_retry_bound {T : Type} (env : Interference T) (w : Worker T) (item : T)
    (max_retries : Nat) (h : 1 ≤ max_retries) :
    (∀ n, (Worker.nth_push env item w.waiter_ n).1 = 0 ∨
      (Worker.nth_push env item w.waiter_ n).1 = -1 ∨
      (Worker.nth_push env item w.waiter_ n).1 = EAGAIN) ∧
    (∀ k, k < max_retries →
      (∀ j, j < k → (Worker.nth_push env item w.waiter_ j).1 = EAGAIN) →
      (Worker.nth_push env item w.waiter_ k).1 ≠ EAGAIN →
      (w.try_push env item max_retries).result = (Worker.nth_push env item w.waiter_ k).1 ∧
      ((w.try_push env item max_retries).result = 0 ∨
        (w.try_push env item max_retries).result = -1) ∧
      (w.try_push env item max_retries).attempts
        = (List.range (k + 1)).map (fun j => (Worker.nth_push env item w.waiter_ j).1) ∧
      (w.try_push env item max_retries).attempts.length = k + 1 ∧
      (w.try_push env item max_retries).worker
        = { w with waiter_ := (Worker.nth_push env item w.waiter_ k).2 } ∧
      (w.try_push env item max_retries).destroyed
        = decide ((w.try_push env item max_retries).result ≠ 0)) ∧
    ((∀ j, j < max_retries → (Worker.nth_push env item w.waiter_ j).1 = EAGAIN) →
      (w.try_push env item max_retries).result = EAGAIN ∧
      (w.try_push env item max_retries).attempts
        = (List.range max_retries).map (fun j => (Worker.nth_push env item w.waiter_ j).1) ∧
      (w.try_push env item max_retries).attempts.length = max_retries ∧
      (w.try_push env item max_retries).worker
        = { w with waiter_ := (Worker.nth_push env item w.waiter_ (max_retries - 1)).2 } ∧
      (w.try_push env item max_retries).destroyed = true) ∧
    (w.waiter_.open_ = true → w.waiter_.capacity ≤ w.waiter_.queue_.length →
      w.waiter_.push false item = (EAGAIN, w.waiter_) ∧
      (w.try_push (fun _ q => q) item 3).result = EAGAIN ∧
      (w.try_push (fun _ q => q) item 3).attempts = [EAGAIN, EAGAIN, EAGAIN] ∧
      (w.try_push (fun _ q => q) item 3).worker = w) ∧
    (w.waiter_.open_ = true → w.waiter_.queue_.length < w.waiter_.capacity →
      (w.try_push (fun _ q => q) item max_retries).result = 0 ∧
      (w.try_push (fun _ q => q) item max_retries).attempts = [0] ∧
      (w.try_push (fun _ q => q) item max_retries).worker.waiter_.queue_
        = w.waiter_.queue_ ++ [item] ∧
      (w.try_push (fun _ q => q) item max_retries).destroyed = false) ∧
    (w.waiter_.open_ = false →
      (w.try_push (fun _ q => q) item max_retries).result = -1 ∧
      (w.try_push (fun _ q => q) item max_retries).attempts = [-1] ∧
      (w.try_push (fun _ q => q) item max_retries).worker = w ∧
      (w.try_push (fun _ q => q) item max_retries).destroyed = true) := by
  have hne : ¬ max_retries = 0 := by omega
  have hcodes : ∀ (e : Interference T) (n : Nat),
      (Worker.nth_push e item w.waiter_ n).1 = 0 ∨
      (Worker.nth_push e item w.waiter_ n).1 = -1 ∨
      (Worker.nth_push e item w.waiter_ n).1 = EAGAIN := by
    intro e n
    cases n with
    | zero => exact push_codes false _ item
    | succ n => exact push_codes false _ item
  have hfun : ∀ e : Interference T, (fun i => e (0 + i)) = e := by
    intro e
    funext i
    simp
  have hspec := fun e : Interference T => try_push_for_nth item w max_retries e 0 w.waiter_ []
  have hfirst : ∀ (e : Interference T) (k : Nat), k < max_retries →
      (∀ j, j < k → (Worker.nth_push e item w.waiter_ j).1 = EAGAIN) →
      (Worker.nth_push e item w.waiter_ k).1 ≠ EAGAIN →
      (w.try_push e item max_retries).result = (Worker.nth_push e item w.waiter_ k).1 ∧
      (w.try_push e item max_retries).attempts
        = (List.range (k + 1)).map (fun j => (Worker.nth_push e item w.waiter_ j).1) ∧
      (w.try_push e item max_retries).worker
        = { w with waiter_ := (Worker.nth_push e item w.waiter_ k).2 } ∧
      (w.try_push e item max_retries).destroyed
        = decide ((Worker.nth_push e item w.waiter_ k).1 ≠ 0) := by
    intro e k hk hbefore hstop
    have := (hspec e).1 k hk (by rw [hfun]; exact hbefore) (by rw [hfun]; exact hstop)
    rw [hfun] at this
    simpa [Worker.try_push, hne] using this
  refine ⟨hcodes env, ?_, ?_, ?_, ?_, ?_⟩
  · intro k hk hbefore hstop
    obtain ⟨a1, a2, a3, a4⟩ := hfirst env k hk hbefore hstop
    refine ⟨a1, ?_, a2, ?_, a3, ?_⟩
    · rw [a1]
      rcases hcodes env k with h0 | h1 | hE
      · exact Or.inl h0
      · exact Or.inr h1
      · exact absurd hE hstop
    · rw [a2]
      simp
    · rw [a4, a1]
  · intro hall
    have := (hspec env).2 (by rw [hfun]; exact hall)
    rw [hfun] at this
    obtain ⟨a1, a2, a3, a4⟩ := this
    have hm : max_retries = (max_retries - 1) + 1 := by omega
    refine ⟨?_, ?_, ?_, ?_, ?_⟩
    · simpa [Worker.try_push, hne] using a1
    · simpa [Worker.try_push, hne] using a2
    · have : (w.try_push env item max_retries).attempts
          = (List.range max_retries).map (fun j => (Worker.nth_push env item w.waiter_ j).1) := by
        simpa [Worker.try_push, hne] using a2
      rw [this]
      simp
    · have hw : (w.try_push env item max_retries).worker
          = (Worker.try_push_for env item w max_retries 0 w.waiter_ []).worker := by
        simp [Worker.try_push, hne]
      rw [hw, a3]
      cases max_retries with
      | zero => exact absurd rfl hne
      | succ m => simp
    · simpa [Worker.try_push, hne] using a4
  · intro hopen hfull
    have hp : w.waiter_.push false item = (EAGAIN, w.waiter_) := by
      unfold BlockingLockFreeQueue.push lockfree_push
      have : ¬ w.waiter_.queue_.length < w.waiter_.capacity := by omega
      simp [hopen, this]
    have hpos : ¬ EAGAIN ≤ 0 := by decide
    refine ⟨hp, ?_⟩
    simp [Worker.try_push, Worker.try_push_for, hp, hpos]
  · intro hopen hroom
    have hp0 : (Worker.nth_push (fun _ q => q) item w.waiter_ 0).1 = 0 ∧
        (Worker.nth_push (fun _ q => q) item w.waiter_ 0).2.queue_ = w.waiter_.queue_ ++ [item] := by
      simp [Worker.nth_push, BlockingLockFreeQueue.push, lockfree_push, hopen, hroom]
    obtain ⟨a1, a2, a3, a4⟩ := hfirst (fun _ q => q) 0 (by omega)
      (fun j hj => absurd hj (by omega)) (by rw [hp0.1]; decide)
    refine ⟨by rw [a1, hp0.1], ?_, ?_, ?_⟩
    · rw [a2]
      simp [List.range_succ, hp0.1]
    · rw [a3]
      exact hp0.2
    · rw [a4, hp0.1]
      decide
  · intro hclosed
    have hp0 : Worker.nth_push (fun _ q => q) item w.waiter_ 0 = (-1, w.waiter_) := by
      simp [Worker.nth_push, BlockingLockFreeQueue.push, hclosed]
    obtain ⟨a1, a2, a3, a4⟩ := hfirst (fun _ q => q) 0 (by omega)
      (fun j hj => absurd hj (by omega)) (by rw [hp0]; show (-1 : Int) ≠ EAGAIN; decide)
    refine ⟨by rw [a1, hp0], ?_, ?_, ?_⟩
    · rw [a2]
      simp [List.range_succ, hp0]
    · rw [a3, hp0]
    · rw [a4, hp0]
      rfl

/-- Witness of C4: three retries on an open queue of capacity one that holds
the item `5`; the consumer takes `5` out just before the third push. The
first two pushes return `EAGAIN`, the third returns `0` and stores the item
`6`, and `try_push` returns `0` after exactly these three pushes. -/
theorem try_push_retry_bound_witness :
    (1 ≤ 3) ∧
    (Worker.try_push
      (fun i q => if i = 2 then { q with queue_ := q.queue_.tail, size_ := q.size_ - 1 } else q)
      ({ waiter_ := { capacity := 1, queue_ := [5], signal_ := {}, open_ := true, size_ := 1 },
         assigned_no_ := 1 } : Worker Nat) 6 3).result = 0 ∧
    (Worker.try_push
      (fun i q => if i = 2 then { q with queue_ := q.queue_.tail, size_ := q.size_ - 1 } else q)
      ({ waiter_ := { capacity := 1, queue_ := [5], signal_ := {}, open_ := true, size_ := 1 },
         assigned_no_ := 1 } : Worker Nat) 6 3).attempts = [EAGAIN, EAGAIN, 0] ∧
    (Worker.try_push
      (fun i q => if i = 2 then { q with queue_ := q.queue_.tail, size_ := q.size_ - 1 } else q)
      ({ waiter_ := { capacity := 1, queue_ := [5], signal_ := {}, open_ := true, size_ := 1 },
         assigned_no_ := 1 } : Worker Nat) 6 3).worker.waiter_.queue_ = [6] :=
  ⟨by decide,
    ((try_push_retry_bound
      (fun i q => if i = 2 then { q with queue_ := q.queue_.tail, size_ := q.size_ - 1 } else q)
      ({ waiter_ := { capacity := 1, queue_ := [5], signal_ := {}, open_ := true, size_ := 1 },
         assigned_no_ := 1 } : Worker Nat) 6 3 (by decide)).2.1 2 (by decide)
        (by decide) (by decide)).1.trans (by decide),
    ((try_push_retry_bound
      (fun i q => if i = 2 then { q with queue_ := q.queue_.tail, size_ := q.size_ - 1 } else q)
      ({ waiter_ := { capacity := 1, queue_ := [5], signal_ := {}, open_ := true, size_ := 1 },
         assigned_no_ := 1 } : Worker Nat) 6 3 (by decide)).2.1 2 (by decide)
        (by decide) (by decide)).2.2.1.trans (by decide),
    by decide⟩

section PoolLemmas

variable {α : Type}

theorem std14_min_element_loop_spec (key : α → Int) (rest : List α) :
    ∀ (pre : List α) (min : Nat) (vmin : α),
      pre[min]? = some vmin →
      (∀ x ∈ pre, key vmin ≤ key x) →
      (∀ x ∈ pre.take min, key vmin < key x) →
      (pre ++ rest)[(std14_min_element_loop (fun a b => decide (key a < key b)) rest
          pre.length min vmin).1]? =
        some (std14_min_element_loop (fun a b => decide (key a < key b)) rest
          pre.length min vmin).2 ∧
      (∀ x ∈ pre ++ rest,
        key (std14_min_element_loop (fun a b => decide (key a < key b)) rest
          pre.length min vmin).2 ≤ key x) ∧
      (∀ x ∈ (pre ++ rest).take (std14_min_element_loop (fun a b => decide (key a < key b)) rest
          pre.length min vmin).1,
        key (std14_min_element_loop (fun a b => decide (key a < key b)) rest
          pre.length min vmin).2 < key x) := by
  induction rest with
  | nil =>
    intro pre min vmin h1 h2 h3
    simpa [std14_min_element_loop] using ⟨h1, h2, h3⟩
  | cons y ys ih =>
    intro pre min vmin h1 h2 h3
    have hmin : min < pre.length := by
      by_contra hge
      rw [List.getElem?_eq_none (by omega)] at h1
      exact Option.noConfusion h1
    have hlen : (pre ++ [y]).length = pre.length + 1 := by simp
    have happ : pre ++ y :: ys = (pre ++ [y]) ++ ys := by simp
    by_cases hc : key y < key vmin
    · have hstep := ih (pre ++ [y]) pre.length y (by simp)
        (by
          intro x hx
          rcases List.mem_append.mp hx with hx | hx
          · exact le_of_lt (lt_of_lt_of_le hc (h2 x hx))
          · simp at hx; rw [hx])
        (by
          intro x hx
          simp at hx
          exact lt_of_lt_of_le hc (h2 x hx))
      rw [hlen] at hstep
      rw [happ]
      simp only [std14_min_element_loop, decide_eq_true_eq, hc, if_true, if_false]
      exact hstep
    · have hstep := ih (pre ++ [y]) min vmin
        (by rw [List.getElem?_append_left hmin]; exact h1)
        (by
          intro x hx
          rcases List.mem_append.mp hx with hx | hx
          · exact h2 x hx
          · simp at hx; rw [hx]; omega)
        (by
          intro x hx
          rw [List.take_append_of_le_length (le_of_lt hmin)] at hx
          exact h3 x hx)
      rw [hlen] at hstep
      rw [happ]
      simp only [std14_min_element_loop, decide_eq_true_eq, hc, if_true, if_false]
      exact hstep

end PoolLemmas

/-- C5: on a pool with at least one worker, `push` hands the message to the
worker at the smallest position among those whose `size()` is minimal (no
worker has a smaller size, every worker before it has a strictly larger one),
returns that worker's `push` result and stores the worker as that push left
it; sizes `[5,1,3]` select position 1 and sizes `[2,2,5]` select position 0.
On a pool without workers the result is `-1`, whatever the worker operations
are, and nothing changes. -/
theorem dispatch_least_loaded {W M σ : Type} (ops : WorkerOps W M σ) (pool : WorkerPool W)
    (message : M) (s : σ) :
    (pool.workers_ ≠ [] →
      ∃ (i : Nat) (wk : W), pool.workers_[i]? = some wk ∧
        (∀ x ∈ pool.workers_, ops.size wk ≤ ops.size x) ∧
        (∀ x ∈ pool.workers_.take i, ops.size wk < ops.size x) ∧
        pool.push ops message s =
          ((ops.push wk message s).1,
            { workers_ := pool.workers_.set i (ops.push wk message s).2.1 },
            (ops.push wk message s).2.2)) ∧
    (∀ a b c : W, ops.size a = 5 → ops.size b = 1 → ops.size c = 3 →
      WorkerPool.push ops { workers_ := [a, b, c] } message s =
        ((ops.push b message s).1, { workers_ := [a, (ops.push b message s).2.1, c] },
          (ops.push b message s).2.2)) ∧
    (∀ a b c : W, ops.size a = 2 → ops.size b = 2 → ops.size c = 5 →
      WorkerPool.push ops { workers_ := [a, b, c] } message s =
        ((ops.push a message s).1, { workers_ := [(ops.push a message s).2.1, b, c] },
          (ops.push a message s).2.2)) ∧
    (pool.workers_ = [] → ∀ ops2 : WorkerOps W M σ,
      pool.push ops2 message s = (-1, pool, s)) := by
  refine ⟨?_, ?_, ?_, ?_⟩
  · intro hne
    cases hw : pool.workers_ with
    | nil => exact absurd hw hne
    | cons w0 rest =>
      have hspec := std14_min_element_loop_spec ops.size rest [w0] 0 w0 (by simp)
        (by simp) (by simp)
      simp only [List.length_singleton, List.singleton_append] at hspec
      refine ⟨_, _, hspec.1, hspec.2.1, hspec.2.2, ?_⟩
      simp [WorkerPool.push, hw, std14_min_element]
  · intro a b c ha hb hc
    simp [WorkerPool.push, std14_min_element, std14_min_element_loop, ha, hb, hc]
  · intro a b c ha hb hc
    simp [WorkerPool.push, std14_min_element, std14_min_element_loop, ha, hb, hc]
  · intro hnil ops2
    simp [WorkerPool.push, hnil]

section TpsLemmas

theorem multiset_insert_perm (t : Int) (l : List Int) : (multiset_insert t l).Perm (t :: l) := by
  induction l with
  | nil => simp [multiset_insert]
  | cons e es ih =>
    by_cases h : t > e
    · simp [multiset_insert, h]
    · simp only [multiset_insert, h, if_false]
      exact (List.Perm.cons e ih).trans (List.Perm.swap t e es)

theorem multiset_insert_sorted (t : Int) (l : List Int) (hs : l.Pairwise (fun a b => a ≥ b)) :
    (multiset_insert t l).Pairwise (fun a b => a ≥ b) := by
  induction l with
  | nil => simp [multiset_insert]
  | cons e es ih =>
    rw [List.pairwise_cons] at hs
    by_cases h : t > e
    · simp only [multiset_insert, h, if_true]
      refine List.pairwise_cons.mpr ⟨?_, List.pairwise_cons.mpr hs⟩
      intro x hx
      rcases List.mem_cons.mp hx with hx | hx
      · rw [hx]; exact le_of_lt h
      · exact le_trans (hs.1 x hx) (le_of_lt h)
    · simp only [multiset_insert, h, if_false]
      refine List.pairwise_cons.mpr ⟨?_, ih hs.2⟩
      intro x hx
      rcases List.mem_cons.mp ((multiset_insert_perm t es).mem_iff.mp hx) with hx | hx
      · rw [hx]; exact not_lt.mp h
      · exact hs.1 x hx

theorem take_lower_bound_eq_filter (c : Int) (l : List Int)
    (hs : l.Pairwise (fun a b => a ≥ b)) :
    l.take (multiset_lower_bound c l) = l.filter (fun e => decide (e > c)) := by
  induction l with
  | nil => simp [multiset_lower_bound]
  | cons e es ih =>
    rw [List.pairwise_cons] at hs
    by_cases h : e > c
    · simp [multiset_lower_bound, h, ih hs.2]
    · simp only [multiset_lower_bound, h, if_false, List.take_zero]
      symm
      rw [List.filter_eq_nil_iff]
      intro x hx
      rcases List.mem_cons.mp hx with hx | hx
      · rw [hx]; simpa using h
      · have := hs.1 x hx
        simp only [decide_eq_true_eq, not_lt]
        exact le_trans this (not_lt.mp h)

theorem filter_filter_cutoff (c1 c2 : Int) (h : c1 ≤ c2) (l : List Int) :
    (l.filter (fun e => decide (e > c1))).filter (fun e => decide (e > c2)) =
      l.filter (fun e => decide (e > c2)) := by
  rw [List.filter_filter]
  apply List.filter_congr
  intro x _
  by_cases hx : x > c2
  · have : x > c1 := lt_of_le_of_lt h hx
    simp [hx, this]
  · simp [hx]

theorem recorded_append (l1 l2 : List TpsCall) :
    recorded (l1 ++ l2) = recorded l1 ++ recorded l2 := by
  induction l1 with
  | nil => rfl
  | cons c cs ih => cases c <;> simp [recorded, ih]

theorem run_append (m : TpsMeter) (l : List TpsCall) (c : TpsCall) :
    TpsMeter.run m (l ++ [c]) = ((TpsMeter.run m l).call c).2 := by
  induction l generalizing m with
  | nil => rfl
  | cons d ds ih => exact ih (m.call d).2

theorem call_window (m : TpsMeter) (c : TpsCall) (hs : m.transactions_.Pairwise (fun a b => a ≥ b)) :
    (m.call c).2.transactions_.Perm
      (((recorded [c]) ++ m.transactions_).filter (fun e => decide (e > c.time - one_second))) := by
  cases c with
  | add_transaction t =>
    simp only [TpsMeter.call, TpsMeter.add_transaction, TpsMeter.get_tps_nolock,
      TpsMeter.cleanup_cutoff, TpsCall.time, recorded]
    rw [take_lower_bound_eq_filter _ _ (multiset_insert_sorted t _ hs)]
    exact (multiset_insert_perm t m.transactions_).filter _
  | get_tps t =>
    simp only [TpsMeter.call, TpsMeter.get_tps, TpsMeter.get_tps_nolock,
      TpsMeter.cleanup_cutoff, TpsCall.time, recorded]
    rw [take_lower_bound_eq_filter _ _ hs]
    simp

theorem call_sorted (m : TpsMeter) (c : TpsCall)
    (hs : m.transactions_.Pairwise (fun a b => a ≥ b)) :
    (m.call c).2.transactions_.Pairwise (fun a b => a ≥ b) ∧
    (∀ s ∈ (m.call c).2.transactions_, s > c.time - one_second) ∧
    (m.call c).1 = (m.call c).2.transactions_.length := by
  cases c with
  | add_transaction t =>
    simp only [TpsMeter.call, TpsMeter.add_transaction, TpsMeter.get_tps_nolock,
      TpsMeter.cleanup_cutoff, TpsCall.time]
    rw [take_lower_bound_eq_filter _ _ (multiset_insert_sorted t _ hs)]
    refine ⟨(multiset_insert_sorted t _ hs).filter _, ?_, trivial⟩
    intro s hs2
    simpa using (List.mem_filter.mp hs2).2
  | get_tps t =>
    simp only [TpsMeter.call, TpsMeter.get_tps, TpsMeter.get_tps_nolock,
      TpsMeter.cleanup_cutoff, TpsCall.time]
    rw [take_lower_bound_eq_filter _ _ hs]
    refine ⟨hs.filter _, ?_, trivial⟩
    intro s hs2
    simpa using (List.mem_filter.mp hs2).2

theorem run_invariant (h : List TpsCall) (hmono : h.Pairwise (fun a b => a.time ≤ b.time)) :
    (TpsMeter.run {} h).transactions_.Pairwise (fun a b => a ≥ b) ∧
    ∀ t, (∀ c ∈ h, c.time ≤ t) →
      ((TpsMeter.run {} h).transactions_.filter (fun e => decide (e > t - one_second))).Perm
        ((recorded h).filter (fun e => decide (e > t - one_second))) := by
  induction h using List.reverseRecOn with
  | nil => simp [TpsMeter.run, recorded]
  | append_singleton l c ih =>
    rw [List.pairwise_append] at hmono
    obtain ⟨hl, _, hlc⟩ := hmono
    obtain ⟨ihs, ihp⟩ := ih hl
    rw [run_append]
    obtain ⟨hs2, _, _⟩ := call_sorted (TpsMeter.run {} l) c ihs
    refine ⟨hs2, ?_⟩
    intro t ht
    have htc : c.time ≤ t := ht c (by simp)
    have htl : ∀ d ∈ l, d.time ≤ t := fun d hd => ht d (by simp [hd])
    have hw := call_window (TpsMeter.run {} l) c ihs
    have h1 := hw.filter (fun e => decide (e > t - one_second))
    rw [filter_filter_cutoff _ _ (by omega)] at h1
    refine h1.trans ?_
    rw [recorded_append, List.filter_append, List.filter_append]
    exact (List.perm_append_comm).trans (List.Perm.append (ihp t htl) (List.Perm.refl _))

end TpsLemmas

/-- C6: start from an empty meter and make any sequence of `add_transaction`
and `get_tps` calls at non-decreasing times, every call reading the clock as
one time `t` throughout. A call made at time `t` returns
the number of transactions recorded so far, the one being recorded by an
`add_transaction` included, whose timestamp `s` satisfies `s > t - 1 s`, and
afterwards every timestamp in the window is later than `t - 1 s`. `get_tps`
adds no timestamp: the window after it is a sublist of the window before.
Five transactions at `t = 0` give `5` at `0.5 s` and `0` at `1.5 s`. -/
theorem tps_window_correct (history : List TpsCall) (c : TpsCall)
    (hmono : (history ++ [c]).Pairwise (fun a b => a.time ≤ b.time)) :
    ((TpsMeter.run {} history).call c).1 =
      ((recorded (history ++ [c])).filter (fun s => decide (s > c.time - one_second))).length ∧
    (∀ s ∈ ((TpsMeter.run {} history).call c).2.transactions_, s > c.time - one_second) ∧
    (∀ (m : TpsMeter) (t : Int), (m.get_tps t).2.transactions_.Sublist m.transactions_) ∧
    ((TpsMeter.run {} (List.replicate 5 (TpsCall.add_transaction 0))).call
        (TpsCall.get_tps 500000000)).1 = 5 ∧
    ((TpsMeter.run {} (List.replicate 5 (TpsCall.add_transaction 0))).call
        (TpsCall.get_tps 1500000000)).1 = 0 := by
  have hpre : history.Pairwise (fun a b => a.time ≤ b.time) :=
    (List.pairwise_append.mp hmono).1
  obtain ⟨hs, _⟩ := run_invariant history hpre
  obtain ⟨hs2, hwin, hlen⟩ := call_sorted (TpsMeter.run {} history) c hs
  obtain ⟨_, hperm⟩ := run_invariant (history ++ [c]) hmono
  refine ⟨?_, hwin, ?_, by decide, by decide⟩
  · have hp := hperm c.time (by
      intro d hd
      rcases List.mem_append.mp hd with hd | hd
      · exact (List.pairwise_append.mp hmono).2.2 d hd c (by simp)
      · simp at hd; rw [hd])
    rw [run_append] at hp
    have hid : ((TpsMeter.run {} history).call c).2.transactions_.filter
        (fun e => decide (e > c.time - one_second)) =
        ((TpsMeter.run {} history).call c).2.transactions_ := by
      rw [List.filter_eq_self]
      intro s hs3
      simpa using hwin s hs3
    rw [hid] at hp
    rw [hlen, hp.length_eq]
  · intro m t
    exact List.take_sublist _ _

/-- Witness of C6: two transactions and a query one second after the first. -/
theorem tps_window_correct_witness :
    ([TpsCall.add_transaction 0, TpsCall.add_transaction 400000000] ++
        [TpsCall.get_tps 1000000000]).Pairwise (fun a b => a.time ≤ b.time) ∧
    ((TpsMeter.run {} [TpsCall.add_transaction 0, TpsCall.add_transaction 400000000]).call
        (TpsCall.get_tps 1000000000)).1 =
      ((recorded ([TpsCall.add_transaction 0, TpsCall.add_transaction 400000000] ++
          [TpsCall.get_tps 1000000000])).filter
        (fun s => decide (s > (TpsCall.get_tps 1000000000).time - one_second))).length :=
  ⟨by decide,
    (tps_window_correct [TpsCall.add_transaction 0, TpsCall.add_transaction 400000000]
      (TpsCall.get_tps 1000000000) (by decide)).1⟩

section AdmissionLemmas

theorem get_tps_sublist (m : TpsMeter) (t : Int) :
    (m.get_tps t).2.transactions_.Sublist m.transactions_ :=
  List.take_sublist _ _

theorem try_push_for_full {T : Type} (item : T) (w : Worker T) (q : BlockingLockFreeQueue T)
    (hopen : q.open_ = true) (hfull : q.capacity ≤ q.queue_.length) (remaining : Nat) :
    ∀ (index : Nat) (attempts : List Int),
      (Worker.try_push_for (fun _ q => q) item w remaining index q attempts).result = EAGAIN ∧
      (Worker.try_push_for (fun _ q => q) item w remaining index q attempts).worker =
        { w with waiter_ := q } := by
  have hp : q.push false item = (EAGAIN, q) := by
    unfold BlockingLockFreeQueue.push lockfree_push
    have : ¬ q.queue_.length < q.capacity := by omega
    simp [hopen, this]
  have hpos : ¬ EAGAIN ≤ 0 := by decide
  induction remaining with
  | zero => intro index attempts; simp [Worker.try_push_for]
  | succ n ih =>
    intro index attempts
    simp only [Worker.try_push_for, hp, hpos, if_false]
    exact ih _ _

theorem try_push_full {T : Type} (item : T) (w : Worker T)
    (hopen : w.waiter_.open_ = true) (hfull : w.waiter_.capacity ≤ w.waiter_.queue_.length) :
    (Worker.try_push (fun _ q => q) w item 1000).result = EAGAIN ∧
    (Worker.try_push (fun _ q => q) w item 1000).worker = w := by
  have h := try_push_for_full item w w.waiter_ hopen hfull 1000 0 []
  simpa [Worker.try_push] using h

end AdmissionLemmas

/-- C7: for a payload that parses, let `current` be what `tps_meter_in.get_tps()`
returns at the ingress check of `push`. If `current` is at least
`discard_tps_in`, `push` returns `0`, leaves the worker queue as it was, adds
no timestamp to `tps_meter_in` (its window afterwards is a sublist of the
window before) and hands exactly one result to the result publisher, with
reason `DISCARD_ENQUEUE_TPS` and pattern `current/limit`, which is `5/5` for
limit 5 and 5 transactions in the last second. If `current` is below the
limit, `push` publishes at most one result and only as a queue-full discard:
no ingress discard is published. -/
theorem ingress_discard (C : Collaborators) (conf : AppConf) (env : Interference QueueItem)
    (self : FilterWorker) (subject_message : String × String) (w : World)
    (filter : filter_info_t)
    (hparse : C.from_filter_info_json subject_message.2 = Except.ok filter) :
    (conf.discard_tps_in ≤ (w.tps_meter_in.get_tps (w.clock (w.ticks + 1))).1 →
      (FilterWorker.push C conf env self subject_message w).1 = 0 ∧
      (FilterWorker.push C conf env self subject_message w).2.1.waiter_ = self.waiter_ ∧
      (FilterWorker.push C conf env self subject_message w).2.2.tps_meter_in.transactions_.Sublist
        w.tps_meter_in.transactions_ ∧
      ∃ new p, (FilterWorker.push C conf env self subject_message w).2.2.events = w.events ++ new ∧
        published_results new = [p] ∧
        p.resultInfo.reasonCode = C.codes.DISCARD_ENQUEUE_TPS ∧
        p.resultInfo.spamPattern1 =
          toString (w.tps_meter_in.get_tps (w.clock (w.ticks + 1))).1 ++ "/" ++
            toString conf.discard_tps_in ∧
        (conf.discard_tps_in = 5 → (w.tps_meter_in.get_tps (w.clock (w.ticks + 1))).1 = 5 →
          p.resultInfo.spamPattern1 = "5/5")) ∧
    ((w.tps_meter_in.get_tps (w.clock (w.ticks + 1))).1 < conf.discard_tps_in →
      ∃ new, (FilterWorker.push C conf env self subject_message w).2.2.events = w.events ++ new ∧
        (published_results new).length ≤ 1 ∧
        ∀ p ∈ published_results new, p.resultInfo.reasonCode = C.codes.DISCARD_QUEUEFULL) := by
  constructor
  · intro hge
    have hnlt : ¬ (w.tps_meter_in.get_tps (w.clock (w.ticks + 1))).1 < conf.discard_tps_in := by
      omega
    cases hon : self.error_toggle_.on_ <;>
      simp [FilterWorker.push, FilterWorker.parse_message, hparse, FilterWorker.discard_tps_in,
        FilterWorker.to_result_nats, World.emit, World.tps_meter_out_get_tps, World.now,
        World.tps_meter_in_get_tps, FilterWorker.push_scope_exit,
        FilterWorker.set_filtering_time, Toggle.turn_off, hon, hnlt] <;>
      refine ⟨(get_tps_sublist _ _).trans (get_tps_sublist _ _), _, rfl, rfl, rfl, ?_⟩ <;>
      intro h5 hc5 <;> simp only [h5, hc5] <;> decide
  · intro hlt
    cases hon : self.error_toggle_.on_ <;>
      simp [FilterWorker.push, FilterWorker.parse_message, hparse, FilterWorker.discard_tps_in,
        FilterWorker.to_result_nats, World.emit, World.tps_meter_out_get_tps, World.now,
        World.tps_meter_in_get_tps, FilterWorker.push_scope_exit, FilterWorker.discard_queue_full,
        World.tps_meter_in_add_transaction,
        FilterWorker.set_filtering_time, Toggle.turn_off, hon, hlt] <;>
      split_ifs <;> simp [published_results]

/-- Witness of C7: limit 5, five transactions at `t = 0` and a sixth message
at `0.5 s`; the published pattern is `5/5`. -/
theorem ingress_discard_witness :
    scenario_collaborators.from_filter_info_json "m" = Except.ok {} ∧
    (FilterWorker.push scenario_collaborators { discard_tps_in := 5 } (fun _ q => q)
      (scenario_worker 3 []) ("s", "m") (scenario_world [0, 0, 0, 0, 0] [])).1 = 0 ∧
    ∃ new p, (FilterWorker.push scenario_collaborators { discard_tps_in := 5 } (fun _ q => q)
        (scenario_worker 3 []) ("s", "m") (scenario_world [0, 0, 0, 0, 0] [])).2.2.events
          = (scenario_world [0, 0, 0, 0, 0] []).events ++ new ∧
      published_results new = [p] ∧
      p.resultInfo.reasonCode = scenario_collaborators.codes.DISCARD_ENQUEUE_TPS ∧
      p.resultInfo.spamPattern1 = "5/5" := by
  have h := (ingress_discard scenario_collaborators { discard_tps_in := 5 } (fun _ q => q)
    (scenario_worker 3 []) ("s", "m") (scenario_world [0, 0, 0, 0, 0] []) {} rfl).1 (by decide)
  obtain ⟨h0, _, _, new, p, hev, hpub, hreason, _, h5⟩ := h
  exact ⟨rfl, h0, new, p, hev, hpub, hreason, h5 rfl (by decide)⟩

/-- C9: for a dequeued message, if `tps_meter_out.get_tps()` returns at least
`discard_tps_out` at the egress check, the auth filter hands exactly one
result to the result publisher, with reason `DISCARD_DEQUEUE_TPS` and pattern
`current/limit`, marks the message as discarded, and makes no trap lookup, no
customer query and no publish to the next stage. The age of the message plays
no part: the egress check comes first, so a message that is also too old is
reported as `DISCARD_DEQUEUE_TPS`, and the clock is not read for an age check. -/
theorem egress_discard (C : Collaborators) (conf : AppConf) (self : FilterWorker)
    (filter : filter_info_t) (subject : String) (recv_time : Int) (w : World)
    (hegress : conf.discard_tps_out ≤ (w.tps_meter_out.get_tps (w.clock w.ticks)).1) :
    (∃ new p,
      (AuthFilterWorker.handle_filter C conf self filter subject recv_time w).2.events =
        w.events ++ new ∧
      published_results new = [p] ∧
      p.resultInfo.reasonCode = C.codes.DISCARD_DEQUEUE_TPS ∧
      p.resultInfo.spamPattern1 =
        toString (w.tps_meter_out.get_tps (w.clock w.ticks)).1 ++ "/" ++
          toString conf.discard_tps_out ∧
      (∀ e ∈ new, e.is_business_step = false)) ∧
    (AuthFilterWorker.handle_filter C conf self filter subject recv_time w).1.handle_discard_
      = true ∧
    (FilterWorker.handle_discard C conf self filter recv_time w).1 = true ∧
    (FilterWorker.handle_discard C conf self filter recv_time w).2.2.2 =
      (FilterWorker.discard_tps_out C conf self filter recv_time w).2.2 := by
  have hnlt : ¬ (w.tps_meter_out.get_tps (w.clock w.ticks)).1 < conf.discard_tps_out := by omega
  refine ⟨?_, ?_, ?_, ?_⟩
  · simp [AuthFilterWorker.handle_filter, FilterWorker.handle_discard,
      FilterWorker.discard_tps_out,
      FilterWorker.to_result_nats, World.emit, World.tps_meter_out_get_tps, World.now,
      FilterWorker.set_filtering_time, hnlt]
    refine ⟨_, rfl, rfl, rfl, ?_⟩
    simp [Event.is_business_step]
  · simp [AuthFilterWorker.handle_filter, FilterWorker.handle_discard,
      FilterWorker.discard_tps_out, World.emit, World.tps_meter_out_get_tps, World.now, hnlt]
  · simp [FilterWorker.handle_discard, FilterWorker.discard_tps_out,
      World.tps_meter_out_get_tps, World.now, hnlt]
  · simp [FilterWorker.handle_discard, FilterWorker.discard_tps_out,
      World.tps_meter_out_get_tps, World.now, hnlt]

/-- Witness of C9: an egress limit of zero discards the first message. -/
theorem egress_discard_witness :
    ({ discard_tps_out := 0 } : AppConf).discard_tps_out ≤
      ((scenario_world [] []).tps_meter_out.get_tps
        ((scenario_world [] []).clock (scenario_world [] []).ticks)).1 ∧
    (FilterWorker.handle_discard scenario_collaborators { discard_tps_out := 0 }
      (scenario_worker 3 []) {} 0 (scenario_world [] [])).1 = true :=
  ⟨by decide, (egress_discard scenario_collaborators { discard_tps_out := 0 }
    (scenario_worker 3 []) {} "s" 0 (scenario_world [] []) (by decide)).2.2.1⟩

section QueueFullLemmas

theorem push_busy_spec (C : Collaborators) (conf : AppConf) (env : Interference QueueItem)
    (self : FilterWorker) (subject_message : String × String) (w : World)
    (filter : filter_info_t)
    (hparse : C.from_filter_info_json subject_message.2 = Except.ok filter)
    (hpass : (w.tps_meter_in.get_tps (w.clock (w.ticks + 1))).1 < conf.discard_tps_in)
    (hbusy : (Worker.try_push env self.toWorker (subject_message.1, filter, w.clock w.ticks)
      1000).result = EAGAIN) :
    (FilterWorker.push C conf env self subject_message w).1 = 0 ∧
    (FilterWorker.push C conf env self subject_message w).2.1.toWorker =
      (Worker.try_push env self.toWorker (subject_message.1, filter, w.clock w.ticks)
        1000).worker ∧
    ∃ new p, (FilterWorker.push C conf env self subject_message w).2.2.events = w.events ++ new ∧
      published_results new = [p] ∧
      p.resultInfo.reasonCode = C.codes.DISCARD_QUEUEFULL ∧
      p.resultInfo.spamPattern1 =
        toString (Worker.try_push env self.toWorker
          (subject_message.1, filter, w.clock w.ticks) 1000).worker.waiter_.size ++ "/" ++
          toString conf.discard_queue_size := by
  have hneg : ¬ EAGAIN < 0 := by decide
  cases hon : self.error_toggle_.on_ <;>
    simp [FilterWorker.push, FilterWorker.parse_message, hparse, FilterWorker.discard_tps_in,
      FilterWorker.to_result_nats, World.emit, World.tps_meter_out_get_tps, World.now,
      World.tps_meter_in_get_tps, FilterWorker.push_scope_exit, FilterWorker.discard_queue_full,
      World.tps_meter_in_add_transaction,
      FilterWorker.set_filtering_time, Toggle.turn_off, hon, hpass, hbusy, hneg] <;>
    exact ⟨_, rfl, rfl, rfl⟩

end QueueFullLemmas

/-- C10 (amended): for a payload that parses and passes the ingress check, if
`try_push` returns `EAGAIN` then `push` returns `0` and hands exactly one
result to the result publisher, with reason `DISCARD_QUEUEFULL` and pattern
`queueSize/limit`, where `queueSize` is `waiter_.size()` of the worker queue
and `limit` is the configured `discard_queue_size`, a setting of its own that
need not equal the capacity of the queue. -/
theorem queue_full_discard (C : Collaborators) (conf : AppConf) (env : Interference QueueItem)
    (self : FilterWorker) (subject_message : String × String) (w : World)
    (filter : filter_info_t)
    (hparse : C.from_filter_info_json subject_message.2 = Except.ok filter)
    (hpass : (w.tps_meter_in.get_tps (w.clock (w.ticks + 1))).1 < conf.discard_tps_in)
    (hbusy : (Worker.try_push env self.toWorker (subject_message.1, filter, w.clock w.ticks)
      1000).result = EAGAIN) :
    (FilterWorker.push C conf env self subject_message w).1 = 0 ∧
    (∃ new p, (FilterWorker.push C conf env self subject_message w).2.2.events = w.events ++ new ∧
      published_results new = [p] ∧
      p.resultInfo.reasonCode = C.codes.DISCARD_QUEUEFULL ∧
      p.resultInfo.spamPattern1 =
        toString (FilterWorker.push C conf env self subject_message w).2.1.waiter_.size
          ++ "/" ++ toString conf.discard_queue_size) := by
  obtain ⟨h0, hw, new, p, hev, hpub, hreason, hpat⟩ :=
    push_busy_spec C conf env self subject_message w filter hparse hpass hbusy
  refine ⟨h0, new, p, hev, hpub, hreason, ?_⟩
  rw [hpat, hw]

/-- Witness of C10: a full queue of capacity one under the default
configuration. -/
theorem queue_full_discard_witness :
    scenario_collaborators.from_filter_info_json "m" = Except.ok {} ∧
    (FilterWorker.push scenario_collaborators {} (fun _ q => q)
      (scenario_worker 1 [("s", {}, 0)]) ("s", "m") (scenario_world [] [])).1 = 0 :=
  ⟨rfl, (queue_full_discard scenario_collaborators {} (fun _ q => q)
    (scenario_worker 1 [("s", {}, 0)]) ("s", "m") (scenario_world [] []) {} rfl (by decide)
    (try_push_full _ _ rfl (by decide)).1).1⟩

/-- Counterexample to C10 as stated: the worker queue has capacity 1 and holds
1 item, the configuration is the default one (`discard_queue_size = 1000`).
`try_push` returns `EAGAIN` and the published pattern is `1/1000`, not
`1/1`: the limit shown is not the capacity of the queue. -/
theorem queue_full_pattern_counterexample :
    (scenario_worker 1 [("s", {}, 0)]).waiter_.capacity = 1 ∧
    (scenario_worker 1 [("s", {}, 0)]).waiter_.size = 1 ∧
    ({} : AppConf).discard_queue_size = 1000 ∧
    (Worker.try_push (fun _ q => q) (scenario_worker 1 [("s", {}, 0)]).toWorker
      ("s", {}, 500000000) 1000).result = EAGAIN ∧
    (published_results (FilterWorker.push scenario_collaborators {} (fun _ q => q)
      (scenario_worker 1 [("s", {}, 0)]) ("s", "m") (scenario_world [] [])).2.2.events).map
        (fun p => p.resultInfo.spamPattern1) = ["1/1000"] ∧
    ¬ ((published_results (FilterWorker.push scenario_collaborators {} (fun _ q => q)
      (scenario_worker 1 [("s", {}, 0)]) ("s", "m") (scenario_world [] [])).2.2.events).map
        (fun p => p.resultInfo.spamPattern1) =
      [toString (scenario_worker 1 [("s", {}, 0)]).waiter_.size ++ "/" ++
        toString (scenario_worker 1 [("s", {}, 0)]).waiter_.capacity]) := by
  have hfull := try_push_full
    (((("s", "m") : String × String).1, ({} : filter_info_t),
      (scenario_world [] []).clock (scenario_world [] []).ticks) : QueueItem)
    (scenario_worker 1 [("s", {}, 0)]).toWorker rfl (by decide)
  obtain ⟨_, _, new, p, hev, hpub, _, hpat⟩ :=
    push_busy_spec scenario_collaborators {} (fun _ q => q)
      (scenario_worker 1 [("s", {}, 0)]) ("s", "m") (scenario_world [] []) {} rfl (by decide)
      hfull.1
  have hp1 : p.resultInfo.spamPattern1 = "1/1000" := by
    rw [hpat, hfull.2]
    decide
  have hlist : (published_results (FilterWorker.push scenario_collaborators {} (fun _ q => q)
      (scenario_worker 1 [("s", {}, 0)]) ("s", "m") (scenario_world [] [])).2.2.events).map
        (fun p => p.resultInfo.spamPattern1) = ["1/1000"] := by
    rw [hev]
    simp [scenario_world, hpub, hp1]
  refine ⟨rfl, rfl, rfl, hfull.1, hlist, ?_⟩
  rw [hlist]
  decide

section RetryLemmas

variable {T : Type}

theorem try_push_attempts_length (env : Interference T) (w : Worker T) (item : T)
    (max_retries : Nat) (h : 1 ≤ max_retries) :
    1 ≤ (w.try_push env item max_retries).attempts.length ∧
    (w.try_push env item max_retries).attempts.length ≤ max_retries := by
  have hne : ¬ max_retries = 0 := by omega
  have hspec := try_push_for_spec env item w max_retries 0 w.waiter_ []
  simp only [Worker.try_push, hne, if_false]
  rcases hspec with ⟨_, k, hk, ha⟩ | ⟨_, ha⟩
  · rw [ha]; simp; omega
  · rw [ha]; simp; omega

theorem try_push_result_codes (env : Interference T) (w : Worker T) (item : T)
    (max_retries : Nat) (h : 1 ≤ max_retries) :
    (w.try_push env item max_retries).result = 0 ∨
    (w.try_push env item max_retries).result = -1 ∨
    (w.try_push env item max_retries).result = EAGAIN := by
  have hne : ¬ max_retries = 0 := by omega
  have hspec := try_push_for_spec env item w max_retries 0 w.waiter_ []
  simp only [Worker.try_push, hne, if_false]
  rcases hspec with ⟨h1 | h1, _⟩ | ⟨h1, _⟩
  · exact Or.inl h1
  · exact Or.inr (Or.inl h1)
  · exact Or.inr (Or.inr h1)

end RetryLemmas

/-- C19 (amended): `try_push` always calls `waiter_.push` at least once. For
`max_retries >= 1` it makes at most `max_retries` calls; for
`max_retries = 0` it makes exactly one call, as the comment of the function
says. -/
theorem try_push_attempts_bound {T : Type} (env : Interference T) (w : Worker T) (item : T)
    (max_retries : Nat) :
    1 ≤ (w.try_push env item max_retries).attempts.length ∧
    (w.try_push env item max_retries).attempts.length ≤ max max_retries 1 ∧
    (w.try_push env item 0).attempts = [((env 0 w.waiter_).push false item).1] ∧
    (w.try_push env item 0).result = ((env 0 w.waiter_).push false item).1 := by
  refine ⟨?_, ?_, by simp [Worker.try_push], by simp [Worker.try_push]⟩
  · by_cases h : max_retries = 0
    · simp [Worker.try_push, h]
    · exact (try_push_attempts_length env w item max_retries (by omega)).1
  · by_cases h : max_retries = 0
    · simp [Worker.try_push, h]
    · have := (try_push_attempts_length env w item max_retries (by omega)).2
      omega

/-- Counterexample to C19 as stated: with `max_retries = 0` on an open queue
with room, `try_push` makes one call of `waiter_.push`, which is more than
`max_retries`, and the item is enqueued. -/
theorem try_push_zero_retries_counterexample :
    (Worker.try_push (fun _ q => q)
      ({ waiter_ := BlockingLockFreeQueue.create 2 true, assigned_no_ := 1 } : Worker Nat)
      7 0).attempts = [0] ∧
    (Worker.try_push (fun _ q => q)
      ({ waiter_ := BlockingLockFreeQueue.create 2 true, assigned_no_ := 1 } : Worker Nat)
      7 0).worker.waiter_.queue_ = [7] ∧
    ¬ ((Worker.try_push (fun _ q => q)
      ({ waiter_ := BlockingLockFreeQueue.create 2 true, assigned_no_ := 1 } : Worker Nat)
      7 0).attempts.length ≤ 0) := by
  decide
section PushLemmas

theorem published_results_append (l1 l2 : List Event) :
    published_results (l1 ++ l2) = published_results l1 ++ published_results l2 := by
  induction l1 with
  | nil => rfl
  | cons e es ih => cases e <;> simp [published_results, ih]

theorem try_push_closed_iff {T : Type} (w : Worker T) (item : T) (max_retries : Nat) :
    (w.try_push (fun _ q => q) item (max_retries + 1)).result = -1 ↔ w.waiter_.open_ = false := by
  constructor
  · intro h
    by_contra hopen
    have hopen2 : w.waiter_.open_ = true := by simpa using hopen
    by_cases hfull : w.waiter_.capacity ≤ w.waiter_.queue_.length
    · have := (try_push_for_full item w w.waiter_ hopen2 hfull (max_retries + 1) 0 []).1
      simp only [Worker.try_push, Nat.succ_ne_zero, if_false] at h
      rw [this] at h
      exact absurd h (by decide)
    · have hlt : w.waiter_.queue_.length < w.waiter_.capacity := by omega
      have hp : (w.waiter_.push false item).1 = 0 := by
        unfold BlockingLockFreeQueue.push lockfree_push
        simp [hopen2, hlt]
      simp [Worker.try_push, Worker.try_push_for, hp] at h
  · intro hclosed
    have hp : (w.waiter_.push false item).1 = -1 := by
      unfold BlockingLockFreeQueue.push
      simp [hclosed]
    simp [Worker.try_push, Worker.try_push_for, hp]

theorem push_result_eq (C : Collaborators) (conf : AppConf) (env : Interference QueueItem)
    (self : FilterWorker) (subject_message : String × String) (w : World) :
    (FilterWorker.push C conf env self subject_message w).1 =
      match C.from_filter_info_json subject_message.2 with
      | Except.error _ => 0
      | Except.ok filter =>
        if (w.tps_meter_in.get_tps (w.clock (w.ticks + 1))).1 < conf.discard_tps_in then
          if (Worker.try_push env self.toWorker
              (subject_message.1, filter, w.clock w.ticks) 1000).result = -1 then -1
          else 0
        else 0 := by
  cases hparse : C.from_filter_info_json subject_message.2 with
  | error e =>
    simp [FilterWorker.push, FilterWorker.parse_message, hparse]
  | ok filter =>
    have hcodes := try_push_result_codes env self.toWorker
      (subject_message.1, filter, w.clock w.ticks) 1000 (by decide)
    by_cases hlt : (w.tps_meter_in.get_tps (w.clock (w.ticks + 1))).1 < conf.discard_tps_in
    · rcases hcodes with hc | hc | hc <;>
      cases hon : self.error_toggle_.on_ <;>
        simp [FilterWorker.push, FilterWorker.parse_message, hparse,
          FilterWorker.discard_tps_in, World.now, World.emit,
          World.tps_meter_in_get_tps, Toggle.turn_off, hon, hlt, hc, EAGAIN]
    · cases hon : self.error_toggle_.on_ <;>
        simp [FilterWorker.push, FilterWorker.parse_message, hparse,
          FilterWorker.discard_tps_in, World.now, World.emit,
          World.tps_meter_in_get_tps, Toggle.turn_off, hon, hlt]

end PushLemmas

/-- C16: for a payload that fails to parse, `push` returns `0`; the worker
keeps its queue (nothing is enqueued), both TPS meters are as before (no
transaction is recorded), and the only event is one error log line: no result
is published. Only the error toggle of the worker is switched on and one
clock reading is used. -/
theorem parse_failure_dropped (C : Collaborators) (conf : AppConf)
    (env : Interference QueueItem) (self : FilterWorker) (subject_message : String × String)
    (w : World) (e : String)
    (hparse : C.from_filter_info_json subject_message.2 = Except.error e) :
    FilterWorker.push C conf env self subject_message w =
      (0, { self with error_toggle_ := self.error_toggle_.turn_on.2 },
        (w.now.2).emit (Event.log LogLevel.error e)) ∧
    (FilterWorker.push C conf env self subject_message w).2.1.waiter_ = self.waiter_ ∧
    (FilterWorker.push C conf env self subject_message w).2.2.tps_meter_in = w.tps_meter_in ∧
    (FilterWorker.push C conf env self subject_message w).2.2.tps_meter_out = w.tps_meter_out ∧
    (FilterWorker.push C conf env self subject_message w).2.2.events =
      w.events ++ [Event.log LogLevel.error e] ∧
    published_results (FilterWorker.push C conf env self subject_message w).2.2.events =
      published_results w.events := by
  have h : FilterWorker.push C conf env self subject_message w =
      (0, { self with error_toggle_ := self.error_toggle_.turn_on.2 },
        (w.now.2).emit (Event.log LogLevel.error e)) := by
    simp [FilterWorker.push, FilterWorker.parse_message, hparse]
  refine ⟨h, ?_, ?_, ?_, ?_, ?_⟩
  · rw [h]
  · rw [h]; rfl
  · rw [h]; rfl
  · rw [h]; rfl
  · rw [h]
    simp [World.emit, World.now, published_results_append, published_results]

/-- Witness of C16: the payload `bad` on a worker with one queued item. -/
theorem parse_failure_dropped_witness :
    scenario_strict_collaborators.from_filter_info_json "bad" =
      Except.error "JSON parse error!" ∧
    (FilterWorker.push scenario_strict_collaborators {} (fun _ q => q)
      (scenario_worker 3 [("s", {}, 0)]) ("s", "bad") (scenario_world [0] [])).1 = 0 ∧
    (FilterWorker.push scenario_strict_collaborators {} (fun _ q => q)
      (scenario_worker 3 [("s", {}, 0)]) ("s", "bad") (scenario_world [0] [])).2.2.events =
      [Event.log LogLevel.error "JSON parse error!"] :=
  ⟨rfl,
    congrArg Prod.fst (parse_failure_dropped scenario_strict_collaborators {} (fun _ q => q)
      (scenario_worker 3 [("s", {}, 0)]) ("s", "bad") (scenario_world [0] [])
      "JSON parse error!" rfl).1,
    (parse_failure_dropped scenario_strict_collaborators {} (fun _ q => q)
      (scenario_worker 3 [("s", {}, 0)]) ("s", "bad") (scenario_world [0] [])
      "JSON parse error!" rfl).2.2.2.2.1⟩

section CallbackLemmas

theorem push_zero_or_minus_one (C : Collaborators) (conf : AppConf)
    (env : Interference QueueItem) (self : FilterWorker) (subject_message : String × String)
    (w : World) :
    (FilterWorker.push C conf env self subject_message w).1 = 0 ∨
    (FilterWorker.push C conf env self subject_message w).1 = -1 := by
  rw [push_result_eq]
  cases C.from_filter_info_json subject_message.2 with
  | error e => simp
  | ok filter =>
    dsimp only
    split_ifs <;> simp

theorem pool_push_zero_or_minus_one (C : Collaborators) (conf : AppConf)
    (env : Interference QueueItem) (subject message : String)
    (s : WorkerPool FilterWorker × World) :
    (NatsRecvers.pool_push C conf env subject message s).1 = 0 ∨
    (NatsRecvers.pool_push C conf env subject message s).1 = -1 := by
  unfold NatsRecvers.pool_push WorkerPool.push
  by_cases hempty : s.1.workers_.isEmpty = true
  · simp [hempty]
  · simp only [hempty, if_false, Bool.false_eq_true]
    cases std14_min_element
        (fun a b => decide ((filter_worker_ops C conf env).size a <
          (filter_worker_ops C conf env).size b)) s.1.workers_ with
    | none => simp
    | some r =>
      obtain ⟨i, wk⟩ := r
      exact push_zero_or_minus_one C conf env wk (subject, message) s.2

end CallbackLemmas

section ParseLogLemmas

theorem error_logs_append (l1 l2 : List Event) :
    error_logs (l1 ++ l2) = error_logs l1 ++ error_logs l2 := by
  induction l1 with
  | nil => rfl
  | cons e es ih =>
    cases e with
    | log level message => cases level <;> simp [error_logs, ih]
    | nats_result_publish f => simp [error_logs, ih]
    | nats_sender_publish f => simp [error_logs, ih]
    | trap_lookup n => simp [error_logs, ih]
    | customer_query n => simp [error_logs, ih]

theorem push_each_failures (C : Collaborators) (conf : AppConf)
    (messages : List (String × String)) :
    ∀ (self : FilterWorker) (w : World),
      (∀ m ∈ messages, ∃ e, C.from_filter_info_json m.2 = Except.error e) →
      (error_logs (FilterWorker.push_each C conf self w messages).2.events).length =
        (error_logs w.events).length + messages.length := by
  induction messages with
  | nil => intro self w _; simp [FilterWorker.push_each]
  | cons m ms ih =>
    intro self w hall
    obtain ⟨e, he⟩ := hall m (by simp)
    have hpush : (FilterWorker.push C conf (fun _ q => q) self m w).2.2.events =
        w.events ++ [Event.log LogLevel.error e] := by
      simp [FilterWorker.push, FilterWorker.parse_message, he, World.emit, World.now]
    simp only [FilterWorker.push_each]
    rw [ih _ _ (fun m2 hm2 => hall m2 (by simp [hm2])), hpush, error_logs_append]
    simp [error_logs]
    omega

end ParseLogLemmas

/-- C17, the code at the failing input: two payloads in a row that do not
parse, on one worker, give two error log lines, one per failure, and the
same holds with three. The toggle is switched on by the first failure and
its answer is not looked at. -/
theorem parse_failure_logged_every_time :
    error_logs (FilterWorker.push_each scenario_strict_collaborators {} (scenario_worker 3 [])
      (scenario_world [] []) [("s", "bad"), ("s", "worse")]).2.events =
        ["JSON parse error!", "JSON parse error!"] ∧
    (FilterWorker.push scenario_strict_collaborators {} (fun _ q => q) (scenario_worker 3 [])
      ("s", "bad") (scenario_world [] [])).2.1.error_toggle_.on_ = true ∧
    (error_logs (FilterWorker.push_each scenario_strict_collaborators {} (scenario_worker 3 [])
      (scenario_world [] []) [("s", "bad"), ("s", "worse"), ("s", "worst")]).2.events).length
        = 3 := by
  refine ⟨by decide, by decide, ?_⟩
  have h := push_each_failures scenario_strict_collaborators {}
    [("s", "bad"), ("s", "worse"), ("s", "worst")] (scenario_worker 3 []) (scenario_world [] [])
    (by
      intro m hm
      refine ⟨"JSON parse error!", ?_⟩
      simp only [List.mem_cons, List.mem_singleton, List.not_mem_nil, or_false] at hm
      rcases hm with rfl | rfl | rfl <;> rfl)
  exact h
section PopLemmas

variable {T : Type}

theorem signaled_pop_empty_open (fuel : Nat) :
    ∀ q : BlockingLockFreeQueue T, q.queue_ = [] → q.open_ = true →
      BlockingLockFreeQueue.signaled_pop fuel q = none := by
  induction fuel with
  | zero => intro q _ _; rfl
  | succ n ih =>
    intro q hq hopen
    cases hs : q.signal_.signaled_ with
    | false =>
      simp [BlockingLockFreeQueue.signaled_pop, lockfree_pop, hq, hopen, MSignal.wait, hs]
    | true =>
      simp only [BlockingLockFreeQueue.signaled_pop, lockfree_pop, hq, hopen, MSignal.wait, hs,
        List.isEmpty_nil, Bool.true_eq_false, and_false, if_false, if_true]
      exact ih _ rfl rfl

theorem signaled_pop_codes (fuel : Nat) :
    ∀ (q : BlockingLockFreeQueue T) (r : Int × Option T × BlockingLockFreeQueue T),
      BlockingLockFreeQueue.signaled_pop fuel q = some r → r.1 = 0 ∨ r.1 = -1 := by
  induction fuel with
  | zero => intro q r h; simp [BlockingLockFreeQueue.signaled_pop] at h
  | succ n ih =>
    intro q r h
    cases hq : q.queue_ with
    | cons x rest =>
      simp [BlockingLockFreeQueue.signaled_pop, lockfree_pop, hq] at h
      left; rw [← h]
    | nil =>
      cases hopen : q.open_ with
      | false =>
        simp [BlockingLockFreeQueue.signaled_pop, lockfree_pop, hq, hopen] at h
        right; rw [← h]
      | true =>
        have := signaled_pop_empty_open (n + 1) q hq hopen
        rw [this] at h
        exact Option.noConfusion h

theorem adaptive_pop_loop_no_timeout (q : BlockingLockFreeQueue T) (timeout_ms : Int)
    (steady : Nat → Int) (sta : Int) (hzero : timeout_ms ≤ 0) (fuel : Nat) :
    ∀ (reads fails : Nat) (r : Int × Option T × BlockingLockFreeQueue T),
      BlockingLockFreeQueue.adaptive_pop_loop q timeout_ms steady sta fuel reads fails = some r →
      r.1 = 0 ∨ r.1 = -1 := by
  have hnot : ¬ timeout_ms > 0 := by omega
  induction fuel with
  | zero => intro reads fails r h; simp [BlockingLockFreeQueue.adaptive_pop_loop] at h
  | succ n ih =>
    intro reads fails r h
    cases hq : q.queue_ with
    | cons x rest =>
      simp [BlockingLockFreeQueue.adaptive_pop_loop, lockfree_pop, hq] at h
      left; rw [← h]
    | nil =>
      cases hopen : q.open_ with
      | false =>
        simp [BlockingLockFreeQueue.adaptive_pop_loop, lockfree_pop, hq, hopen] at h
        right; rw [← h]
      | true =>
        simp only [BlockingLockFreeQueue.adaptive_pop_loop, lockfree_pop, hq, hopen, hnot,
          if_false, Bool.true_eq_false] at h
        exact ih _ _ r h

theorem adaptive_pop_loop_timeout (q : BlockingLockFreeQueue T) (timeout_ms : Int)
    (steady : Nat → Int) (sta : Int) (hq : q.queue_ = []) (hopen : q.open_ = true)
    (hpos : 0 < timeout_ms) (n : Nat) :
    ∀ (reads fails extra : Nat),
      (∀ j, j < n → Int.tdiv (steady (reads + j) - sta) 1000000 < timeout_ms) →
      timeout_ms ≤ Int.tdiv (steady (reads + n) - sta) 1000000 →
      BlockingLockFreeQueue.adaptive_pop_loop q timeout_ms steady sta (n + 1 + extra) reads fails
        = some (ETIMEDOUT, none, q) ∧
      (∀ fuel, fuel ≤ n →
        BlockingLockFreeQueue.adaptive_pop_loop q timeout_ms steady sta fuel reads fails = none) := by
  have hgt : timeout_ms > 0 := hpos
  induction n with
  | zero =>
    intro reads fails extra _ hlast
    have hlast2 : timeout_ms ≤ Int.tdiv (steady reads - sta) 1000000 := by simpa using hlast
    constructor
    · have hf : 0 + 1 + extra = extra + 1 := by omega
      rw [hf]
      simp [BlockingLockFreeQueue.adaptive_pop_loop, lockfree_pop, hq, hopen, hgt, hlast2]
    · intro fuel hfuel
      have : fuel = 0 := by omega
      rw [this]; rfl
  | succ k ih =>
    intro reads fails extra hbefore hlast
    have hfirst : ¬ timeout_ms ≤ Int.tdiv (steady reads - sta) 1000000 := by
      have := hbefore 0 (by omega)
      simp only [Nat.add_zero] at this
      omega
    have hrest := ih (reads + 1) (if fails < 1000 then fails + 1 else fails) extra
      (by
        intro j hj
        have := hbefore (j + 1) (by omega)
        have he : reads + (j + 1) = reads + 1 + j := by omega
        rw [he] at this
        exact this)
      (by
        have he : reads + (k + 1) = reads + 1 + k := by omega
        rw [he] at hlast
        exact hlast)
    constructor
    · have hf : k + 1 + 1 + extra = (k + 1 + extra) + 1 := by omega
      rw [hf]
      simp only [BlockingLockFreeQueue.adaptive_pop_loop, lockfree_pop, hq, hopen, hgt,
        if_true, if_false, Bool.true_eq_false, ge_iff_le, hfirst]
      exact hrest.1
    · intro fuel hfuel
      cases fuel with
      | zero => rfl
      | succ f =>
        simp only [BlockingLockFreeQueue.adaptive_pop_loop, lockfree_pop, hq, hopen, hgt,
          if_true, if_false, Bool.true_eq_false, ge_iff_le, hfirst]
        exact hrest.2 f (by omega)

end PopLemmas
/-- C20 (amended): in both wait strategies `pop` returns `0` with the oldest
item whenever an item is queued, open or closed, and `-1` when the queue is
empty and closed; one loop iteration is enough. In the spinning strategy, on
a queue that is empty and open and with `timeout_ms > 0`, `pop` returns
`ETIMEDOUT` at the first clock reading at which `timeout_ms` milliseconds have
elapsed, and does not return before. With `timeout_ms <= 0` no strategy ever
returns `ETIMEDOUT`. In the signaled strategy `timeout_ms` is not used: `pop`
only ever returns `0` or `-1`, and on a queue that is empty and open it keeps
waiting for a notification, whatever the timeout. -/
theorem pop_contract {T : Type} (SIGNALED : Bool) (q : BlockingLockFreeQueue T)
    (timeout_ms : Int) (steady : Nat → Int) (fuel : Nat) :
    (∀ (x : T) (rest : List T), q.queue_ = x :: rest →
      q.pop SIGNALED timeout_ms steady (fuel + 1) =
        some (0, some x, { q with queue_ := rest, size_ := q.size_ - 1 })) ∧
    (q.queue_ = [] → q.open_ = false →
      q.pop SIGNALED timeout_ms steady (fuel + 1) = some (-1, none, q)) ∧
    (∀ n : Nat, q.queue_ = [] → q.open_ = true → 0 < timeout_ms →
      (∀ j, j < n → Int.tdiv (steady (1 + j) - steady 0) 1000000 < timeout_ms) →
      timeout_ms ≤ Int.tdiv (steady (1 + n) - steady 0) 1000000 →
      q.pop false timeout_ms steady (n + 1 + fuel) = some (ETIMEDOUT, none, q) ∧
      ∀ f, f ≤ n → q.pop false timeout_ms steady f = none) ∧
    (timeout_ms ≤ 0 → ∀ r, q.pop SIGNALED timeout_ms steady fuel = some r →
      r.1 = 0 ∨ r.1 = -1) ∧
    (∀ r, q.pop true timeout_ms steady fuel = some r → r.1 = 0 ∨ r.1 = -1) ∧
    (q.queue_ = [] → q.open_ = true → q.pop true timeout_ms steady fuel = none) := by
  refine ⟨?_, ?_, ?_, ?_, ?_, ?_⟩
  · intro x rest hq
    exact pop_nonempty SIGNALED q x rest timeout_ms steady (fuel + 1) hq (by omega)
  · intro hq hclosed
    exact pop_closed_empty SIGNALED q timeout_ms steady (fuel + 1) hq hclosed (by omega)
  · intro n hq hopen hpos hbefore hlast
    have h := adaptive_pop_loop_timeout q timeout_ms steady (steady 0) hq hopen hpos n 1 0 fuel
      hbefore hlast
    simpa [BlockingLockFreeQueue.pop, BlockingLockFreeQueue.adaptive_pop] using h
  · intro hzero r hr
    cases SIGNALED with
    | true => exact signaled_pop_codes fuel q r (by simpa [BlockingLockFreeQueue.pop] using hr)
    | false =>
      exact adaptive_pop_loop_no_timeout q timeout_ms steady (steady 0) hzero fuel 1 0 r
        (by simpa [BlockingLockFreeQueue.pop, BlockingLockFreeQueue.adaptive_pop] using hr)
  · intro r hr
    exact signaled_pop_codes fuel q r (by simpa [BlockingLockFreeQueue.pop] using hr)
  · intro hq hopen
    simpa [BlockingLockFreeQueue.pop] using signaled_pop_empty_open fuel q hq hopen

/-- Counterexample to C20 as stated: an empty open queue, `timeout_ms = 5` and
a clock that advances one second per reading. The spinning `pop` returns
`ETIMEDOUT` at its first check; the signaled `pop` has not returned after a
thousand iterations and returns `ETIMEDOUT` for no amount of fuel. -/
theorem signaled_pop_timeout_counterexample :
    BlockingLockFreeQueue.pop false (BlockingLockFreeQueue.create 3 true :
      BlockingLockFreeQueue Nat) 5 (fun i => (i : Int) * 1000000000) 1 =
        some (ETIMEDOUT, none, BlockingLockFreeQueue.create 3 true) ∧
    BlockingLockFreeQueue.pop true (BlockingLockFreeQueue.create 3 true :
      BlockingLockFreeQueue Nat) 5 (fun i => (i : Int) * 1000000000) 1000 = none ∧
    ¬ ∃ fuel, BlockingLockFreeQueue.pop true (BlockingLockFreeQueue.create 3 true :
      BlockingLockFreeQueue Nat) 5 (fun i => (i : Int) * 1000000000) fuel =
        some (ETIMEDOUT, none, BlockingLockFreeQueue.create 3 true) := by
  have hnone : ∀ fuel, BlockingLockFreeQueue.pop true (BlockingLockFreeQueue.create 3 true :
      BlockingLockFreeQueue Nat) 5 (fun i => (i : Int) * 1000000000) fuel = none := by
    intro fuel
    simpa [BlockingLockFreeQueue.pop] using
      signaled_pop_empty_open fuel (BlockingLockFreeQueue.create 3 true :
        BlockingLockFreeQueue Nat) rfl rfl
  refine ⟨?_, hnone 1000, ?_⟩
  · simp [BlockingLockFreeQueue.pop, BlockingLockFreeQueue.adaptive_pop,
      BlockingLockFreeQueue.adaptive_pop_loop, lockfree_pop, BlockingLockFreeQueue.create]
    decide
  · rintro ⟨fuel, h⟩
    rw [hnone fuel] at h
    exact Option.noConfusion h
section FilteringTimeLemmas

theorem assign_lookup_self (key : String) (value : filtering_time_t) (l : filtering_time_objs) :
    List.lookup key (filtering_time_objs.assign key value l) = some value := by
  induction l with
  | nil => simp [filtering_time_objs.assign, List.lookup]
  | cons kv rest ih =>
    obtain ⟨k, v⟩ := kv
    by_cases h1 : key < k
    · simp [filtering_time_objs.assign, h1, List.lookup]
    · by_cases h2 : key = k
      · subst h2
        simp [filtering_time_objs.assign, List.lookup]
      · have hb : (key == k) = false := by simpa using h2
        simp only [filtering_time_objs.assign, h1, h2, if_false, List.lookup, hb]
        exact ih

theorem assign_lookup_other (key other : String) (value : filtering_time_t)
    (hne : other ≠ key) (l : filtering_time_objs) :
    List.lookup other (filtering_time_objs.assign key value l) = List.lookup other l := by
  have hb : (other == key) = false := by simpa using hne
  induction l with
  | nil => simp [filtering_time_objs.assign, List.lookup, hb]
  | cons kv rest ih =>
    obtain ⟨k, v⟩ := kv
    by_cases h1 : key < k
    · simp only [filtering_time_objs.assign, h1, if_true]
      rw [List.lookup, hb]
    · by_cases h2 : key = k
      · subst h2
        simp only [filtering_time_objs.assign, h1, if_false, if_true, List.lookup, hb]
      · simp only [filtering_time_objs.assign, h1, h2, if_false, List.lookup]
        cases other == k with
        | true => rfl
        | false => exact ih

theorem to_result_nats_record (C : Collaborators) (conf : AppConf) (self : FilterWorker)
    (filter : filter_info_t) (recv_time : Int) (a b c : Int) (w : World) :
    List.lookup conf.procname
        (FilterWorker.to_result_nats C conf self filter recv_time a b c w).1.resultInfo.filteringTime
      = some { filterName := conf.procname, startTime := millisecs_int64 recv_time,
               endTime := millisecs_int64 (w.clock w.ticks) } ∧
    (∀ other : String, other ≠ conf.procname →
      List.lookup other
          (FilterWorker.to_result_nats C conf self filter recv_time a b c w).1.resultInfo.filteringTime
        = List.lookup other filter.resultInfo.filteringTime) ∧
    published_results (FilterWorker.to_result_nats C conf self filter recv_time a b c w).2.events =
      published_results w.events ++
        [(FilterWorker.to_result_nats C conf self filter recv_time a b c w).1] := by
  refine ⟨?_, ?_, ?_⟩
  · simp only [FilterWorker.to_result_nats, FilterWorker.set_filtering_time, World.now]
    exact assign_lookup_self _ _ _
  · intro other hne
    simp only [FilterWorker.to_result_nats, FilterWorker.set_filtering_time, World.now]
    exact assign_lookup_other _ _ _ hne _
  · simp [FilterWorker.to_result_nats, World.emit, World.tps_meter_out_get_tps, World.now,
      FilterWorker.set_filtering_time, published_results_append, published_results]

end FilteringTimeLemmas
section FilteringTimeLemmas2

theorem published_next_append (l1 l2 : List Event) :
    published_next (l1 ++ l2) = published_next l1 ++ published_next l2 := by
  induction l1 with
  | nil => rfl
  | cons e es ih => cases e <;> simp [published_next, ih]

theorem discard_tps_in_publishes (C : Collaborators) (conf : AppConf) (self : FilterWorker)
    (filter : filter_info_t) (recv_time : Int) (w : World) :
    (FilterWorker.discard_tps_in C conf self filter recv_time w).1 = true →
      published_results (FilterWorker.discard_tps_in C conf self filter recv_time w).2.2.events
        = published_results w.events ++
          [(FilterWorker.discard_tps_in C conf self filter recv_time w).2.1] ∧
      List.lookup conf.procname
        (FilterWorker.discard_tps_in C conf self filter recv_time w).2.1.resultInfo.filteringTime
        = some { filterName := conf.procname, startTime := millisecs_int64 recv_time,
                 endTime := millisecs_int64 (w.clock (w.ticks + 1)) } ∧
      (∀ other : String, other ≠ conf.procname →
        List.lookup other
          (FilterWorker.discard_tps_in C conf self filter recv_time w).2.1.resultInfo.filteringTime
          = List.lookup other filter.resultInfo.filteringTime) := by
  intro htrue
  by_cases hlt : w.tps_meter_in_get_tps.1 < conf.discard_tps_in
  · simp [FilterWorker.discard_tps_in, hlt] at htrue
  · simp only [FilterWorker.discard_tps_in, hlt, if_false]
    obtain ⟨h1, h2, h3⟩ := to_result_nats_record C conf self
      { filter with resultInfo := { filter.resultInfo with
          spamPattern1 := toString w.tps_meter_in_get_tps.1 ++ "/" ++
            toString conf.discard_tps_in } }
      recv_time C.codes.SMPP_DISCARD C.codes.TRANS_RESULT_CODE_HAM_FAIL
      C.codes.DISCARD_ENQUEUE_TPS w.tps_meter_in_get_tps.2
    exact ⟨h3, h1, h2⟩

theorem discard_tps_out_publishes (C : Collaborators) (conf : AppConf) (self : FilterWorker)
    (filter : filter_info_t) (recv_time : Int) (w : World) :
    (FilterWorker.discard_tps_out C conf self filter recv_time w).1 = true →
      published_results (FilterWorker.discard_tps_out C conf self filter recv_time w).2.2.events
        = published_results w.events ++
          [(FilterWorker.discard_tps_out C conf self filter recv_time w).2.1] ∧
      List.lookup conf.procname
        (FilterWorker.discard_tps_out C conf self filter recv_time w).2.1.resultInfo.filteringTime
        = some { filterName := conf.procname, startTime := millisecs_int64 recv_time,
                 endTime := millisecs_int64 (w.clock (w.ticks + 1)) } ∧
      (∀ other : String, other ≠ conf.procname →
        List.lookup other
          (FilterWorker.discard_tps_out C conf self filter recv_time w).2.1.resultInfo.filteringTime
          = List.lookup other filter.resultInfo.filteringTime) := by
  intro htrue
  by_cases hlt : w.tps_meter_out_get_tps.1 < conf.discard_tps_out
  · simp [FilterWorker.discard_tps_out, hlt] at htrue
  · simp only [FilterWorker.discard_tps_out, hlt, if_false]
    obtain ⟨h1, h2, h3⟩ := to_result_nats_record C conf self
      { filter with resultInfo := { filter.resultInfo with
          spamPattern1 := toString w.tps_meter_out_get_tps.1 ++ "/" ++
            toString conf.discard_tps_out } }
      recv_time C.codes.SMPP_DISCARD C.codes.TRANS_RESULT_CODE_HAM_FAIL
      C.codes.DISCARD_DEQUEUE_TPS w.tps_meter_out_get_tps.2
    exact ⟨h3, h1, h2⟩

theorem discard_timeout_publishes (C : Collaborators) (conf : AppConf) (self : FilterWorker)
    (filter : filter_info_t) (recv_time : Int) (w : World) :
    (FilterWorker.discard_timeout C conf self filter recv_time w).1 = true →
      published_results (FilterWorker.discard_timeout C conf self filter recv_time w).2.2.events
        = published_results w.events ++
          [(FilterWorker.discard_timeout C conf self filter recv_time w).2.1] ∧
      List.lookup conf.procname
        (FilterWorker.discard_timeout C conf self filter recv_time w).2.1.resultInfo.filteringTime
        = some { filterName := conf.procname, startTime := millisecs_int64 recv_time,
                 endTime := millisecs_int64 (w.clock (w.ticks + 1)) } ∧
      (∀ other : String, other ≠ conf.procname →
        List.lookup other
          (FilterWorker.discard_timeout C conf self filter recv_time w).2.1.resultInfo.filteringTime
          = List.lookup other filter.resultInfo.filteringTime) := by
  intro htrue
  by_cases hlt : FilterWorker.duration_millisecs w.now.1 filter.resultInfo.filterStartTime
      < (conf.discard_timeout_ms : Int)
  · simp [FilterWorker.discard_timeout, hlt] at htrue
  · simp only [FilterWorker.discard_timeout, hlt, if_false]
    obtain ⟨h1, h2, h3⟩ := to_result_nats_record C conf self
      { filter with resultInfo := { filter.resultInfo with
          spamPattern1 := toString (FilterWorker.duration_millisecs w.now.1
            filter.resultInfo.filterStartTime) ++ "/" ++ toString conf.discard_timeout_ms } }
      recv_time C.codes.SMPP_DISCARD C.codes.TRANS_RESULT_CODE_HAM_FAIL
      C.codes.DISCARD_TIMEOUT w.now.2
    exact ⟨h3, h1, h2⟩

theorem discard_queue_full_publishes (C : Collaborators) (conf : AppConf) (self : FilterWorker)
    (filter : filter_info_t) (recv_time : Int) (w : World) :
    published_results (FilterWorker.discard_queue_full C conf self filter recv_time w).2.2.events
        = published_results w.events ++
          [(FilterWorker.discard_queue_full C conf self filter recv_time w).2.1] ∧
      List.lookup conf.procname
        (FilterWorker.discard_queue_full C conf self filter recv_time w).2.1.resultInfo.filteringTime
        = some { filterName := conf.procname, startTime := millisecs_int64 recv_time,
                 endTime := millisecs_int64 (w.clock w.ticks) } ∧
      (∀ other : String, other ≠ conf.procname →
        List.lookup other
          (FilterWorker.discard_queue_full C conf self filter recv_time w).2.1.resultInfo.filteringTime
          = List.lookup other filter.resultInfo.filteringTime) := by
  simp only [FilterWorker.discard_queue_full]
  obtain ⟨h1, h2, h3⟩ := to_result_nats_record C conf self
    { filter with resultInfo := { filter.resultInfo with
        spamPattern1 := toString self.waiter_.size ++ "/" ++
          toString conf.discard_queue_size } }
    recv_time C.codes.SMPP_DISCARD C.codes.TRANS_RESULT_CODE_HAM_FAIL
    C.codes.DISCARD_QUEUEFULL w
  exact ⟨h3, h1, h2⟩

end FilteringTimeLemmas2

/-- C15 (amended): the message that `to_result_nats` hands to the result
publisher and the message that `to_next_nats` hands to the next stage carry,
under the key `procname` of the stage, the entry with `filterName = procname`,
`startTime` the receive time and `endTime` the clock reading taken for the
publish, each as `duration().millisecs()` gives it: nanoseconds converted to
`double`, divided by `1000000.` and converted to `int64_t`, which for a time
from 0 up to `2 ^ 63` ns is within 1 of the whole milliseconds of that time.
Entries under every other key are as in the message before. When the receive
time is not later than that clock reading, `startTime <= endTime`. Each of the
four discard paths (`discard_tps_in`, `discard_tps_out`, `discard_timeout`,
`discard_queue_full`), when it discards, publishes one message with such an
entry for the receive time it was given. -/
theorem filtering_time_recorded (C : Collaborators) (conf : AppConf) (self : FilterWorker)
    (filter : filter_info_t) (recv_time : Int) (a b c : Int) (w : World) :
    (List.lookup conf.procname
        (FilterWorker.to_result_nats C conf self filter recv_time a b c w).1.resultInfo.filteringTime
      = some { filterName := conf.procname, startTime := millisecs_int64 recv_time,
               endTime := millisecs_int64 (w.clock w.ticks) } ∧
      (∀ other : String, other ≠ conf.procname →
        List.lookup other
          (FilterWorker.to_result_nats C conf self filter recv_time a b c w).1.resultInfo.filteringTime
          = List.lookup other filter.resultInfo.filteringTime) ∧
      published_results (FilterWorker.to_result_nats C conf self filter recv_time a b c w).2.events
        = published_results w.events ++
          [(FilterWorker.to_result_nats C conf self filter recv_time a b c w).1]) ∧
    (List.lookup conf.procname
        (FilterWorker.to_next_nats C conf filter recv_time w).1.resultInfo.filteringTime
      = some { filterName := conf.procname, startTime := millisecs_int64 recv_time,
               endTime := millisecs_int64 (w.clock w.ticks) } ∧
      (∀ other : String, other ≠ conf.procname →
        List.lookup other
          (FilterWorker.to_next_nats C conf filter recv_time w).1.resultInfo.filteringTime
          = List.lookup other filter.resultInfo.filteringTime) ∧
      published_next (FilterWorker.to_next_nats C conf filter recv_time w).2.events
        = published_next w.events ++ [(FilterWorker.to_next_nats C conf filter recv_time w).1]) ∧
    (recv_time ≤ w.clock w.ticks →
      millisecs_int64 recv_time ≤ millisecs_int64 (w.clock w.ticks)) ∧
    (∀ t : Int, 0 ≤ t → t < 2 ^ 63 →
      Int.tdiv t 1000000 - 1 ≤ millisecs_int64 t ∧ millisecs_int64 t ≤ Int.tdiv t 1000000 + 1) ∧
    ((FilterWorker.discard_tps_in C conf self filter recv_time w).1 = true →
      published_results (FilterWorker.discard_tps_in C conf self filter recv_time w).2.2.events
        = published_results w.events ++
          [(FilterWorker.discard_tps_in C conf self filter recv_time w).2.1] ∧
      List.lookup conf.procname
        (FilterWorker.discard_tps_in C conf self filter recv_time w).2.1.resultInfo.filteringTime
        = some { filterName := conf.procname, startTime := millisecs_int64 recv_time,
                 endTime := millisecs_int64 (w.clock (w.ticks + 1)) } ∧
      (∀ other : String, other ≠ conf.procname →
        List.lookup other
          (FilterWorker.discard_tps_in C conf self filter recv_time w).2.1.resultInfo.filteringTime
          = List.lookup other filter.resultInfo.filteringTime)) ∧
    ((FilterWorker.discard_tps_out C conf self filter recv_time w).1 = true →
      published_results (FilterWorker.discard_tps_out C conf self filter recv_time w).2.2.events
        = published_results w.events ++
          [(FilterWorker.discard_tps_out C conf self filter recv_time w).2.1] ∧
      List.lookup conf.procname
        (FilterWorker.discard_tps_out C conf self filter recv_time w).2.1.resultInfo.filteringTime
        = some { filterName := conf.procname, startTime := millisecs_int64 recv_time,
                 endTime := millisecs_int64 (w.clock (w.ticks + 1)) } ∧
      (∀ other : String, other ≠ conf.procname →
        List.lookup other
          (FilterWorker.discard_tps_out C conf self filter recv_time w).2.1.resultInfo.filteringTime
          = List.lookup other filter.resultInfo.filteringTime)) ∧
    ((FilterWorker.discard_timeout C conf self filter recv_time w).1 = true →
      published_results (FilterWorker.discard_timeout C conf self filter recv_time w).2.2.events
        = published_results w.events ++
          [(FilterWorker.discard_timeout C conf self filter recv_time w).2.1] ∧
      List.lookup conf.procname
        (FilterWorker.discard_timeout C conf self filter recv_time w).2.1.resultInfo.filteringTime
        = some { filterName := conf.procname, startTime := millisecs_int64 recv_time,
                 endTime := millisecs_int64 (w.clock (w.ticks + 1)) } ∧
      (∀ other : String, other ≠ conf.procname →
        List.lookup other
          (FilterWorker.discard_timeout C conf self filter recv_time w).2.1.resultInfo.filteringTime
          = List.lookup other filter.resultInfo.filteringTime)) ∧
    (published_results (FilterWorker.discard_queue_full C conf self filter recv_time w).2.2.events
        = published_results w.events ++
          [(FilterWorker.discard_queue_full C conf self filter recv_time w).2.1] ∧
      List.lookup conf.procname
        (FilterWorker.discard_queue_full C conf self filter recv_time w).2.1.resultInfo.filteringTime
        = some { filterName := conf.procname, startTime := millisecs_int64 recv_time,
                 endTime := millisecs_int64 (w.clock w.ticks) } ∧
      (∀ other : String, other ≠ conf.procname →
        List.lookup other
          (FilterWorker.discard_queue_full C conf self filter recv_time w).2.1.resultInfo.filteringTime
          = List.lookup other filter.resultInfo.filteringTime)) := by
  refine ⟨to_result_nats_record C conf self filter recv_time a b c w, ⟨?_, ?_, ?_⟩, ?_, ?_,
    discard_tps_in_publishes C conf self filter recv_time w,
    discard_tps_out_publishes C conf self filter recv_time w,
    discard_timeout_publishes C conf self filter recv_time w,
    discard_queue_full_publishes C conf self filter recv_time w⟩
  · simp only [FilterWorker.to_next_nats, FilterWorker.set_filtering_time, World.now]
    exact assign_lookup_self _ _ _
  · intro other hne
    simp only [FilterWorker.to_next_nats, FilterWorker.set_filtering_time, World.now]
    exact assign_lookup_other _ _ _ hne _
  · simp [FilterWorker.to_next_nats, World.emit, World.tps_meter_out_get_tps, World.now,
      FilterWorker.set_filtering_time, published_next_append, published_next]
  · intro hle
    exact millisecs_int64_mono _ _ hle
  · intro t h0 h2
    exact millisecs_int64_near t h0 h2

/-- C15 as stated fails in two ways. The clock that gives the publish time is
`system_clock`, which can be set back: a message received when it reads `2 s`
and published when it reads `1 s` carries `startTime = 2000` and
`endTime = 1000`. And the times are not the whole milliseconds of the
readings: a message received at exactly 1762000003002 ms carries
`startTime = 1762000003001`, and one received at 1762000002999.9999 ms carries
`startTime = 1762000003000`. -/
theorem filtering_time_counterexample :
    List.lookup "auth"
        (FilterWorker.to_result_nats scenario_collaborators { procname := "auth" }
          (scenario_worker 3 []) {} 2000000000 0 0 0
          (scenario_clock_world 1000000000)).1.resultInfo.filteringTime
      = some { filterName := "auth", startTime := 2000, endTime := 1000 } ∧
    (1762000003002000000 : Int) = 1762000003002 * 1000000 ∧
    List.lookup "auth"
        (FilterWorker.to_next_nats scenario_collaborators { procname := "auth" } {}
          1762000003002000000
          (scenario_clock_world 1762000003002000000)).1.resultInfo.filteringTime
      = some { filterName := "auth", startTime := 1762000003001, endTime := 1762000003001 } ∧
    Int.tdiv 1762000002999999900 1000000 = 1762000002999 ∧
    List.lookup "auth"
        (FilterWorker.to_next_nats scenario_collaborators { procname := "auth" } {}
          1762000002999999900
          (scenario_clock_world 1762000002999999900)).1.resultInfo.filteringTime
      = some { filterName := "auth", startTime := 1762000003000, endTime := 1762000003000 } := by
  refine ⟨by decide, by decide, by decide, by decide, by decide⟩
/-- C13 (amended): every admission discard (`discard_tps_in`,
`discard_tps_out`, `discard_timeout` when they discard, `discard_queue_full`
always) makes exactly one call of `nats_result.publish`. The pool hands the
message to the publisher chosen round-robin, whose queue takes it only when it
is open and not full; when the queue is closed or full the message is dropped
without a log line and `publish` still returns `true`. Without a configured
subject the pool drops the message, logs `subject is empty` and returns
`false`. -/
theorem discard_result_handed_over (C : Collaborators) (conf : AppConf) (self : FilterWorker)
    (filter : filter_info_t) (recv_time : Int) (w : World) (pool : NatsPublisherPool)
    (message : String) :
    ((FilterWorker.discard_tps_in C conf self filter recv_time w).1 = true →
      published_results (FilterWorker.discard_tps_in C conf self filter recv_time w).2.2.events
        = published_results w.events ++
          [(FilterWorker.discard_tps_in C conf self filter recv_time w).2.1]) ∧
    ((FilterWorker.discard_tps_out C conf self filter recv_time w).1 = true →
      published_results (FilterWorker.discard_tps_out C conf self filter recv_time w).2.2.events
        = published_results w.events ++
          [(FilterWorker.discard_tps_out C conf self filter recv_time w).2.1]) ∧
    ((FilterWorker.discard_timeout C conf self filter recv_time w).1 = true →
      published_results (FilterWorker.discard_timeout C conf self filter recv_time w).2.2.events
        = published_results w.events ++
          [(FilterWorker.discard_timeout C conf self filter recv_time w).2.1]) ∧
    (published_results (FilterWorker.discard_queue_full C conf self filter recv_time w).2.2.events
        = published_results w.events ++
          [(FilterWorker.discard_queue_full C conf self filter recv_time w).2.1]) ∧
    (pool.params_.subject = "" →
      pool.publish message "" =
        some (false, pool, [Event.log LogLevel.error "subject is empty"])) ∧
    (pool.params_.subject ≠ "" →
      ∀ publisher : NatsPublisher,
        pool.publishers_[pool.sequence_ % pool.publishers_.length]? = some publisher →
        pool.publish message "" =
          some (true,
            { pool with
              publishers_ := pool.publishers_.set (pool.sequence_ % pool.publishers_.length)
                (publisher.publish pool.params_.subject message),
              sequence_ := (pool.sequence_ + 1) % 2 ^ 64 }, []) ∧
        (publisher.waiter_.open_ = true ∧
            publisher.waiter_.queue_.length < publisher.waiter_.capacity →
          (publisher.publish pool.params_.subject message).waiter_.queue_ =
            publisher.waiter_.queue_ ++ [(pool.params_.subject, message)]) ∧
        (¬ (publisher.waiter_.open_ = true ∧
            publisher.waiter_.queue_.length < publisher.waiter_.capacity) →
          publisher.publish pool.params_.subject message = publisher)) := by
  refine ⟨fun h => (discard_tps_in_publishes C conf self filter recv_time w h).1,
    fun h => (discard_tps_out_publishes C conf self filter recv_time w h).1,
    fun h => (discard_timeout_publishes C conf self filter recv_time w h).1,
    (discard_queue_full_publishes C conf self filter recv_time w).1, ?_, ?_⟩
  · intro hsub
    simp [NatsPublisherPool.publish, hsub]
  · intro hsub publisher hsel
    refine ⟨?_, ?_, ?_⟩
    · simp [NatsPublisherPool.publish, hsub, hsel]
    · rintro ⟨hopen, hlen⟩
      simp [NatsPublisher.publish, BlockingLockFreeQueue.push, lockfree_push, hopen, hlen]
    · intro hnot
      unfold NatsPublisher.publish BlockingLockFreeQueue.push lockfree_push
      by_cases hopen : publisher.waiter_.open_ = true
      · have hlen : ¬ publisher.waiter_.queue_.length < publisher.waiter_.capacity :=
          fun h => hnot ⟨hopen, h⟩
        simp [hopen, hlen]
      · have hclosed : publisher.waiter_.open_ = false := by simpa using hopen
        simp [hclosed]

/-- Counterexample to C13 as stated: with limit 5 and five transactions in
the last second the ingress check discards and makes its one call of
`nats_result.publish`; on a result pool whose publisher queue is full the call
returns `true`, logs nothing and leaves the queue as it was, so the discard
result is not accepted for sending. -/
theorem discard_result_dropped_counterexample :
    (FilterWorker.discard_tps_in scenario_collaborators { discard_tps_in := 5 }
      (scenario_worker 3 []) {} 0 (scenario_world [0, 0, 0, 0, 0] [])).1 = true ∧
    published_results (FilterWorker.discard_tps_in scenario_collaborators { discard_tps_in := 5 }
      (scenario_worker 3 []) {} 0 (scenario_world [0, 0, 0, 0, 0] [])).2.2.events =
      [(FilterWorker.discard_tps_in scenario_collaborators { discard_tps_in := 5 }
        (scenario_worker 3 []) {} 0 (scenario_world [0, 0, 0, 0, 0] [])).2.1] ∧
    scenario_full_result_pool.publish
      (scenario_collaborators.to_json
        (FilterWorker.discard_tps_in scenario_collaborators { discard_tps_in := 5 }
          (scenario_worker 3 []) {} 0 (scenario_world [0, 0, 0, 0, 0] [])).2.1) "" =
      some (true, { scenario_full_result_pool with sequence_ := 1 }, []) ∧
    (scenario_full_result_pool.publishers_.map (fun p => p.waiter_.queue_)) =
      [[("result", "old")]] := by
  have htrue : (FilterWorker.discard_tps_in scenario_collaborators { discard_tps_in := 5 }
      (scenario_worker 3 []) {} 0 (scenario_world [0, 0, 0, 0, 0] [])).1 = true := by decide
  refine ⟨htrue, ?_, ?_, by decide⟩
  · exact (discard_tps_in_publishes scenario_collaborators { discard_tps_in := 5 }
      (scenario_worker 3 []) {} 0 (scenario_world [0, 0, 0, 0, 0] []) htrue).1
  · rfl
section RunLemmas

theorem run_body_waiter (hf : HandleFilter)
    (hpres : ∀ s f sub r w, (hf s f sub r w).1.waiter_ = s.waiter_)
    (self : FilterWorker) (item : QueueItem) (w : World) :
    (FilterWorker.run_body hf self item w).1.waiter_ = self.waiter_ := by
  unfold FilterWorker.run_body
  dsimp only
  split_ifs
  · rw [hpres]
  · rw [hpres]

theorem run_body_assigned_no (hf : HandleFilter)
    (hno : ∀ s f sub r w, (hf s f sub r w).1.assigned_no_ = s.assigned_no_)
    (self : FilterWorker) (item : QueueItem) (w : World) :
    (FilterWorker.run_body hf self item w).1.assigned_no_ = self.assigned_no_ := by
  unfold FilterWorker.run_body
  dsimp only
  split_ifs
  · rw [hno]
  · rw [hno]

theorem adaptive_pop_loop_with_id {T : Type} (q : BlockingLockFreeQueue T) (timeout_ms : Int)
    (steady : Nat → Int) (sta : Int) (fuel : Nat) :
    ∀ (reads fails round : Nat),
      BlockingLockFreeQueue.adaptive_pop_loop_with (fun _ q => q) timeout_ms steady sta fuel q
          reads fails round =
        BlockingLockFreeQueue.adaptive_pop_loop q timeout_ms steady sta fuel reads fails := by
  induction fuel with
  | zero => intro reads fails round; rfl
  | succ n ih =>
    intro reads fails round
    simp only [BlockingLockFreeQueue.adaptive_pop_loop_with,
      BlockingLockFreeQueue.adaptive_pop_loop, ih]

theorem run_loop_drains (hf : HandleFilter) (pop : FilterWorker.WaiterPop)
    (hpop_item : ∀ (q : BlockingLockFreeQueue QueueItem) x rest, q.queue_ = x :: rest →
      pop q = some (0, some x, { q with queue_ := rest, size_ := q.size_ - 1 }))
    (hpop_closed : ∀ q : BlockingLockFreeQueue QueueItem, q.queue_ = [] → q.open_ = false →
      pop q = some (-1, none, q))
    (hpres : ∀ s f sub r w, (hf s f sub r w).1.waiter_ = s.waiter_)
    (items : List QueueItem) :
    ∀ (self : FilterWorker) (w : World) (extra : Nat),
      self.waiter_.queue_ = items → self.waiter_.open_ = false →
      FilterWorker.run_loop hf pop (items.length + 1 + extra) self w =
        some ((FilterWorker.handle_each hf items self w).1,
          (FilterWorker.handle_each hf items self w).2.emit
            (Event.log LogLevel.info (log_line ["Stop FilterWorker:",
              (FilterWorker.handle_each hf items self w).1.assigned_no_str]))) ∧
      (FilterWorker.handle_each hf items self w).1.waiter_.queue_ = [] ∧
      (∀ fuel, fuel ≤ items.length →
        FilterWorker.run_loop hf pop fuel self w = none) := by
  induction items with
  | nil =>
    intro self w extra hq hclosed
    have hpop := hpop_closed self.waiter_ hq hclosed
    refine ⟨?_, ?_, ?_⟩
    · have hf1 : ([] : List QueueItem).length + 1 + extra = extra + 1 := by simp; omega
      rw [hf1]
      simp [FilterWorker.run_loop, hpop, FilterWorker.handle_each]
    · simpa [FilterWorker.handle_each] using hq
    · intro fuel hfuel
      have : fuel = 0 := by simpa using hfuel
      rw [this]; rfl
  | cons it rest ih =>
    intro self w extra hq hclosed
    have hpop := hpop_item self.waiter_ it rest hq
    have htail : self.waiter_.queue_.tail = rest := by rw [hq]; rfl
    have hw := run_body_waiter hf hpres
      { self with waiter_ := { self.waiter_ with queue_ := rest, size_ := self.waiter_.size_ - 1 } }
      it w
    obtain ⟨h1, h2, h3⟩ := ih
      (FilterWorker.run_body hf
        { self with waiter_ := { self.waiter_ with queue_ := rest, size_ := self.waiter_.size_ - 1 } } it w).1
      (FilterWorker.run_body hf
        { self with waiter_ := { self.waiter_ with queue_ := rest, size_ := self.waiter_.size_ - 1 } } it w).2
      extra (by rw [hw]) (by rw [hw]; exact hclosed)
    refine ⟨?_, ?_, ?_⟩
    · have hf1 : (it :: rest).length + 1 + extra = (rest.length + 1 + extra) + 1 := by
        simp only [List.length_cons]; omega
      rw [hf1]
      simp only [FilterWorker.run_loop, hpop, FilterWorker.handle_each, htail, if_true]
      exact h1
    · simp only [FilterWorker.handle_each, htail]
      exact h2
    · intro fuel hfuel
      cases fuel with
      | zero => rfl
      | succ f =>
        simp only [FilterWorker.run_loop, hpop, if_true]
        exact h3 f (by simp only [List.length_cons] at hfuel; omega)

end RunLemmas
/-- C14: in the body of the run loop, with the `handle_filter` of the auth stage,
a dequeued message that the egress-rate or age check discards leaves
`tps_meter_out` without any `add_transaction` (the body is `handle_filter`
alone), a message that passes both checks gets exactly one `add_transaction`
after `handle_filter`, and the body starts by resetting `handle_discard_`, so
its effect does not depend on the marker left by an earlier message; for any
`handle_filter` the count is made exactly when the marker is clear at the end. -/
theorem out_transaction_once (C : Collaborators) (conf : AppConf) (self : FilterWorker)
    (item : QueueItem) (w : World) (marker : Bool) (hf : HandleFilter) :
    ((FilterWorker.handle_discard C conf { self with handle_discard_ := false } item.2.1
        item.2.2 (w.emit (Event.log LogLevel.debug item.1))).1 = true →
      FilterWorker.run_body (AuthFilterWorker.handle_filter C conf) self item w =
        AuthFilterWorker.handle_filter C conf { self with handle_discard_ := false }
          item.2.1 item.1 item.2.2 w ∧
      (FilterWorker.run_body (AuthFilterWorker.handle_filter C conf) self item w).1.handle_discard_
        = true) ∧
    ((FilterWorker.handle_discard C conf { self with handle_discard_ := false } item.2.1
        item.2.2 (w.emit (Event.log LogLevel.debug item.1))).1 = false →
      FilterWorker.run_body (AuthFilterWorker.handle_filter C conf) self item w =
        ((AuthFilterWorker.handle_filter C conf { self with handle_discard_ := false }
            item.2.1 item.1 item.2.2 w).1,
         (AuthFilterWorker.handle_filter C conf { self with handle_discard_ := false }
            item.2.1 item.1 item.2.2 w).2.tps_meter_out_add_transaction.2) ∧
      (FilterWorker.run_body (AuthFilterWorker.handle_filter C conf) self item w).1.handle_discard_
        = false) ∧
    FilterWorker.run_body hf { self with handle_discard_ := marker } item w =
      FilterWorker.run_body hf self item w ∧
    ((hf { self with handle_discard_ := false } item.2.1 item.1 item.2.2 w).1.handle_discard_
        = true →
      FilterWorker.run_body hf self item w =
        hf { self with handle_discard_ := false } item.2.1 item.1 item.2.2 w) ∧
    ((hf { self with handle_discard_ := false } item.2.1 item.1 item.2.2 w).1.handle_discard_
        = false →
      FilterWorker.run_body hf self item w =
        ((hf { self with handle_discard_ := false } item.2.1 item.1 item.2.2 w).1,
         (hf { self with handle_discard_ := false } item.2.1 item.1 item.2.2
            w).2.tps_meter_out_add_transaction.2)) := by
  have hflag : (AuthFilterWorker.handle_filter C conf { self with handle_discard_ := false }
        item.2.1 item.1 item.2.2 w).1.handle_discard_ =
      (FilterWorker.handle_discard C conf { self with handle_discard_ := false } item.2.1
        item.2.2 (w.emit (Event.log LogLevel.debug item.1))).1 := by
    unfold AuthFilterWorker.handle_filter FilterWorker.handle_discard
    dsimp only
    split_ifs <;> simp_all
  refine ⟨?_, ?_, rfl, ?_, ?_⟩
  · intro h
    have h1 : FilterWorker.run_body (AuthFilterWorker.handle_filter C conf) self item w =
        AuthFilterWorker.handle_filter C conf { self with handle_discard_ := false }
          item.2.1 item.1 item.2.2 w := by
      unfold FilterWorker.run_body
      dsimp only
      rw [hflag, h]
      simp
    refine ⟨h1, ?_⟩
    rw [h1, hflag, h]
  · intro h
    have h1 : FilterWorker.run_body (AuthFilterWorker.handle_filter C conf) self item w =
        ((AuthFilterWorker.handle_filter C conf { self with handle_discard_ := false }
            item.2.1 item.1 item.2.2 w).1,
         (AuthFilterWorker.handle_filter C conf { self with handle_discard_ := false }
            item.2.1 item.1 item.2.2 w).2.tps_meter_out_add_transaction.2) := by
      unfold FilterWorker.run_body
      dsimp only
      rw [hflag, h]
      simp
    refine ⟨h1, ?_⟩
    rw [h1]
    dsimp only
    rw [hflag, h]
  · intro h
    unfold FilterWorker.run_body
    dsimp only
    rw [h]
    simp
  · intro h
    unfold FilterWorker.run_body
    dsimp only
    rw [h]
    simp
/-- Witness of C14: with an egress limit of zero the dequeued message is
discarded and the egress meter stays empty; with the default limit the message
passes and the meter holds exactly the one new timestamp. -/
theorem out_transaction_once_witness :
    (FilterWorker.run_body
        (AuthFilterWorker.handle_filter scenario_collaborators { discard_tps_out := 0 })
        (scenario_worker 3 []) ("s", {}, 0) (scenario_world [] [])).2.tps_meter_out.transactions_
      = [] ∧
    (FilterWorker.run_body (AuthFilterWorker.handle_filter scenario_collaborators {})
        (scenario_worker 3 []) ("s", {}, 0) (scenario_world [] [])).2.tps_meter_out.transactions_
      = [500000000] := by
  constructor
  · rw [((out_transaction_once scenario_collaborators { discard_tps_out := 0 }
      (scenario_worker 3 []) ("s", {}, 0) (scenario_world [] []) false
      FilterWorker.handle_filter).1 rfl).1]
    rfl
  · rw [((out_transaction_once scenario_collaborators {}
      (scenario_worker 3 []) ("s", {}, 0) (scenario_world [] []) false
      FilterWorker.handle_filter).2.1 rfl).1]
    rfl
section StopLemmas

theorem adaptive_pop_loop_closed_only {T : Type} (q : BlockingLockFreeQueue T) (timeout_ms : Int)
    (steady : Nat → Int) (sta : Int) (hzero : timeout_ms ≤ 0) (fuel : Nat) :
    ∀ (reads fails : Nat) (r : Int × Option T × BlockingLockFreeQueue T),
      BlockingLockFreeQueue.adaptive_pop_loop q timeout_ms steady sta fuel reads fails = some r →
      r.1 = -1 → q.queue_ = [] ∧ q.open_ = false := by
  have hnot : ¬ timeout_ms > 0 := by omega
  induction fuel with
  | zero => intro reads fails r h; simp [BlockingLockFreeQueue.adaptive_pop_loop] at h
  | succ n ih =>
    intro reads fails r h hr
    cases hq : q.queue_ with
    | cons x rest =>
      simp [BlockingLockFreeQueue.adaptive_pop_loop, lockfree_pop, hq] at h
      rw [← h] at hr
      simp at hr
    | nil =>
      cases hopen : q.open_ with
      | false => exact ⟨rfl, rfl⟩
      | true =>
        simp only [BlockingLockFreeQueue.adaptive_pop_loop, lockfree_pop, hq, hopen, hnot,
          if_false, Bool.true_eq_false] at h
        have := ih _ _ r h hr
        rw [hq, hopen] at this
        simp at this

/-- When no other thread touches the queue between the closing of it by
`stop()` and the end of `run()`, and `handle_filter` leaves the queue alone,
the run loop runs its body on each of the queued items once, in queue order,
and only then logs the stop line and ends, so that `stop()` returns `true`
with an empty queue; with as many loop rounds as items or fewer it has not
ended; and a `pop` that no other thread interleaves with returns `-1` only on
an empty closed queue. -/
theorem stop_drains_queue_alone (hf : HandleFilter) (steady : Nat → Int) (pop_fuel extra : Nat)
    (self : FilterWorker) (w : World) (hpf : 0 < pop_fuel)
    (hpres : ∀ s f sub r w, (hf s f sub r w).1.waiter_ = s.waiter_)
    (hopen : self.waiter_.open_ = true) :
    FilterWorker.stop hf (fun q => q.pop false 0 steady pop_fuel)
        (self.waiter_.queue_.length + 1 + extra) self w =
      some (true,
        (FilterWorker.handle_each hf self.waiter_.queue_
          { self with waiter_ := self.waiter_.close false } w).1,
        (FilterWorker.handle_each hf self.waiter_.queue_
          { self with waiter_ := self.waiter_.close false } w).2.emit
            (Event.log LogLevel.info (log_line ["Stop FilterWorker:",
              (FilterWorker.handle_each hf self.waiter_.queue_
                { self with waiter_ := self.waiter_.close false } w).1.assigned_no_str]))) ∧
    (FilterWorker.handle_each hf self.waiter_.queue_
      { self with waiter_ := self.waiter_.close false } w).1.waiter_.queue_ = [] ∧
    (∀ fuel, fuel ≤ self.waiter_.queue_.length →
      FilterWorker.stop hf (fun q => q.pop false 0 steady pop_fuel) fuel self w = none) ∧
    (∀ (q : BlockingLockFreeQueue QueueItem) (fuel : Nat)
        (r : Int × Option QueueItem × BlockingLockFreeQueue QueueItem),
      q.pop false 0 steady fuel = some r → r.1 = -1 → q.queue_ = [] ∧ q.open_ = false) ∧
    (∀ (q : BlockingLockFreeQueue QueueItem) (fuel : Nat),
      q.adaptive_pop_with (fun _ q => q) 0 steady fuel = q.pop false 0 steady fuel) := by
  have hq : ({ self with waiter_ := self.waiter_.close false } : FilterWorker).waiter_.queue_ =
      self.waiter_.queue_ := by
    simp [BlockingLockFreeQueue.close]
  have hclosed :
      ({ self with waiter_ := self.waiter_.close false } : FilterWorker).waiter_.open_ = false := by
    simp [BlockingLockFreeQueue.close]
  obtain ⟨h1, h2, h3⟩ := run_loop_drains hf (fun q => q.pop false 0 steady pop_fuel)
    (fun q x rest hx => pop_nonempty false q x rest 0 steady pop_fuel hx hpf)
    (fun q hx hc => pop_closed_empty false q 0 steady pop_fuel hx hc hpf)
    hpres self.waiter_.queue_
    { self with waiter_ := self.waiter_.close false } w extra hq hclosed
  have hne : ¬ (self.waiter_.is_open = false) := by
    simp [BlockingLockFreeQueue.is_open, hopen]
  refine ⟨?_, h2, ?_, ?_, ?_⟩
  · unfold FilterWorker.stop
    rw [if_neg hne, h1]
  · intro fuel hfuel
    unfold FilterWorker.stop
    rw [if_neg hne, h3 fuel hfuel]
  · intro q fuel r h hr
    simp only [BlockingLockFreeQueue.pop, BlockingLockFreeQueue.adaptive_pop, if_neg,
      Bool.false_eq_true, if_false] at h
    exact adaptive_pop_loop_closed_only q 0 steady (steady 0) (le_refl 0) fuel 1 0 r h hr
  · intro q fuel
    simp only [BlockingLockFreeQueue.pop, BlockingLockFreeQueue.adaptive_pop,
      BlockingLockFreeQueue.adaptive_pop_with, Bool.false_eq_true, if_false]
    exact adaptive_pop_loop_with_id q 0 steady (steady 0) fuel 1 0 0

/-- An instance of `stop_drains_queue_alone`: `stop()` on an open worker with
three queued items and a handler that records subjects: the three subjects are
recorded once each, in queue order, before the stop line, and the queue ends
empty. -/
theorem stop_drains_queue_alone_witness :
    ∃ done, FilterWorker.stop scenario_recording_handler
        (fun q => q.pop false 0 (fun _ => 0) 1) 4
        (scenario_worker 5 [("a", {}, 0), ("b", {}, 0), ("c", {}, 0)]) (scenario_world [] [])
        = some (true, done) ∧
      done.1.waiter_.queue_ = [] ∧
      done.2.events =
        [Event.log LogLevel.debug "a", Event.log LogLevel.debug "b",
          Event.log LogLevel.debug "c", Event.log LogLevel.info "Stop FilterWorker: 01"] :=
  ⟨_, (stop_drains_queue_alone scenario_recording_handler (fun _ => 0) 1 0
    (scenario_worker 5 [("a", {}, 0), ("b", {}, 0), ("c", {}, 0)]) (scenario_world [] [])
    (by decide) (fun _ _ _ _ _ => rfl) rfl).1, rfl, rfl⟩

end StopLemmas

/-- C18 fails when the closing of the queue interleaves with a `pop` in
progress. The worker thread is inside `adaptive_pop` on an empty open queue and
its `queue_.pop` has just failed; before it reads `open_`, a producer pushes
one item, which is accepted with code `0`, and `stop()` closes the queue. The
item is in the queue when it is closed, yet `pop` returns `-1` on a queue that
is not empty, the run loop ends after the stop line without having handed the
item to `handle_filter`, and the item is still queued when the thread can be
joined. -/
theorem stop_race_leaves_item :
    ((scenario_worker 5 []).waiter_.push false ("a", {}, 0)).1 = 0 ∧
    (((scenario_worker 5 []).waiter_.push false ("a", {}, 0)).2.close false).queue_
      = [("a", {}, 0)] ∧
    BlockingLockFreeQueue.adaptive_pop_with
        (fun round q => if round = 0 then ((q.push false ("a", {}, 0)).2).close false else q)
        (scenario_worker 5 []).waiter_ 0 (fun _ => 0) 1 =
      some (-1, none,
        ((scenario_worker 5 []).waiter_.push false ("a", {}, 0)).2.close false) ∧
    (∃ done, FilterWorker.run_loop scenario_recording_handler
        (fun q => q.adaptive_pop_with
          (fun round q => if round = 0 then ((q.push false ("a", {}, 0)).2).close false else q)
          0 (fun _ => 0) 1)
        1 (scenario_worker 5 []) (scenario_world [] []) = some done ∧
      done.1.waiter_.queue_ = [("a", {}, 0)] ∧
      done.1.waiter_.open_ = false ∧
      done.2.events = [Event.log LogLevel.info "Stop FilterWorker: 01"] ∧
      done.2.tps_meter_out.transactions_ = []) :=
  ⟨rfl, rfl, rfl, _, rfl, rfl, rfl, rfl, rfl⟩

section SignalLemmas

theorem notified_since_concat (history : List SignalEvent) (e : SignalEvent) :
    notified_since_last_wakeup (history ++ [e]) ↔
      (e = SignalEvent.notified ∨ (e ≠ SignalEvent.woken_up ∧ notified_since_last_wakeup history)) := by
  constructor
  · rintro ⟨before, after, hsplit, hno⟩
    rcases List.eq_nil_or_concat after with hnil | ⟨init, last, hlast⟩
    · subst hnil
      left
      have h := List.append_inj' hsplit (by simp)
      simpa using h.2
    · subst hlast
      right
      have h2 : history ++ [e] = (before ++ SignalEvent.notified :: init) ++ [last] := by
        rw [hsplit]; simp
      have h := List.append_inj' h2 (by simp)
      have he : e = last := by simpa using h.2
      refine ⟨?_, before, init, h.1, ?_⟩
      · intro hw
        apply hno
        rw [← he, hw]
        simp
      · intro hmem
        apply hno
        simp [hmem]
  · rintro (he | ⟨hne, before, after, hsplit, hno⟩)
    · exact ⟨history, [], by rw [he], by simp⟩
    · refine ⟨before, after ++ [e], by rw [hsplit]; simp, ?_⟩
      intro hmem
      rcases List.mem_append.mp hmem with h | h
      · exact hno h
      · simp at h
        exact hne h.symm

theorem not_notified_since_nil : ¬ notified_since_last_wakeup [] := by
  rintro ⟨before, after, hsplit, _⟩
  simp at hsplit

theorem signal_run_spec (calls : List SignalCall) :
    ∀ (s : MSignal) (history : List SignalEvent),
      (∀ msec, SignalCall.wait msec ∈ calls → 0 < msec) →
      (s.signaled_ = true ↔ notified_since_last_wakeup history) →
      ∃ events final, MSignal.run s calls history = some (events, final) ∧
        (final.signaled_ = true ↔ notified_since_last_wakeup events) ∧
        history <+: events := by
  induction calls with
  | nil =>
    intro s history _ hinv
    exact ⟨history, s, rfl, hinv, List.prefix_refl _⟩
  | cons c cs ih =>
    intro s history hpos hinv
    have hpos2 : ∀ msec, SignalCall.wait msec ∈ cs → 0 < msec :=
      fun msec h => hpos msec (List.mem_cons_of_mem _ h)
    cases c with
    | notify_one =>
      obtain ⟨events, final, hrun, hfin, hpre⟩ := ih s.notify_one (history ++ [.notified]) hpos2
        (by
          rw [notified_since_concat]
          cases hs : s.signaled_ <;> simp [MSignal.notify_one, MSignal.notify_one_nolock, hs])
      exact ⟨events, final, by simpa [MSignal.run] using hrun, hfin,
        (List.prefix_append _ _).trans hpre⟩
    | wait msec =>
      have hm : 0 < msec := hpos msec (by simp)
      have hm0 : msec ≠ 0 := by omega
      cases hs : s.signaled_ with
      | true =>
        obtain ⟨events, final, hrun, hfin, hpre⟩ := ih { s with signaled_ := false }
          (history ++ [.woken_up]) hpos2 (by rw [notified_since_concat]; simp)
        refine ⟨events, final, ?_, hfin, (List.prefix_append _ _).trans hpre⟩
        simpa [MSignal.run, MSignal.wait, hs] using hrun
      | false =>
        obtain ⟨events, final, hrun, hfin, hpre⟩ := ih s (history ++ [.timed_out]) hpos2
          (by
            rw [notified_since_concat]
            simp only [reduceCtorEq, ne_eq, not_false_eq_true, true_and, false_or]
            exact hinv)
        refine ⟨events, final, ?_, hfin, (List.prefix_append _ _).trans hpre⟩
        simpa [MSignal.run, MSignal.wait, hs, hm0] using hrun

theorem run_notify_replicate (k : Nat) (rest : List SignalCall) :
    ∀ (s : MSignal) (history : List SignalEvent),
      MSignal.run s (List.replicate (k + 1) SignalCall.notify_one ++ rest) history =
        MSignal.run { signaled_ := true } rest
          (history ++ List.replicate (k + 1) SignalEvent.notified) := by
  induction k with
  | zero =>
    intro s history
    cases s with
    | mk flag => cases flag <;> simp [MSignal.run, MSignal.notify_one, MSignal.notify_one_nolock]
  | succ k ih =>
    intro s history
    rw [List.replicate_succ, List.cons_append, MSignal.run, ih]
    simp [List.replicate_succ]

end SignalLemmas

/-- C21: for every sequence of `notify_one()` and `wait(msec)` calls with
`msec > 0`, made one after the other on a freshly constructed signal, every
call returns, and a further `wait(msec)` with `msec > 0` returns `true` (woken
up) exactly when a notification has occurred since the last `wait` that was
woken up, or since construction, and returns `false` (timed out) otherwise. In
particular a notification sent before the `wait` is not lost, several
notifications before one `wait` wake it once and the next `wait` times out,
and a `wait` on a signal that was never notified times out. -/
theorem signal_wakeup_iff_notified (calls : List SignalCall) (msec : Nat)
    (hcalls : ∀ m, SignalCall.wait m ∈ calls → 0 < m) (hmsec : 0 < msec) :
    (∃ events final, MSignal.run {} calls [] = some (events, final) ∧
      ((∃ after, final.wait msec = some (true, after)) ↔ notified_since_last_wakeup events) ∧
      ((∃ after, final.wait msec = some (false, after)) ↔
        ¬ notified_since_last_wakeup events) ∧
      (final.wait msec).isSome = true) ∧
    (∀ n : Nat, MSignal.run {}
        (List.replicate (n + 1) SignalCall.notify_one ++
          [SignalCall.wait msec, SignalCall.wait msec]) [] =
      some (List.replicate (n + 1) SignalEvent.notified ++
        [SignalEvent.woken_up, SignalEvent.timed_out], {})) ∧
    MSignal.run {} [SignalCall.wait msec] [] = some ([SignalEvent.timed_out], {}) := by
  have hm0 : msec ≠ 0 := by omega
  refine ⟨?_, ?_, ?_⟩
  · obtain ⟨events, final, hrun, hfin, _⟩ := signal_run_spec calls {} [] hcalls
      (by simp [not_notified_since_nil])
    refine ⟨events, final, hrun, ?_, ?_, ?_⟩
    · rw [← hfin]
      cases hs : final.signaled_ <;> simp [MSignal.wait, hs, hm0]
    · rw [← hfin]
      cases hs : final.signaled_ <;> simp [MSignal.wait, hs, hm0]
    · cases hs : final.signaled_ <;> simp [MSignal.wait, hs, hm0]
  · intro n
    rw [run_notify_replicate]
    simp [MSignal.run, MSignal.wait, hm0, MSignal.notify_one, MSignal.notify_one_nolock]
  · simp [MSignal.run, MSignal.wait, hm0]

/-- Witness of C21: two notifications, then two waits of five milliseconds: the
first is woken up, the second times out. -/
theorem signal_wakeup_iff_notified_witness :
    (∀ m, SignalCall.wait m ∈ [SignalCall.notify_one, SignalCall.wait 5] → 0 < m) ∧
    MSignal.run {}
        [SignalCall.notify_one, SignalCall.notify_one, SignalCall.wait 5, SignalCall.wait 5] [] =
      some ([SignalEvent.notified, SignalEvent.notified, SignalEvent.woken_up,
        SignalEvent.timed_out], {}) :=
  ⟨by simp, (signal_wakeup_iff_notified [SignalCall.notify_one, SignalCall.wait 5] 5
    (by simp) (by decide)).2.1 1⟩
section WaitFuncLemmas

variable {σ : Type}

theorem wait_func_pred_some (f : σ → Bool) (count : Nat) (s : MSignal) (x : σ) :
    ((count = 0 ∨ s.signaled_ = true) →
      MSignal.wait_func_pred (some f) count s x =
        (f x, count + 1, { signaled_ := false },
          { signaled := s.signaled_, evaluated := some (f x) })) ∧
    ((count ≠ 0 ∧ s.signaled_ = false) →
      MSignal.wait_func_pred (some f) count s x =
        (false, count + 1, s, { signaled := false, evaluated := none })) := by
  cases s with
  | mk flag =>
    constructor
    · rintro (h | h)
      · cases flag <;> simp [MSignal.wait_func_pred, h]
      · simp at h
        subst h
        by_cases hc : count = 0 <;> simp [MSignal.wait_func_pred, hc]
    · rintro ⟨hc, h⟩
      simp at h
      subst h
      simp [MSignal.wait_func_pred, hc]

theorem wait_func_loop_spec (f : σ → Bool) (env : Nat → MSignal × σ → MSignal × σ)
    (fuel : Nat) :
    ∀ (round count : Nat) (s : MSignal) (x : σ) (calls : List PredCall)
      (r : MSignal × σ × List PredCall),
      MSignal.wait_func_loop (some f) env fuel round count s x calls = some r →
      ∃ sleeping last, r.2.2 = calls ++ sleeping ++ [last] ∧
        last.evaluated = some true ∧ f r.2.1 = true ∧ r.1.signaled_ = false ∧
        (∀ c ∈ sleeping, c.evaluated ≠ some true) ∧
        (count ≠ 0 → ∀ c ∈ sleeping ++ [last], (c.evaluated.isSome = true ↔ c.signaled = true)) ∧
        (count = 0 → ∃ first later, sleeping ++ [last] = first :: later ∧
          first.evaluated.isSome = true ∧
          ∀ c ∈ later, (c.evaluated.isSome = true ↔ c.signaled = true)) := by
  induction fuel with
  | zero => intro round count s x calls r h; simp [MSignal.wait_func_loop] at h
  | succ n ih =>
    intro round count s x calls r h
    by_cases hcase : count = 0 ∨ s.signaled_ = true
    · have hp := (wait_func_pred_some f count s x).1 hcase
      cases hfx : f x with
      | true =>
        simp only [MSignal.wait_func_loop, hp, hfx, if_true, Option.some.injEq] at h
        subst h
        refine ⟨[], { signaled := s.signaled_, evaluated := some true }, by simp, rfl, hfx, rfl,
          by simp, ?_, ?_⟩
        · intro hc c hmem
          simp at hmem
          subst hmem
          rcases hcase with h0 | hsig
          · exact absurd h0 hc
          · simp [hsig]
        · intro _
          exact ⟨{ signaled := s.signaled_, evaluated := some true }, [], rfl, rfl, by simp⟩
      | false =>
        simp only [MSignal.wait_func_loop, hp, hfx, Bool.false_eq_true, if_false] at h
        obtain ⟨sleeping, last, h1, h2, h3, h4, h5, h6, _⟩ := ih _ _ _ _ _ r h
        refine ⟨{ signaled := s.signaled_, evaluated := some false } :: sleeping, last,
          by rw [h1]; simp, h2, h3, h4, ?_, ?_, ?_⟩
        · intro c hmem
          rcases List.mem_cons.mp hmem with hc | hc
          · rw [hc]; simp
          · exact h5 c hc
        · intro hc c hmem
          rw [List.cons_append] at hmem
          rcases List.mem_cons.mp hmem with hc2 | hc2
          · rcases hcase with h0 | hsig
            · exact absurd h0 hc
            · rw [hc2]; simp [hsig]
          · exact h6 (by omega) c hc2
        · intro _
          exact ⟨{ signaled := s.signaled_, evaluated := some false }, sleeping ++ [last], rfl,
            rfl, h6 (by omega)⟩
    · have hcase2 : count ≠ 0 ∧ s.signaled_ = false := by
        constructor
        · intro h0; exact hcase (Or.inl h0)
        · cases hs : s.signaled_
          · rfl
          · exact absurd (Or.inr hs) hcase
      have hp := (wait_func_pred_some f count s x).2 hcase2
      simp only [MSignal.wait_func_loop, hp, Bool.false_eq_true, if_false] at h
      obtain ⟨sleeping, last, h1, h2, h3, h4, h5, h6, _⟩ := ih _ _ _ _ _ r h
      refine ⟨{ signaled := false, evaluated := none } :: sleeping, last,
        by rw [h1]; simp, h2, h3, h4, ?_, ?_, ?_⟩
      · intro c hmem
        rcases List.mem_cons.mp hmem with hc | hc
        · rw [hc]; simp
        · exact h5 c hc
      · intro _ c hmem
        rw [List.cons_append] at hmem
        rcases List.mem_cons.mp hmem with hc2 | hc2
        · rw [hc2]; simp
        · exact h6 (by omega) c hc2
      · intro h0
        exact absurd h0 hcase2.1

theorem wait_func_loop_unnotified (f : σ → Bool) (env : Nat → MSignal × σ → MSignal × σ)
    (hquiet : ∀ round st, (env round st).1.signaled_ = false) (fuel : Nat) :
    ∀ (round count : Nat) (s : MSignal) (x : σ) (calls : List PredCall),
      count ≠ 0 → s.signaled_ = false →
      MSignal.wait_func_loop (some f) env fuel round count s x calls = none := by
  induction fuel with
  | zero => intro round count s x calls _ _; rfl
  | succ n ih =>
    intro round count s x calls hc hs
    have hp := (wait_func_pred_some f count s x).2 ⟨hc, hs⟩
    simp only [MSignal.wait_func_loop, hp, Bool.false_eq_true, if_false]
    exact ih _ _ _ _ _ (by omega) (hquiet _ _)

end WaitFuncLemmas

/-- C22: `wait(func)` with a non-null `func`. (1) When the call returns, the
last thing it did was a call of `func` that returned `true`, on the shared
state it returns with; no earlier call of `func` returned `true`, and the
pending flag is consumed. (2) `func` is called once before the first sleep, so
with `func` already true the call returns at once, notified or not, without
letting any other thread run. (3) After that first call, `func` is called at a
wakeup exactly when the wakeup finds the flag `signaled_` set, once per such
wakeup; `notify_one` on a signal whose flag is already set changes nothing, so
notifications that reach the flag before the waiter runs count as one. (4) If
no other thread ever sets the flag, a call that did not return at once never
returns, whatever the wakeups and even if the shared state comes to satisfy
`func`. -/
theorem wait_func_returns_on_true {σ : Type} (f : σ → Bool)
    (env : Nat → MSignal × σ → MSignal × σ) (s : MSignal) (x : σ) (fuel : Nat) :
    (∀ r, MSignal.wait_func (some f) env fuel s x = some r →
      ∃ sleeping last, r.2.2 = sleeping ++ [last] ∧
        last.evaluated = some true ∧ f r.2.1 = true ∧ r.1.signaled_ = false ∧
        (∀ c ∈ sleeping, c.evaluated ≠ some true)) ∧
    (f x = true →
      MSignal.wait_func (some f) env (fuel + 1) s x =
        some ({ signaled_ := false }, x,
          [{ signaled := s.signaled_, evaluated := some true }])) ∧
    (∀ r, MSignal.wait_func (some f) env fuel s x = some r →
      ∃ first later, r.2.2 = first :: later ∧ first.evaluated = some (f x) ∧
        (∀ c ∈ later, (c.evaluated.isSome = true ↔ c.signaled = true)) ∧
        (r.2.2.filter (fun c => c.evaluated.isSome)).length =
          1 + (later.filter (fun c => c.signaled)).length) ∧
    (∀ t : MSignal, t.notify_one.notify_one = t.notify_one ∧ t.notify_one.signaled_ = true) ∧
    (f x = false → (∀ round st, (env round st).1.signaled_ = false) →
      MSignal.wait_func (some f) env fuel s x = none) := by
  refine ⟨?_, ?_, ?_, ?_, ?_⟩
  · intro r h
    obtain ⟨sleeping, last, h1, h2, h3, h4, h5, _, _⟩ :=
      wait_func_loop_spec f env fuel 0 0 s x [] r h
    exact ⟨sleeping, last, by simpa using h1, h2, h3, h4, h5⟩
  · intro hfx
    have hp := (wait_func_pred_some f 0 s x).1 (Or.inl rfl)
    simp [MSignal.wait_func, MSignal.wait_func_loop, hp, hfx]
  · intro r h
    cases fuel with
    | zero => simp [MSignal.wait_func, MSignal.wait_func_loop] at h
    | succ n =>
      have hp := (wait_func_pred_some f 0 s x).1 (Or.inl rfl)
      cases hfx : f x with
      | true =>
        simp only [MSignal.wait_func, MSignal.wait_func_loop, hp, hfx, if_true,
          Option.some.injEq] at h
        subst h
        exact ⟨{ signaled := s.signaled_, evaluated := some true }, [], rfl, rfl, by simp,
          by simp⟩
      | false =>
        simp only [MSignal.wait_func, MSignal.wait_func_loop, hp, hfx, Bool.false_eq_true,
          if_false] at h
        obtain ⟨sleeping, last, h1, _, _, _, _, h6, _⟩ := wait_func_loop_spec f env n _ _ _ _ _ r h
        have hlater := h6 (by omega)
        refine ⟨{ signaled := s.signaled_, evaluated := some false }, sleeping ++ [last],
          by rw [h1]; simp, rfl, hlater, ?_⟩
        rw [h1]
        simp only [List.nil_append, List.singleton_append, List.cons_append, List.filter_cons,
          Option.isSome_some, if_true, List.length_cons]
        have hcongr : (sleeping ++ [last]).filter (fun c => c.evaluated.isSome) =
            (sleeping ++ [last]).filter (fun c => c.signaled) := by
          apply List.filter_congr
          intro c hc
          have := hlater c hc
          cases h1 : c.evaluated.isSome <;> cases h2 : c.signaled <;> simp_all
        rw [hcongr]
        omega
  · intro t
    cases t with
    | mk flag => cases flag <;> simp [MSignal.notify_one, MSignal.notify_one_nolock]
  · intro hfx hquiet
    cases fuel with
    | zero => rfl
    | succ n =>
      have hp := (wait_func_pred_some f 0 s x).1 (Or.inl rfl)
      simp only [MSignal.wait_func, MSignal.wait_func_loop, hp, hfx, Bool.false_eq_true,
        if_false]
      exact wait_func_loop_unnotified f env hquiet n _ _ _ _ _ (by omega) (hquiet _ _)

/-- Witness of C22: `func` is "the counter is at least two" and the counter
starts at zero. The first call of `func` is false; the counter is raised
without a notification, and the wakeup that follows does not call `func`; the
notified wakeup of the next round calls it, it is true, and the call returns. -/
theorem wait_func_returns_on_true_witness :
    MSignal.wait_func (some (fun x : Nat => decide (2 ≤ x))) scenario_wait_env 3 {} 0 =
      some ({ signaled_ := false }, 5,
        [{ signaled := false, evaluated := some false },
         { signaled := false, evaluated := none },
         { signaled := true, evaluated := some true }]) ∧
    (∃ sleeping last,
      [({ signaled := false, evaluated := some false } : PredCall),
       { signaled := false, evaluated := none },
       { signaled := true, evaluated := some true }] = sleeping ++ [last] ∧
      last.evaluated = some true ∧ decide (2 ≤ 5) = true ∧
      ({ signaled_ := false } : MSignal).signaled_ = false ∧
      ∀ c ∈ sleeping, c.evaluated ≠ some true) :=
  ⟨rfl, (wait_func_returns_on_true (fun x : Nat => decide (2 ≤ x)) scenario_wait_env {} 0 3).1
    _ rfl⟩
section JsonLemmas

theorem required_object_spec (members : List (String × RapidValue)) (name : String) :
    (members.lookup name = none →
      required_object (.object members) name = .value (.error ("Not found " ++ name))) ∧
    (∀ v, members.lookup name = some v → v.IsObject = false →
      required_object (.object members) name = .value (.error ("Invalid type " ++ name))) ∧
    (∀ v, members.lookup name = some v → v.IsObject = true →
      required_object (.object members) name = .value (.ok v)) := by
  refine ⟨?_, ?_, ?_⟩
  · intro h
    simp [required_object, RapidValue.HasMember, Outcome.bind, h]
  · intro v h hv
    simp [required_object, RapidValue.HasMember, RapidValue.member, Outcome.bind, h, hv]
  · intro v h hv
    simp [required_object, RapidValue.HasMember, RapidValue.member, Outcome.bind, h, hv]

theorem required_object_ok (members : List (String × RapidValue)) (name : String)
    (v : RapidValue) (h : required_object (.object members) name = .value (.ok v)) :
    members.lookup name = some v ∧ v.IsObject = true := by
  cases hl : members.lookup name with
  | none =>
    rw [(required_object_spec members name).1 hl] at h
    simp at h
  | some x =>
    cases hx : x.IsObject with
    | false =>
      rw [(required_object_spec members name).2.1 x hl hx] at h
      simp at h
    | true =>
      rw [(required_object_spec members name).2.2 x hl hx] at h
      simp only [Outcome.value.injEq, Except.ok.injEq] at h
      subst h
      exact ⟨rfl, hx⟩

theorem required_object_aborts (doc : RapidValue) (name : String) (h : doc.IsObject = false) :
    required_object doc name = .assertion "IsObject()" := by
  cases doc <;> simp [RapidValue.IsObject] at h <;>
    simp [required_object, RapidValue.HasMember, Outcome.bind]

theorem from_filter_info_json_try_value (env : JsonEnv) (m c r : RapidValue)
    (value : filter_info_t)
    (h : from_filter_info_json_try env m c r = .value (.ok value)) :
    ∃ mi ci ri, env.set_value_message_info m = .value mi ∧
      env.set_value_customer_info c = .value ci ∧
      set_value_result_info {} r = .value ri ∧
      value = { messageInfo := mi, customerInfo := ci, resultInfo := ri } := by
  unfold from_filter_info_json_try at h
  cases hm : env.set_value_message_info m with
  | thrown w => simp [hm, Outcome.bind] at h
  | assertion w => simp [hm, Outcome.bind] at h
  | value mi =>
    cases hc : env.set_value_customer_info c with
    | thrown w => simp [hm, hc, Outcome.bind] at h
    | assertion w => simp [hm, hc, Outcome.bind] at h
    | value ci =>
      cases hr : set_value_result_info {} r with
      | thrown w => simp [hm, hc, hr, Outcome.bind] at h
      | assertion w => simp [hm, hc, hr, Outcome.bind] at h
      | value ri =>
        simp [hm, hc, hr, Outcome.bind] at h
        exact ⟨mi, ci, ri, rfl, rfl, rfl, h.symm⟩

end JsonLemmas

/-- C23: for a payload that parses to a JSON object, `from_filter_info_json`
returns the error `Not found X` when member `X` is missing and `Invalid type
X` when it is present but is not an object, where `X` is the first of
`messageInfo`, `customerInfo`, `resultInfo`, in this order, that is missing or
is not an object; when all three are objects the result is that of the three
`set_value` calls, and a value is returned only when all three are present and
are objects. -/
theorem required_members_checked (env : JsonEnv) (json : String)
    (members : List (String × RapidValue))
    (hparse : env.Parse json = some (.object members)) :
    (members.lookup "messageInfo" = none →
      from_filter_info_json env json = .value (.error "Not found messageInfo")) ∧
    (∀ m, members.lookup "messageInfo" = some m → m.IsObject = false →
      from_filter_info_json env json = .value (.error "Invalid type messageInfo")) ∧
    (∀ m, members.lookup "messageInfo" = some m → m.IsObject = true →
      (members.lookup "customerInfo" = none →
        from_filter_info_json env json = .value (.error "Not found customerInfo")) ∧
      (∀ c, members.lookup "customerInfo" = some c → c.IsObject = false →
        from_filter_info_json env json = .value (.error "Invalid type customerInfo")) ∧
      (∀ c, members.lookup "customerInfo" = some c → c.IsObject = true →
        (members.lookup "resultInfo" = none →
          from_filter_info_json env json = .value (.error "Not found resultInfo")) ∧
        (∀ r, members.lookup "resultInfo" = some r → r.IsObject = false →
          from_filter_info_json env json = .value (.error "Invalid type resultInfo")) ∧
        (∀ r, members.lookup "resultInfo" = some r → r.IsObject = true →
          from_filter_info_json env json = from_filter_info_json_try env m c r))) ∧
    (∀ value, from_filter_info_json env json = .value (.ok value) →
      ∃ m c r, members.lookup "messageInfo" = some m ∧ m.IsObject = true ∧
        members.lookup "customerInfo" = some c ∧ c.IsObject = true ∧
        members.lookup "resultInfo" = some r ∧ r.IsObject = true ∧
        ∃ mi ci ri, env.set_value_message_info m = .value mi ∧
          env.set_value_customer_info c = .value ci ∧
          set_value_result_info {} r = .value ri ∧
          value = { messageInfo := mi, customerInfo := ci, resultInfo := ri }) := by
  refine ⟨?_, ?_, ?_, ?_⟩
  · intro h
    simp [from_filter_info_json, hparse, (required_object_spec members "messageInfo").1 h,
      Outcome.bind]
  · intro m h hm
    simp [from_filter_info_json, hparse,
      (required_object_spec members "messageInfo").2.1 m h hm, Outcome.bind]
  · intro m h hm
    have h1 := (required_object_spec members "messageInfo").2.2 m h hm
    refine ⟨?_, ?_, ?_⟩
    · intro hc
      simp [from_filter_info_json, hparse, h1,
        (required_object_spec members "customerInfo").1 hc, Outcome.bind]
    · intro c hc hco
      simp [from_filter_info_json, hparse, h1,
        (required_object_spec members "customerInfo").2.1 c hc hco, Outcome.bind]
    · intro c hc hco
      have h2 := (required_object_spec members "customerInfo").2.2 c hc hco
      refine ⟨?_, ?_, ?_⟩
      · intro hr
        simp [from_filter_info_json, hparse, h1, h2,
          (required_object_spec members "resultInfo").1 hr, Outcome.bind]
      · intro r hr hro
        simp [from_filter_info_json, hparse, h1, h2,
          (required_object_spec members "resultInfo").2.1 r hr hro, Outcome.bind]
      · intro r hr hro
        simp [from_filter_info_json, hparse, h1, h2,
          (required_object_spec members "resultInfo").2.2 r hr hro, Outcome.bind]
  · intro value h
    simp only [from_filter_info_json, hparse] at h
    cases h1 : required_object (.object members) "messageInfo" with
    | thrown w => simp [h1, Outcome.bind] at h
    | assertion w => simp [h1, Outcome.bind] at h
    | value a =>
      cases a with
      | error e => simp [h1, Outcome.bind] at h
      | ok m =>
        cases h2 : required_object (.object members) "customerInfo" with
        | thrown w => simp [h1, h2, Outcome.bind] at h
        | assertion w => simp [h1, h2, Outcome.bind] at h
        | value b =>
          cases b with
          | error e => simp [h1, h2, Outcome.bind] at h
          | ok c =>
            cases h3 : required_object (.object members) "resultInfo" with
            | thrown w => simp [h1, h2, h3, Outcome.bind] at h
            | assertion w => simp [h1, h2, h3, Outcome.bind] at h
            | value d =>
              cases d with
              | error e => simp [h1, h2, h3, Outcome.bind] at h
              | ok r =>
                simp only [h1, h2, h3, Outcome.bind] at h
                obtain ⟨hm1, hm2⟩ := required_object_ok members _ m h1
                obtain ⟨hc1, hc2⟩ := required_object_ok members _ c h2
                obtain ⟨hr1, hr2⟩ := required_object_ok members _ r h3
                exact ⟨m, c, r, hm1, hm2, hc1, hc2, hr1, hr2,
                  from_filter_info_json_try_value env m c r value h⟩

/-- Witness of C23: the empty object lacks `messageInfo`. -/
theorem required_members_checked_witness :
    scenario_json_env.Parse "\x7b\x7d" = some (.object []) ∧
    from_filter_info_json scenario_json_env "\x7b\x7d" =
      .value (.error "Not found messageInfo") :=
  ⟨rfl, (required_members_checked scenario_json_env "\x7b\x7d" [] rfl).1 rfl⟩

/-- C26 fails: a payload that is valid JSON but whose top-level value is not
an object (an array, a number, a string, a boolean, null) passes `Parse`, and
the first check, `HasMember` for `messageInfo`, is then called on a value
that is not an object: the assertion `IsObject()` of rapidjson fails and no
error value is returned. Only a payload that does not parse gives the error
`JSON parse error!`. -/
theorem non_object_payload_aborts (env : JsonEnv) (json : String) (doc : RapidValue)
    (hparse : env.Parse json = some doc) (hnot : doc.IsObject = false) :
    from_filter_info_json env json = .assertion "IsObject()" ∧
    (∀ e, from_filter_info_json env json ≠ .value (.error e)) ∧
    (∀ other, env.Parse other = none →
      from_filter_info_json env other = .value (.error "JSON parse error!")) := by
  have h : from_filter_info_json env json = .assertion "IsObject()" := by
    simp [from_filter_info_json, hparse, required_object_aborts doc _ hnot, Outcome.bind]
  refine ⟨h, ?_, ?_⟩
  · intro e
    rw [h]
    simp
  · intro other ho
    simp [from_filter_info_json, ho]

/-- Witness of C26: the payload `[]`. -/
theorem non_object_payload_aborts_witness :
    scenario_json_env.Parse "[]" = some (.array []) ∧
    from_filter_info_json scenario_json_env "[]" = .assertion "IsObject()" :=
  ⟨rfl, (non_object_payload_aborts scenario_json_env "[]" (.array []) rfl rfl).1⟩
section FilteringTimeJsonLemmas

theorem assign_assign (key : String) (u v : filtering_time_t) (times : filtering_time_objs) :
    (times.assign key u).assign key v = times.assign key v := by
  induction times with
  | nil => simp [filtering_time_objs.assign]
  | cons entry rest ih =>
    obtain ⟨k, w⟩ := entry
    by_cases h1 : key < k
    · simp [filtering_time_objs.assign, h1]
    · by_cases h2 : key = k
      · subst h2
        simp [filtering_time_objs.assign, h1]
      · simp [filtering_time_objs.assign, h1, h2, ih]

theorem set_value_record (value : filtering_time_t)
    (hs : fits_int64 value.startTime) (he : fits_int64 value.endTime) :
    set_value_string (filtering_time_record value) "filterName" = .value value.filterName ∧
    set_value_int64 (filtering_time_record value) "startTime" = .value value.startTime ∧
    set_value_int64 (filtering_time_record value) "endTime" = .value value.endTime := by
  simp only [fits_int64] at hs he
  refine ⟨?_, ?_, ?_⟩ <;>
    simp [set_value_string, set_value_int64, is_valid_string, is_valid_int64,
      filtering_time_record, RapidValue.HasMember, RapidValue.member, Outcome.bind,
      RapidValue.IsString, RapidValue.IsInt64, RapidValue.GetString, RapidValue.GetInt64, hs, he,
      List.lookup]

theorem set_value_filtering_time_loop_spec (name : String) (records : List filtering_time_t) :
    ∀ (times : filtering_time_objs),
      (∀ t ∈ records, fits_int64 t.startTime ∧ fits_int64 t.endTime) →
      set_value_filtering_time_loop name (records.map filtering_time_record) times =
        .value (match records.getLast? with
          | none => times
          | some last => times.assign name last) := by
  induction records with
  | nil => intro times _; rfl
  | cons t rest ih =>
    intro times hrange
    obtain ⟨h1, h2, h3⟩ := set_value_record t (hrange t (by simp)).1 (hrange t (by simp)).2
    have hrest : ∀ t ∈ rest, fits_int64 t.startTime ∧ fits_int64 t.endTime :=
      fun x hx => hrange x (List.mem_cons_of_mem _ hx)
    simp only [List.map_cons, set_value_filtering_time_loop, h1, h2, h3, Outcome.bind]
    rw [ih _ hrest]
    cases rest with
    | nil => simp
    | cons r rs =>
      simp only [List.getLast?_cons_cons]
      cases hl : (r :: rs).getLast? with
      | none => simp at hl
      | some last => simp [assign_assign]

end FilteringTimeJsonLemmas

/-- C24 fails: `set_value(filtering_time_objs &, obj, name)` stores every record
of the array under the key `name`, the name of the JSON member
(`filteringTime`), not under the record's `filterName`. For an array of `k`
well-formed records, parsing into an empty map yields no entry when `k = 0`
and otherwise exactly one entry, keyed `filteringTime` and holding the values
of the last record; no entry is keyed by a `filterName` other than
`filteringTime`. Two records `auth` and `spam` give one entry, not two. -/
theorem filtering_time_keyed_by_member_name (records : List filtering_time_t)
    (hrange : ∀ t ∈ records, fits_int64 t.startTime ∧ fits_int64 t.endTime) :
    set_value_filtering_time_objs []
        (.object [("filteringTime", .array (records.map filtering_time_record))])
        "filteringTime" =
      .value (filtering_time_collapsed "filteringTime" records) ∧
    (filtering_time_collapsed "filteringTime" records).length ≤ 1 ∧
    (2 ≤ records.length →
      (filtering_time_collapsed "filteringTime" records).length ≠ records.length) ∧
    (∀ t ∈ records, t.filterName ≠ "filteringTime" →
      (filtering_time_collapsed "filteringTime" records).lookup t.filterName = none) := by
  refine ⟨?_, ?_, ?_, ?_⟩
  · simp only [set_value_filtering_time_objs, RapidValue.HasMember, RapidValue.member,
      Outcome.bind, List.lookup, beq_self_eq_true, Option.isSome_some, Bool.true_eq_false,
      if_false]
    rw [set_value_filtering_time_loop_spec _ _ _ hrange]
    unfold filtering_time_collapsed
    cases records.getLast? <;> simp [filtering_time_objs.assign]
  · unfold filtering_time_collapsed
    cases records.getLast? <;> simp
  · intro h
    unfold filtering_time_collapsed
    cases records.getLast? <;> simp <;> omega
  · intro t _ hne
    unfold filtering_time_collapsed
    cases records.getLast? with
    | none => simp
    | some last =>
      simp only [List.lookup]
      have : (t.filterName == "filteringTime") = false := by simpa using hne
      rw [this]

/-- Witness of C24: the records `auth` and `spam` are parsed into the single
entry `filteringTime`, which holds the values of `spam`. -/
theorem filtering_time_keyed_by_member_name_witness :
    set_value_filtering_time_objs []
        (.object [("filteringTime", .array
          [filtering_time_record { filterName := "auth", startTime := 1, endTime := 2 },
           filtering_time_record { filterName := "spam", startTime := 3, endTime := 4 }])])
        "filteringTime" =
      .value [("filteringTime", { filterName := "spam", startTime := 3, endTime := 4 })] :=
  (filtering_time_keyed_by_member_name
    [{ filterName := "auth", startTime := 1, endTime := 2 },
     { filterName := "spam", startTime := 3, endTime := 4 }]
    (by intro t ht; simp at ht; rcases ht with rfl | rfl <;> simp [fits_int64])).1
section ResultInfoJsonLemmas

theorem set_value_filtering_time_objs_spec (members : List (String × RapidValue))
    (name : String) (records : List filtering_time_t) (times : filtering_time_objs)
    (hlookup : members.lookup name = some (.array (records.map filtering_time_record)))
    (hrange : ∀ t ∈ records, fits_int64 t.startTime ∧ fits_int64 t.endTime) :
    set_value_filtering_time_objs times (.object members) name =
      .value (match records.getLast? with
        | none => times
        | some last => times.assign name last) := by
  simp only [set_value_filtering_time_objs, RapidValue.HasMember, RapidValue.member,
    Outcome.bind, hlookup, Option.isSome_some, Bool.true_eq_false, if_false]
  exact set_value_filtering_time_loop_spec _ _ _ hrange

theorem add_member_filtering_time_objs_eq (times : filtering_time_objs) :
    add_member_filtering_time_objs times =
      .array ((times.map filtering_time_written).map filtering_time_record) := by
  simp [add_member_filtering_time_objs, filtering_time_written, filtering_time_record,
    List.map_map, Function.comp_def]

theorem set_value_int32_spec (members : List (String × RapidValue)) (name : String) (n : Int)
    (hlookup : members.lookup name = some (.int n)) (hn : fits_int32 n) :
    set_value_int32 (.object members) name = .value n := by
  simp only [fits_int32] at hn
  simp [set_value_int32, is_valid_int32, RapidValue.HasMember, RapidValue.member, Outcome.bind,
    hlookup, RapidValue.IsInt, RapidValue.GetInt, hn]

theorem set_value_int64_spec (members : List (String × RapidValue)) (name : String) (n : Int)
    (hlookup : members.lookup name = some (.int n)) (hn : fits_int64 n) :
    set_value_int64 (.object members) name = .value n := by
  simp only [fits_int64] at hn
  simp [set_value_int64, is_valid_int64, RapidValue.HasMember, RapidValue.member, Outcome.bind,
    hlookup, RapidValue.IsInt64, RapidValue.GetInt64, hn]

theorem set_value_string_spec (members : List (String × RapidValue)) (name : String)
    (s : String) (hlookup : members.lookup name = some (.string s)) :
    set_value_string (.object members) name = .value s := by
  simp [set_value_string, is_valid_string, RapidValue.HasMember, RapidValue.member,
    Outcome.bind, hlookup, RapidValue.IsString, RapidValue.GetString]

theorem set_value_optional_string_spec (members : List (String × RapidValue)) (name : String)
    (s : Option String) (hlookup : members.lookup name = s.map RapidValue.string) :
    set_value_optional_string (.object members) name = .value s := by
  cases s with
  | none =>
    simp only [Option.map_none'] at hlookup
    simp [set_value_optional_string, RapidValue.HasMember, Outcome.bind, hlookup]
  | some x =>
    simp only [Option.map_some'] at hlookup
    simp [set_value_optional_string, RapidValue.HasMember, RapidValue.member, Outcome.bind,
      hlookup, RapidValue.GetString]

theorem add_member_result_info_members (r : result_info_t) :
    ∃ members, add_member_result_info r = .object members ∧
      members.lookup "smppResult" = some (.int r.smppResult) ∧
      members.lookup "resultCode" = some (.int r.resultCode) ∧
      members.lookup "reasonCode" = some (.int r.reasonCode) ∧
      members.lookup "spamPattern1" = some (.string r.spamPattern1) ∧
      members.lookup "spamPattern2" = r.spamPattern2.map RapidValue.string ∧
      members.lookup "spamPattern3" = r.spamPattern3.map RapidValue.string ∧
      members.lookup "imageFileName" = r.imageFileName.map RapidValue.string ∧
      members.lookup "filterStartTime" = some (.int r.filterStartTime) ∧
      members.lookup "filterEndTime" = some (.int r.filterEndTime) ∧
      members.lookup "filteringTime" =
        some (.array ((r.filteringTime.map filtering_time_written).map filtering_time_record)) := by
  refine ⟨_, rfl, ?_, ?_, ?_, ?_, ?_, ?_, ?_, ?_, ?_, ?_⟩
  · simp [List.lookup]
  · simp [List.lookup]
  · simp [List.lookup]
  · simp [List.lookup]
  · cases r.spamPattern2 <;> cases r.spamPattern3 <;> cases r.imageFileName <;>
      simp [add_member_optional_string, List.lookup]
  · cases r.spamPattern2 <;> cases r.spamPattern3 <;> cases r.imageFileName <;>
      simp [add_member_optional_string, List.lookup]
  · cases r.spamPattern2 <;> cases r.spamPattern3 <;> cases r.imageFileName <;>
      simp [add_member_optional_string, List.lookup]
  · cases r.spamPattern2 <;> cases r.spamPattern3 <;> cases r.imageFileName <;>
      simp [add_member_optional_string, List.lookup]
  · cases r.spamPattern2 <;> cases r.spamPattern3 <;> cases r.imageFileName <;>
      simp [add_member_optional_string, List.lookup]
  · rw [← add_member_filtering_time_objs_eq]
    cases r.spamPattern2 <;> cases r.spamPattern3 <;> cases r.imageFileName <;>
      simp [add_member_optional_string, List.lookup]

theorem result_info_round_trip (r : result_info_t)
    (h1 : fits_int32 r.smppResult) (h2 : fits_int32 r.resultCode)
    (h3 : fits_int32 r.reasonCode) (h4 : fits_int64 r.filterStartTime)
    (h5 : fits_int64 r.filterEndTime)
    (h6 : ∀ e ∈ r.filteringTime, fits_int64 e.2.startTime ∧ fits_int64 e.2.endTime) :
    set_value_result_info {} (add_member_result_info r) =
      .value { r with
        imageFileName := none,
        filteringTime := filtering_time_collapsed "filteringTime"
          (r.filteringTime.map filtering_time_written) } := by
  have hrec : ∀ t ∈ r.filteringTime.map filtering_time_written,
      fits_int64 t.startTime ∧ fits_int64 t.endTime := by
    intro t ht
    obtain ⟨e, he, rfl⟩ := List.mem_map.mp ht
    exact h6 e he
  obtain ⟨members, hm, l1, l2, l3, l4, l5, l6, _, l8, l9, l10⟩ :=
    add_member_result_info_members r
  have hft : set_value_filtering_time_objs [] (.object members) "filteringTime" =
      .value (filtering_time_collapsed "filteringTime"
        (r.filteringTime.map filtering_time_written)) := by
    rw [set_value_filtering_time_objs_spec _ _ _ [] l10 hrec]
    unfold filtering_time_collapsed
    cases (r.filteringTime.map filtering_time_written).getLast? <;>
      simp [filtering_time_objs.assign]
  rw [hm]
  unfold set_value_result_info
  rw [set_value_int32_spec _ _ _ l1 h1, set_value_int32_spec _ _ _ l2 h2,
    set_value_int32_spec _ _ _ l3 h3, set_value_string_spec _ _ _ l4,
    set_value_optional_string_spec _ _ _ l5, set_value_optional_string_spec _ _ _ l6,
    set_value_int64_spec _ _ _ l8 h4, set_value_int64_spec _ _ _ l9 h5]
  simp only [Outcome.bind]
  rw [hft]

end ResultInfoJsonLemmas

/-- C25 fails: parsing the JSON object written for a `result_info_t` whose
numbers are in range does not give the value back. The three codes,
`spamPattern1` to `spamPattern3` and the two timestamps are preserved, but
`imageFileName` is written and never read, so it comes back empty, and the
filtering-time map comes back with at most one entry, keyed `filteringTime`
and holding the last record written. So a value with an image file name, or
with a filtering-time entry under a stage name, is not recovered, whether or
not its entries are keyed by their own `filterName`. -/
theorem result_info_round_trip_loses (r : result_info_t)
    (h1 : fits_int32 r.smppResult) (h2 : fits_int32 r.resultCode)
    (h3 : fits_int32 r.reasonCode) (h4 : fits_int64 r.filterStartTime)
    (h5 : fits_int64 r.filterEndTime)
    (h6 : ∀ e ∈ r.filteringTime, fits_int64 e.2.startTime ∧ fits_int64 e.2.endTime) :
    set_value_result_info {} (add_member_result_info r) =
      .value { r with
        imageFileName := none,
        filteringTime := filtering_time_collapsed "filteringTime"
          (r.filteringTime.map filtering_time_written) } ∧
    (r.imageFileName ≠ none →
      set_value_result_info {} (add_member_result_info r) ≠ .value r) ∧
    ((∃ e ∈ r.filteringTime, e.1 ≠ "filteringTime") →
      set_value_result_info {} (add_member_result_info r) ≠ .value r) := by
  have h := result_info_round_trip r h1 h2 h3 h4 h5 h6
  refine ⟨h, ?_, ?_⟩
  · intro himg heq
    rw [h] at heq
    simp only [Outcome.value.injEq] at heq
    have := congrArg result_info_t.imageFileName heq
    exact himg this.symm
  · rintro ⟨e, he, hne⟩ heq
    rw [h] at heq
    simp only [Outcome.value.injEq] at heq
    have hft := congrArg result_info_t.filteringTime heq
    simp only at hft
    rw [← hft] at he
    unfold filtering_time_collapsed at he
    cases hl : (r.filteringTime.map filtering_time_written).getLast? with
    | none => rw [hl] at he; simp at he
    | some last =>
      rw [hl] at he
      simp only [List.mem_singleton] at he
      exact hne (by rw [he])

/-- Witness of C25: a result with an image file name and one filtering-time
entry keyed by its own `filterName`, `auth`, comes back without the file name
and with the entry under `filteringTime`. -/
theorem result_info_round_trip_loses_witness :
    set_value_result_info {}
        (add_member_result_info
          { resultCode := 4, reasonCode := 7, spamPattern1 := "p", imageFileName := some "a.png",
            filteringTime := [("auth", { filterName := "auth", startTime := 1, endTime := 2 })] }) =
      .value
        { resultCode := 4, reasonCode := 7, spamPattern1 := "p", imageFileName := none,
          filteringTime :=
            [("filteringTime", { filterName := "auth", startTime := 1, endTime := 2 })] } :=
  (result_info_round_trip_loses
    { resultCode := 4, reasonCode := 7, spamPattern1 := "p", imageFileName := some "a.png",
      filteringTime := [("auth", { filterName := "auth", startTime := 1, endTime := 2 })] }
    (by decide) (by decide) (by decide) (by decide) (by decide)
    (by intro e he; simp at he; subst he; exact ⟨by decide, by decide⟩)).1
/-- C27 fails: `optional(index, handler, alternative)` tests
`elements.size() >= index`, the reverse of what is meant. On a valid array of
`n` elements, every index `i <= n`, so every index of an existing element,
makes the call return after invoking only `alternative` (when given): the
handler is never invoked with an element. Every index `i > n` takes the other
branch, which reads `elements[i]` outside the array. Only for `i = n` does the
call do what the contract says. -/
theorem optional_index_reversed (array : MJsonValue) (index : Nat) (alternative_given : Bool)
    (hvalid : array.exception_ = false) (htype : array.type_ = MJsonValue.TYPE.ARRAY) :
    (index ≤ array.elements.length →
      array.optional_index index alternative_given =
        .returned (if alternative_given = true then [.alternative] else [])) ∧
    (index < array.elements.length →
      ∀ element, array.optional_index index alternative_given ≠
        .returned [.handler element]) ∧
    (array.elements.length < index →
      array.optional_index index alternative_given =
        .read_outside index array.elements.length) := by
  have hex : array.exception = .ok () := by simp [MJsonValue.exception, hvalid]
  have hself : array.get_self_array = .ok array := by
    simp [MJsonValue.get_self_array, hex, htype]
  have hle : index ≤ array.elements.length →
      array.optional_index index alternative_given =
        .returned (if alternative_given = true then [.alternative] else []) := by
    intro h
    simp [MJsonValue.optional_index, hex, hself, h]
  refine ⟨hle, ?_, ?_⟩
  · intro h element
    rw [hle (le_of_lt h)]
    cases alternative_given <;> simp
  · intro h
    have hnot : ¬ array.elements.length ≥ index := by omega
    have hnone : array.elements[index]? = none := List.getElem?_eq_none (by omega)
    simp [MJsonValue.optional_index, hex, hself, hnot, hnone]

/-- Witness of C27: on the parsed array of the strings active and in-stock, index `1`
names an element, yet `optional(1, handler)` returns without invoking
anything, and `optional(3, handler)` reads outside the array. -/
theorem optional_index_reversed_witness :
    (parse_element "" "filters" (.array [.string "active", .string "in-stock"])).optional_index
        1 false = .returned [] ∧
    (parse_element "" "filters" (.array [.string "active", .string "in-stock"])).optional_index
        3 false = .read_outside 3 2 :=
  ⟨(optional_index_reversed
      (parse_element "" "filters" (.array [.string "active", .string "in-stock"])) 1 false
      rfl rfl).1 (by decide),
   (optional_index_reversed
      (parse_element "" "filters" (.array [.string "active", .string "in-stock"])) 3 false
      rfl rfl).2.2 (by decide)⟩

/-- C28 fails for a member of another type: `obj[name].as_int_or(d)` on a valid
object returns `d` when the member is absent, and for a member that is present
it returns `atoi` of the member's text whatever the member's type is, without
throwing; the same holds for `as_str_or` and `as_bool_or`, which return the
text and whether the text is `true`. Only the accessors without `_or` check the
type and throw. -/
theorem as_or_ignores_type (obj : MJsonValue) (name : String) (d : Int)
    (hvalid : obj.exception_ = false) (htype : obj.type_ = MJsonValue.TYPE.OBJECT) :
    (obj.members.lookup name = none →
      ∃ missing, obj.index_name name = .ok missing ∧ missing.exception_ = true ∧
        missing.as_int_or d = d ∧ (∀ text, missing.as_str_or text = text) ∧
        (∀ b, missing.as_bool_or b = b)) ∧
    (∀ member, obj.members.lookup name = some member → member.exception_ = false →
      obj.index_name name = .ok member ∧
      member.as_int_or d = atoi member.value_ ∧
      (∀ text, member.as_str_or text = member.value_) ∧
      (∀ b, member.as_bool_or b = decide (member.value_ = "true")) ∧
      (member.value_type_ ≠ MJsonValue.ValueType.NUMBER →
        ∃ what, member.as_int = .error what)) := by
  have hex : obj.exception = .ok () := by simp [MJsonValue.exception, hvalid]
  have hself : obj.get_self_object = .ok obj := by
    simp [MJsonValue.get_self_object, hex, htype]
  refine ⟨?_, ?_⟩
  · intro h
    refine ⟨.mk (obj.path_ ++ obj.name_ ++ "/") name "" obj.value_type_ obj.type_ true [] [],
      by simp [MJsonValue.index_name, hex, hself, MJsonValue.by, h], ?_, ?_, ?_, ?_⟩
    · rfl
    · simp [MJsonValue.as_int_or, MJsonValue.exception_]
    · intro text; simp [MJsonValue.as_str_or, MJsonValue.exception_]
    · intro b; simp [MJsonValue.as_bool_or, MJsonValue.exception_]
  · intro member h hm
    refine ⟨by simp [MJsonValue.index_name, hex, hself, MJsonValue.by, h], ?_, ?_, ?_, ?_⟩
    · simp [MJsonValue.as_int_or, hm]
    · intro text; simp [MJsonValue.as_str_or, hm]
    · intro b; simp [MJsonValue.as_bool_or, hm]
    · intro hne
      have hmex : member.exception = .ok () := by simp [MJsonValue.exception, hm]
      by_cases hv : member.type_ = MJsonValue.TYPE.VALUE
      · refine ⟨member.path_ ++ member.name_ ++ ": expected " ++
          MJsonValue.value_type_str MJsonValue.ValueType.NUMBER ++ ", got " ++
          MJsonValue.value_type_str member.value_type_, ?_⟩
        simp only [MJsonValue.as_int, hmex, MJsonValue.throw_value_type, hv, ne_eq,
          not_true_eq_false, if_false]
        rw [if_pos (fun h => hne h.symm)]
      · refine ⟨member.path_ ++ member.name_ ++ ": expected MJsonValue, got " ++
          member.type_str, ?_⟩
        simp only [MJsonValue.as_int, hmex, MJsonValue.throw_value_type, ne_eq, hv,
          not_false_eq_true, if_true]

/-- Witness of C28: in the object parsed from a document with the members
`exists`, the number 42, and `text`, the string abc, the number gives `42`,
the absent member gives the default, and the string member, which is present
with another type, gives the `atoi` of its text, `0`, instead of throwing,
while `as_int()` throws on it. -/
theorem as_or_ignores_type_witness :
    ((parse_object (.object [("exists", .int 42), ("text", .string "abc")])).index_name
        "exists").map (fun v => v.as_int_or 0) = .ok 42 ∧
    ((parse_object (.object [("exists", .int 42), ("text", .string "abc")])).index_name
        "non_existent").map (fun v => v.as_int_or 7) = .ok 7 ∧
    ((parse_object (.object [("exists", .int 42), ("text", .string "abc")])).index_name
        "text").map (fun v => v.as_int_or 7) = .ok 0 ∧
    (parse_element "/" "text" (.string "abc")).as_int =
      .error "/text: expected number, got string" ∧
    (parse_element "/" "text" (.string "abc")).as_int_or 7 = atoi "abc" :=
  ⟨rfl, rfl, rfl, rfl,
    ((as_or_ignores_type (parse_object (.object [("exists", .int 42), ("text", .string "abc")]))
      "text" 7 rfl rfl).2 (parse_element "/" "text" (.string "abc")) rfl rfl).2.1⟩
section IngressWindowLemmas

theorem window_tracks_weaken (m : TpsMeter) (b b2 : Int) (R : List Int)
    (h : window_tracks m b R) (hb : b ≤ b2) : window_tracks m b2 R :=
  ⟨h.1, fun c hc => h.2 c (by omega)⟩

theorem window_tracks_get_tps (m : TpsMeter) (b t : Int) (R : List Int)
    (h : window_tracks m b R) (hb : b ≤ t) : window_tracks (m.get_tps t).2 t R := by
  obtain ⟨hs, hp⟩ := h
  have heq : (m.get_tps t).2.transactions_ =
      m.transactions_.filter (fun e => decide (e > t - one_second)) := by
    simp only [TpsMeter.get_tps, TpsMeter.get_tps_nolock, TpsMeter.cleanup_cutoff]
    exact take_lower_bound_eq_filter _ _ hs
  refine ⟨by rw [heq]; exact hs.filter _, ?_⟩
  intro c hc
  rw [heq, filter_filter_cutoff _ _ hc]
  exact hp c (by omega)

theorem window_tracks_add_transaction (m : TpsMeter) (b t2 t3 : Int) (R : List Int)
    (h : window_tracks m b R) (hb : b ≤ t2) (ht : t2 ≤ t3) :
    window_tracks (m.add_transaction t2 t3).2 t3 (t2 :: R) := by
  obtain ⟨hs, hp⟩ := h
  have hsi := multiset_insert_sorted t2 _ hs
  have heq : (m.add_transaction t2 t3).2.transactions_ =
      (multiset_insert t2 m.transactions_).filter (fun e => decide (e > t3 - one_second)) := by
    simp only [TpsMeter.add_transaction, TpsMeter.get_tps_nolock, TpsMeter.cleanup_cutoff]
    exact take_lower_bound_eq_filter _ _ hsi
  refine ⟨by rw [heq]; exact hsi.filter _, ?_⟩
  intro c hc
  rw [heq, filter_filter_cutoff _ _ hc]
  refine ((multiset_insert_perm t2 m.transactions_).filter _).trans ?_
  have hpc := hp c (by omega)
  simp only [List.filter_cons]
  split_ifs
  · exact List.Perm.cons _ hpc
  · exact hpc

theorem window_tracks_count (m : TpsMeter) (b t : Int) (R : List Int)
    (h : window_tracks m b R) (hb : b ≤ t) :
    (R.filter (fun e => decide (e > t - one_second))).length ≤ m.transactions_.length := by
  rw [← (h.2 (t - one_second) (by omega)).length_eq]
  exact List.length_filter_le _ _

theorem get_tps_length (m : TpsMeter) (t : Int) :
    (m.get_tps t).1 = (m.get_tps t).2.transactions_.length ∧
    (m.get_tps t).2.transactions_.length ≤ m.transactions_.length := by
  simp only [TpsMeter.get_tps, TpsMeter.get_tps_nolock, TpsMeter.cleanup_cutoff]
  exact ⟨trivial, by simp [List.length_take]⟩

theorem multiset_insert_length (t : Int) (l : List Int) :
    (multiset_insert t l).length = l.length + 1 := by
  rw [(multiset_insert_perm t l).length_eq]
  simp

theorem add_transaction_length (m : TpsMeter) (t2 t3 : Int) :
    (m.add_transaction t2 t3).2.transactions_.length ≤ m.transactions_.length + 1 := by
  simp only [TpsMeter.add_transaction, TpsMeter.get_tps_nolock, TpsMeter.cleanup_cutoff]
  have := multiset_insert_length t2 m.transactions_
  simp only [List.length_take]
  omega

theorem to_result_nats_world (C : Collaborators) (conf : AppConf) (self : FilterWorker)
    (filter : filter_info_t) (recv_time a b c : Int) (w : World) :
    (FilterWorker.to_result_nats C conf self filter recv_time a b c w).2.clock = w.clock ∧
    (FilterWorker.to_result_nats C conf self filter recv_time a b c w).2.ticks = w.ticks + 2 ∧
    (FilterWorker.to_result_nats C conf self filter recv_time a b c w).2.tps_meter_in =
      w.tps_meter_in := by
  simp [FilterWorker.to_result_nats, FilterWorker.set_filtering_time,
    World.tps_meter_out_get_tps, World.now, World.emit]

theorem push_scope_exit_world (sm : String × String) (w : World) :
    (FilterWorker.push_scope_exit sm w).clock = w.clock ∧
    (FilterWorker.push_scope_exit sm w).ticks = w.ticks + 1 ∧
    (FilterWorker.push_scope_exit sm w).tps_meter_in =
      (w.tps_meter_in.get_tps (w.clock w.ticks)).2 := by
  simp [FilterWorker.push_scope_exit, World.tps_meter_in_get_tps, World.now, World.emit]

theorem tps_meter_in_add_transaction_world (w : World) :
    w.tps_meter_in_add_transaction.2.clock = w.clock ∧
    w.tps_meter_in_add_transaction.2.ticks = w.ticks + 2 ∧
    w.tps_meter_in_add_transaction.2.tps_meter_in =
      (w.tps_meter_in.add_transaction (w.clock w.ticks) (w.clock (w.ticks + 1))).2 := by
  simp [World.tps_meter_in_add_transaction, World.now]

theorem parse_message_world (C : Collaborators) (self : FilterWorker) (message : String)
    (w : World) :
    (FilterWorker.parse_message C self message w).1 =
      (match C.from_filter_info_json message with
       | .error _ => none
       | .ok filter => some filter) ∧
    (FilterWorker.parse_message C self message w).2.2.clock = w.clock ∧
    (FilterWorker.parse_message C self message w).2.2.ticks = w.ticks ∧
    (FilterWorker.parse_message C self message w).2.2.tps_meter_in = w.tps_meter_in := by
  unfold FilterWorker.parse_message
  cases C.from_filter_info_json message with
  | error e => simp [World.emit]
  | ok filter =>
    dsimp only
    split_ifs <;> simp [World.emit]

theorem discard_tps_in_world (C : Collaborators) (conf : AppConf) (self : FilterWorker)
    (filter : filter_info_t) (recv_time : Int) (w : World) :
    ((w.tps_meter_in.get_tps (w.clock w.ticks)).1 < conf.discard_tps_in →
      (FilterWorker.discard_tps_in C conf self filter recv_time w).1 = false ∧
      (FilterWorker.discard_tps_in C conf self filter recv_time w).2.2.clock = w.clock ∧
      (FilterWorker.discard_tps_in C conf self filter recv_time w).2.2.ticks = w.ticks + 1 ∧
      (FilterWorker.discard_tps_in C conf self filter recv_time w).2.2.tps_meter_in =
        (w.tps_meter_in.get_tps (w.clock w.ticks)).2) ∧
    (¬ (w.tps_meter_in.get_tps (w.clock w.ticks)).1 < conf.discard_tps_in →
      (FilterWorker.discard_tps_in C conf self filter recv_time w).1 = true ∧
      (FilterWorker.discard_tps_in C conf self filter recv_time w).2.2.clock = w.clock ∧
      (FilterWorker.discard_tps_in C conf self filter recv_time w).2.2.ticks = w.ticks + 3 ∧
      (FilterWorker.discard_tps_in C conf self filter recv_time w).2.2.tps_meter_in =
        (w.tps_meter_in.get_tps (w.clock w.ticks)).2) := by
  constructor
  · intro h
    simp [FilterWorker.discard_tps_in, World.tps_meter_in_get_tps, World.now, h]
  · intro h
    have hr := to_result_nats_world C conf self
    simp only [FilterWorker.discard_tps_in, World.tps_meter_in_get_tps, World.now, h, if_false,
      hr]
    simp

theorem push_world_spec (C : Collaborators) (conf : AppConf) (env : Interference QueueItem)
    (self : FilterWorker) (sm : String × String) (w : World) :
    (FilterWorker.push C conf env self sm w).2.2.clock = w.clock ∧
    w.ticks ≤ (FilterWorker.push C conf env self sm w).2.2.ticks ∧
    (∀ f, C.from_filter_info_json sm.2 = .ok f →
      w.ticks + 5 ≤ (FilterWorker.push C conf env self sm w).2.2.ticks) ∧
    (FilterWorker.push C conf env self sm w).2.2.tps_meter_in =
      (match C.from_filter_info_json sm.2 with
       | .error _ => w.tps_meter_in
       | .ok _ =>
         if (w.tps_meter_in.get_tps (w.clock (w.ticks + 1))).1 < conf.discard_tps_in then
           ((((w.tps_meter_in.get_tps (w.clock (w.ticks + 1))).2.add_transaction
             (w.clock (w.ticks + 2)) (w.clock (w.ticks + 3))).2).get_tps
               (w.clock (w.ticks + 4))).2
         else
           ((w.tps_meter_in.get_tps (w.clock (w.ticks + 1))).2.get_tps
             (w.clock (w.ticks + 4))).2) := by
  obtain ⟨hp1, hp2, hp3, hp4⟩ := parse_message_world C self sm.2 w.now.2
  have hn : w.now.2.clock = w.clock ∧ w.now.2.ticks = w.ticks + 1 ∧
      w.now.2.tps_meter_in = w.tps_meter_in := by simp [World.now]
  rw [hn.1] at hp2
  rw [hn.2.1] at hp3
  rw [hn.2.2] at hp4
  unfold FilterWorker.push
  dsimp only
  cases hparse : C.from_filter_info_json sm.2 with
  | error e =>
    rw [hparse] at hp1
    simp only [hp1]
    exact ⟨hp2, by omega, (by intro f hf; cases hf), hp4⟩
  | ok filter =>
    rw [hparse] at hp1
    simp only [hp1]
    obtain ⟨hd1, hd2⟩ := discard_tps_in_world C conf
      (FilterWorker.parse_message C self sm.2 w.now.2).2.1 filter w.now.1
      (FilterWorker.parse_message C self sm.2 w.now.2).2.2
    rw [hp2, hp3, hp4] at hd1 hd2
    by_cases hpass : (w.tps_meter_in.get_tps (w.clock (w.ticks + 1))).1 < conf.discard_tps_in
    · obtain ⟨e1, e2, e3, e4⟩ := hd1 hpass
      simp only [e1, Bool.false_eq_true, if_false, hpass, if_true]
      obtain ⟨a1, a2, a3⟩ := tps_meter_in_add_transaction_world
        (FilterWorker.discard_tps_in C conf
          (FilterWorker.parse_message C self sm.2 w.now.2).2.1 filter w.now.1
          (FilterWorker.parse_message C self sm.2 w.now.2).2.2).2.2
      rw [e2] at a1
      rw [e3] at a2
      rw [e2, e3, e4] at a3
      obtain ⟨s1, s2, s3⟩ := push_scope_exit_world sm
        (FilterWorker.discard_tps_in C conf
          (FilterWorker.parse_message C self sm.2 w.now.2).2.1 filter w.now.1
          (FilterWorker.parse_message C self sm.2 w.now.2).2.2).2.2.tps_meter_in_add_transaction.2
      rw [a1] at s1
      rw [a2] at s2
      rw [a1, a2, a3] at s3
      split_ifs
      · exact ⟨s1, (by dsimp only; omega), (fun _ _ => by dsimp only; omega), s3⟩
      · have q1 : ∀ s f r a b c v, (FilterWorker.to_result_nats C conf s f r a b c v).2.clock =
            v.clock := fun s f r a b c v => (to_result_nats_world C conf s f r a b c v).1
        have q2 : ∀ s f r a b c v, (FilterWorker.to_result_nats C conf s f r a b c v).2.ticks =
            v.ticks + 2 := fun s f r a b c v => (to_result_nats_world C conf s f r a b c v).2.1
        have q3 : ∀ s f r a b c v,
            (FilterWorker.to_result_nats C conf s f r a b c v).2.tps_meter_in =
              v.tps_meter_in := fun s f r a b c v => (to_result_nats_world C conf s f r a b c v).2.2
        simp only [FilterWorker.discard_queue_full, q1, q2, q3]
        exact ⟨s1, (by omega), (fun _ _ => by omega), s3⟩
      · exact ⟨s1, (by dsimp only; omega), (fun _ _ => by dsimp only; omega), s3⟩
    · obtain ⟨e1, e2, e3, e4⟩ := hd2 hpass
      simp only [e1, if_true, hpass, if_false]
      obtain ⟨s1, s2, s3⟩ := push_scope_exit_world sm
        (FilterWorker.discard_tps_in C conf
          (FilterWorker.parse_message C self sm.2 w.now.2).2.1 filter w.now.1
          (FilterWorker.parse_message C self sm.2 w.now.2).2.2).2.2
      rw [e2] at s1
      rw [e3] at s2
      rw [e2, e3, e4] at s3
      exact ⟨s1, (by omega), (fun _ _ => by omega), s3⟩

theorem push_calls_spec (C : Collaborators) (conf : AppConf)
    (calls : List (Interference QueueItem × FilterWorker × (String × String))) :
    ∀ (w : World) (R : List Int),
      (∀ i j, i ≤ j → w.clock i ≤ w.clock j) →
      w.tps_meter_in.transactions_.length ≤ conf.discard_tps_in →
      window_tracks w.tps_meter_in (w.clock w.ticks) R →
      (push_calls C conf calls w).clock = w.clock ∧
      (push_calls C conf calls w).tps_meter_in.transactions_.length ≤ conf.discard_tps_in ∧
      window_tracks (push_calls C conf calls w).tps_meter_in
        ((push_calls C conf calls w).clock (push_calls C conf calls w).ticks)
        (push_calls_recorded C conf calls w ++ R) := by
  induction calls with
  | nil => intro w R _ hlen htr; exact ⟨rfl, hlen, by simpa [push_calls_recorded] using htr⟩
  | cons call rest ih =>
    intro w R hmono hlen htr
    obtain ⟨hc, ht0, ht, hm⟩ := push_world_spec C conf call.1 call.2.1 call.2.2 w
    have hmono2 : ∀ i j, i ≤ j →
        (FilterWorker.push C conf call.1 call.2.1 call.2.2 w).2.2.clock i ≤
          (FilterWorker.push C conf call.1 call.2.1 call.2.2 w).2.2.clock j := by
      rw [hc]; exact hmono
    have hstep : (FilterWorker.push C conf call.1 call.2.1 call.2.2 w).2.2.tps_meter_in.transactions_.length
          ≤ conf.discard_tps_in ∧
        window_tracks (FilterWorker.push C conf call.1 call.2.1 call.2.2 w).2.2.tps_meter_in
          ((FilterWorker.push C conf call.1 call.2.1 call.2.2 w).2.2.clock
            (FilterWorker.push C conf call.1 call.2.1 call.2.2 w).2.2.ticks)
          ((FilterWorker.ingress_recorded C conf call.2.2 w).toList ++ R) := by
      rw [hm, hc]
      unfold FilterWorker.ingress_recorded
      cases hparse : C.from_filter_info_json call.2.2.2 with
      | error e =>
        simp only [Option.toList_none, List.nil_append]
        exact ⟨hlen, window_tracks_weaken _ _ _ _ htr (hmono _ _ ht0)⟩
      | ok filter =>
        have ht5 := ht filter hparse
        have g1 := get_tps_length w.tps_meter_in (w.clock (w.ticks + 1))
        have t1 := window_tracks_get_tps _ _ (w.clock (w.ticks + 1)) _ htr
          (hmono _ _ (by omega))
        by_cases hpass :
            (w.tps_meter_in.get_tps (w.clock (w.ticks + 1))).1 < conf.discard_tps_in
        · simp only [hpass, if_true, Option.toList_some, List.singleton_append]
          have g2 := add_transaction_length (w.tps_meter_in.get_tps (w.clock (w.ticks + 1))).2
            (w.clock (w.ticks + 2)) (w.clock (w.ticks + 3))
          have g3 := get_tps_length
            ((w.tps_meter_in.get_tps (w.clock (w.ticks + 1))).2.add_transaction
              (w.clock (w.ticks + 2)) (w.clock (w.ticks + 3))).2 (w.clock (w.ticks + 4))
          have t2 := window_tracks_add_transaction _ _ (w.clock (w.ticks + 2))
            (w.clock (w.ticks + 3)) _ t1 (hmono _ _ (by omega)) (hmono _ _ (by omega))
          have t3 := window_tracks_get_tps _ _ (w.clock (w.ticks + 4)) _ t2
            (hmono _ _ (by omega))
          exact ⟨by omega, window_tracks_weaken _ _ _ _ t3 (hmono _ _ (by omega))⟩
        · simp only [hpass, if_false, Option.toList_none, List.nil_append]
          have g3 := get_tps_length (w.tps_meter_in.get_tps (w.clock (w.ticks + 1))).2
            (w.clock (w.ticks + 4))
          have t3 := window_tracks_get_tps _ _ (w.clock (w.ticks + 4)) _ t1
            (hmono _ _ (by omega))
          exact ⟨by omega, window_tracks_weaken _ _ _ _ t3 (hmono _ _ (by omega))⟩
    obtain ⟨r1, r2, r3⟩ := ih _ _ hmono2 hstep.1 hstep.2
    refine ⟨by simp only [push_calls]; rw [r1, hc], by simpa only [push_calls] using r2, ?_⟩
    simp only [push_calls, push_calls_recorded, List.append_assoc]
    exact r3

theorem push_calls_length (C : Collaborators) (conf : AppConf)
    (calls : List (Interference QueueItem × FilterWorker × (String × String))) :
    ∀ (w : World),
      w.tps_meter_in.transactions_.length ≤ conf.discard_tps_in →
      (push_calls C conf calls w).tps_meter_in.transactions_.length ≤ conf.discard_tps_in := by
  induction calls with
  | nil => intro w hlen; exact hlen
  | cons call rest ih =>
    intro w hlen
    obtain ⟨_, _, _, hm⟩ := push_world_spec C conf call.1 call.2.1 call.2.2 w
    apply ih
    rw [hm]
    cases hparse : C.from_filter_info_json call.2.2.2 with
    | error e => exact hlen
    | ok filter =>
      have g1 := get_tps_length w.tps_meter_in (w.clock (w.ticks + 1))
      by_cases hpass :
          (w.tps_meter_in.get_tps (w.clock (w.ticks + 1))).1 < conf.discard_tps_in
      · simp only [hpass, if_true]
        have g2 := add_transaction_length (w.tps_meter_in.get_tps (w.clock (w.ticks + 1))).2
          (w.clock (w.ticks + 2)) (w.clock (w.ticks + 3))
        have g3 := get_tps_length
          ((w.tps_meter_in.get_tps (w.clock (w.ticks + 1))).2.add_transaction
            (w.clock (w.ticks + 2)) (w.clock (w.ticks + 3))).2 (w.clock (w.ticks + 4))
        omega
      · simp only [hpass, if_false]
        have g3 := get_tps_length (w.tps_meter_in.get_tps (w.clock (w.ticks + 1))).2
          (w.clock (w.ticks + 4))
        omega

end IngressWindowLemmas

/-- C29: for a fixed ingress limit `L = discard_tps_in`, after any sequence of
`push` calls made one at a time, on whatever workers and messages, on a
process whose `tps_meter_in` held at most `L` timestamps at the start: the
meter holds at most `L` timestamps, so `get_tps()` at any later time returns
at most `L`. If moreover the clock never goes back and the meter was empty at
the start, then at every reading `t` from the end of the sequence on, at most
`L` of the messages that passed the ingress check were recorded in the second
before `t`. A message is recorded exactly when it parses and `discard_tps_in`
returns `false`. -/
theorem ingress_window_bounded (C : Collaborators) (conf : AppConf)
    (calls : List (Interference QueueItem × FilterWorker × (String × String))) (w : World)
    (hstart : w.tps_meter_in.transactions_.length ≤ conf.discard_tps_in) :
    (push_calls C conf calls w).tps_meter_in.transactions_.length ≤ conf.discard_tps_in ∧
    (∀ t, ((push_calls C conf calls w).tps_meter_in.get_tps t).1 ≤ conf.discard_tps_in) ∧
    (w.tps_meter_in.transactions_ = [] → (∀ i j, i ≤ j → w.clock i ≤ w.clock j) →
      ∀ t, (push_calls C conf calls w).clock (push_calls C conf calls w).ticks ≤ t →
        ((push_calls_recorded C conf calls w).filter
          (fun s => decide (s > t - one_second))).length ≤ conf.discard_tps_in) ∧
    (∀ (self : FilterWorker) (sm : String × String) (v : World),
      (∀ e, C.from_filter_info_json sm.2 = .error e →
        FilterWorker.ingress_recorded C conf sm v = none) ∧
      (∀ filter, C.from_filter_info_json sm.2 = .ok filter →
        ((FilterWorker.ingress_recorded C conf sm v).isSome = true ↔
          (FilterWorker.discard_tps_in C conf
            (FilterWorker.parse_message C self sm.2 v.now.2).2.1 filter v.now.1
            (FilterWorker.parse_message C self sm.2 v.now.2).2.2).1 = false))) := by
  have hlen := push_calls_length C conf calls w hstart
  refine ⟨hlen, ?_, ?_, ?_⟩
  · intro t
    have g := get_tps_length (push_calls C conf calls w).tps_meter_in t
    omega
  · intro hempty hmono t ht
    obtain ⟨_, _, htr⟩ := push_calls_spec C conf calls w [] hmono hstart
      ⟨by rw [hempty]; exact List.Pairwise.nil, by intro c _; rw [hempty]⟩
    rw [List.append_nil] at htr
    exact le_trans (window_tracks_count _ _ t _ htr ht) hlen
  · intro self sm v
    constructor
    · intro e he
      simp [FilterWorker.ingress_recorded, he]
    · intro filter hf
      obtain ⟨_, hp2, hp3, hp4⟩ := parse_message_world C self sm.2 v.now.2
      obtain ⟨hd1, hd2⟩ := discard_tps_in_world C conf
        (FilterWorker.parse_message C self sm.2 v.now.2).2.1 filter v.now.1
        (FilterWorker.parse_message C self sm.2 v.now.2).2.2
      rw [hp2, hp3, hp4] at hd1 hd2
      have hn : v.now.2.clock = v.clock ∧ v.now.2.ticks = v.ticks + 1 ∧
          v.now.2.tps_meter_in = v.tps_meter_in := by simp [World.now]
      rw [hn.1, hn.2.1, hn.2.2] at hd1 hd2
      by_cases hpass :
          (v.tps_meter_in.get_tps (v.clock (v.ticks + 1))).1 < conf.discard_tps_in
      · simp [FilterWorker.ingress_recorded, hf, hpass, (hd1 hpass).1]
      · simp [FilterWorker.ingress_recorded, hf, hpass, (hd2 hpass).1]

/-- Witness of C29: with a limit of two, four messages pushed within the same
half second leave two timestamps in the meter. -/
theorem ingress_window_bounded_witness :
    (scenario_world [] []).tps_meter_in.transactions_.length ≤
      ({ discard_tps_in := 2 } : AppConf).discard_tps_in ∧
    (push_calls scenario_collaborators { discard_tps_in := 2 }
      (List.replicate 4 ((fun _ q => q), scenario_worker 8 [], ("s", "m")))
      (scenario_world [] [])).tps_meter_in.transactions_.length ≤ 2 ∧
    (push_calls scenario_collaborators { discard_tps_in := 2 }
      (List.replicate 4 ((fun _ q => q), scenario_worker 8 [], ("s", "m")))
      (scenario_world [] [])).tps_meter_in.transactions_ = [500000000, 500000000] :=
  ⟨by decide, (ingress_window_bounded scenario_collaborators { discard_tps_in := 2 }
    (List.replicate 4 ((fun _ q => q), scenario_worker 8 [], ("s", "m")))
    (scenario_world [] []) (by decide)).1, rfl⟩

section BalanceLemmas

variable {W M σ : Type}

theorem pool_push_selects (ops : WorkerOps W M σ) (pool : WorkerPool W) (message : M) (s : σ)
    (hne : pool.workers_ ≠ []) :
    ∃ (i : Nat) (wk : W),
      std14_min_element (fun a b => decide (ops.size a < ops.size b)) pool.workers_ =
        some (i, wk) ∧
      wk ∈ pool.workers_ ∧
      (∀ x ∈ pool.workers_, ops.size wk ≤ ops.size x) ∧
      (pool.push ops message s).2.1.workers_ =
        pool.workers_.set i (ops.push wk message s).2.1 ∧
      (pool.push ops message s).2.2 = (ops.push wk message s).2.2 := by
  cases hw : pool.workers_ with
  | nil => exact absurd hw hne
  | cons w0 rest =>
    have hspec := std14_min_element_loop_spec ops.size rest [w0] 0 w0 (by simp)
      (by simp) (by simp)
    simp only [List.length_singleton, List.singleton_append] at hspec
    refine ⟨_, _, rfl, ?_, hspec.2.1, ?_, ?_⟩
    · obtain ⟨hlt, hget⟩ := List.getElem?_eq_some.mp hspec.1
      rw [← hget]
      exact List.getElem_mem hlt
    · simp [WorkerPool.push, hw, std14_min_element]
    · simp [WorkerPool.push, hw, std14_min_element]

theorem push_each_balanced (ops : WorkerOps W M σ) (messages : List M) :
    ∀ (pool : WorkerPool W) (s : σ) (m : Int),
      pool.workers_ ≠ [] →
      (∀ w ∈ pool.workers_, ops.size w = m ∨ ops.size w = m + 1) →
      WorkerPool.each_enqueued ops pool messages s = true →
      (WorkerPool.push_each ops pool messages s).1.workers_.length = pool.workers_.length ∧
      ∃ m2, ∀ w ∈ (WorkerPool.push_each ops pool messages s).1.workers_,
        ops.size w = m2 ∨ ops.size w = m2 + 1 := by
  induction messages with
  | nil => intro pool s m _ hbal _; exact ⟨rfl, m, hbal⟩
  | cons message rest ih =>
    intro pool s m hne hbal henq
    obtain ⟨i, wk, hsel, hmem, hmin, hset, _⟩ := pool_push_selects ops pool message s hne
    simp only [WorkerPool.each_enqueued, hsel, Bool.and_eq_true, decide_eq_true_eq] at henq
    obtain ⟨hgrow, hrest⟩ := henq
    have hlen : (pool.push ops message s).2.1.workers_.length = pool.workers_.length := by
      rw [hset]; simp
    have hne2 : (pool.push ops message s).2.1.workers_ ≠ [] := by
      intro h
      rw [h] at hlen
      exact hne (List.length_eq_zero.mp hlen.symm)
    have hbal2 : ∃ m1, ∀ w ∈ (pool.push ops message s).2.1.workers_,
        ops.size w = m1 ∨ ops.size w = m1 + 1 := by
      rcases hbal wk hmem with hk | hk
      · refine ⟨m, ?_⟩
        intro w hw
        rw [hset] at hw
        rcases List.mem_or_eq_of_mem_set hw with h | h
        · exact hbal w h
        · right; rw [h, hgrow, hk]
      · refine ⟨m + 1, ?_⟩
        intro w hw
        rw [hset] at hw
        rcases List.mem_or_eq_of_mem_set hw with h | h
        · left
          have h1 := hmin w h
          rcases hbal w h with h2 | h2 <;> omega
        · right; rw [h, hgrow, hk]
    obtain ⟨m1, hm1⟩ := hbal2
    obtain ⟨r1, r2⟩ := ih _ _ m1 hne2 hm1 hrest
    exact ⟨by simp only [WorkerPool.push_each]; rw [r1, hlen],
      by simpa only [WorkerPool.push_each] using r2⟩

end BalanceLemmas

/-- C30: starting from a pool of at least one worker in which every `size()`
is zero, after any sequence of dispatches made one after the other in which
every selected worker enqueues the item (its `size()` grows by one; no worker
dequeues, the other workers being left as they are), the pool has the same
number of workers and any two of them differ in `size()` by at most one. -/
theorem dispatch_balanced {W M σ : Type} (ops : WorkerOps W M σ) (pool : WorkerPool W)
    (messages : List M) (s : σ)
    (hne : pool.workers_ ≠ [])
    (hempty : ∀ w ∈ pool.workers_, ops.size w = 0)
    (henq : WorkerPool.each_enqueued ops pool messages s = true) :
    (WorkerPool.push_each ops pool messages s).1.workers_.length = pool.workers_.length ∧
    ∀ a ∈ (WorkerPool.push_each ops pool messages s).1.workers_,
      ∀ b ∈ (WorkerPool.push_each ops pool messages s).1.workers_,
        ops.size a ≤ ops.size b + 1 ∧ ops.size b ≤ ops.size a + 1 := by
  obtain ⟨hlen, m2, hbal⟩ := push_each_balanced ops messages pool s 0 hne
    (fun w hw => Or.inl (hempty w hw)) henq
  refine ⟨hlen, ?_⟩
  intro a ha b hb
  rcases hbal a ha with h1 | h1 <;> rcases hbal b hb with h2 | h2 <;> omega

/-- Witness of C30: three filter workers with empty queues of capacity five and
four messages that parse and pass the ingress check: the sizes end as 2, 1, 1. -/
theorem dispatch_balanced_witness :
    WorkerPool.each_enqueued (filter_worker_ops scenario_collaborators {} (fun _ q => q))
      { workers_ := [scenario_worker 5 [], scenario_worker 5 [], scenario_worker 5 []] }
      (List.replicate 4 ("s", "m")) (scenario_world [] []) = true ∧
    ((WorkerPool.push_each (filter_worker_ops scenario_collaborators {} (fun _ q => q))
      { workers_ := [scenario_worker 5 [], scenario_worker 5 [], scenario_worker 5 []] }
      (List.replicate 4 ("s", "m")) (scenario_world [] [])).1.workers_.map
        (fun worker => worker.toWorker.size)) = [2, 1, 1] ∧
    (WorkerPool.push_each (filter_worker_ops scenario_collaborators {} (fun _ q => q))
      { workers_ := [scenario_worker 5 [], scenario_worker 5 [], scenario_worker 5 []] }
      (List.replicate 4 ("s", "m")) (scenario_world [] [])).1.workers_.length = 3 :=
  ⟨rfl, rfl,
    (dispatch_balanced (filter_worker_ops scenario_collaborators {} (fun _ q => q))
      { workers_ := [scenario_worker 5 [], scenario_worker 5 [], scenario_worker 5 []] }
      (List.replicate 4 ("s", "m")) (scenario_world [] []) (by simp)
      (by intro w hw; simp at hw; subst hw; rfl) rfl).1⟩

section AbortLemmas

theorem from_filter_info_json_aborts (J : JsonEnv) (json : String) (doc : RapidValue)
    (hparse : J.Parse json = some doc) (hnot : doc.IsObject = false) :
    from_filter_info_json J json = .assertion "IsObject()" := by
  simp [from_filter_info_json, hparse, required_object_aborts doc _ hnot, Outcome.bind]

theorem push_with_parsed (C : Collaborators) (conf : AppConf) (env : Interference QueueItem)
    (self : FilterWorker) (subject_message : String × String) (w : World) :
    FilterWorker.push (C.with_parsed (C.from_filter_info_json subject_message.2)) conf env self
        subject_message w
      = FilterWorker.push C conf env self subject_message w := by
  have hC : C.with_parsed (C.from_filter_info_json subject_message.2)
      = { C with from_filter_info_json :=
            fun _ => C.from_filter_info_json subject_message.2 } := rfl
  cases hparse : C.from_filter_info_json subject_message.2 with
  | error e =>
    simp [FilterWorker.push, FilterWorker.parse_message, Collaborators.with_parsed, hparse]
  | ok filter =>
    simp only [FilterWorker.push, FilterWorker.parse_message, Collaborators.with_parsed, hparse]
    rfl

end AbortLemmas

/-- C11 fails on a payload that is valid JSON but whose top-level value is not
an object, such as `[]`: `push` calls `parse_message`, which calls
`from_filter_info_json`, and there the assertion `IsObject()` of rapidjson
fails in `HasMember`. `push` then returns neither `0` nor a negative value: it
does not return, the process ends. On every payload for which the parser
returns, with an error value or with a filter, `push` returns `0` or `-1`,
never a positive code; it returns a negative value iff the payload parsed, the
ingress check passed (`tps_meter_in.get_tps()` below `discard_tps_in`) and
`try_push` returned `-1`, that is, a `waiter_.push` found the queue closed;
when no other thread touches the queue during the call this is the case iff
the queue is closed. -/
theorem push_return_codes (J : JsonEnv) (C : Collaborators) (conf : AppConf)
    (env : Interference QueueItem) (self : FilterWorker) (subject_message : String × String)
    (w : World) :
    (∀ doc, J.Parse subject_message.2 = some doc → doc.IsObject = false →
      FilterWorker.push_or_abort J C conf env self subject_message w
        = .assertion "IsObject()" ∧
      ∀ r, FilterWorker.push_or_abort J C conf env self subject_message w ≠ .value r) ∧
    (∀ parsed, from_filter_info_json J subject_message.2 = .value parsed →
      FilterWorker.push_or_abort J C conf env self subject_message w
        = .value (FilterWorker.push (C.with_parsed parsed) conf env self subject_message w) ∧
      ((FilterWorker.push (C.with_parsed parsed) conf env self subject_message w).1 = 0 ∨
        (FilterWorker.push (C.with_parsed parsed) conf env self subject_message w).1 = -1) ∧
      ¬ (0 < (FilterWorker.push (C.with_parsed parsed) conf env self subject_message w).1) ∧
      ((FilterWorker.push (C.with_parsed parsed) conf env self subject_message w).1 < 0 ↔
        ∃ filter, parsed = Except.ok filter ∧
          (w.tps_meter_in.get_tps (w.clock (w.ticks + 1))).1 < conf.discard_tps_in ∧
          (Worker.try_push env self.toWorker
            (subject_message.1, filter, w.clock w.ticks) 1000).result = -1) ∧
      ((FilterWorker.push (C.with_parsed parsed) conf (fun _ q => q) self subject_message w).1 < 0 ↔
        ∃ filter, parsed = Except.ok filter ∧
          (w.tps_meter_in.get_tps (w.clock (w.ticks + 1))).1 < conf.discard_tps_in ∧
          self.waiter_.open_ = false)) ∧
    (from_filter_info_json J subject_message.2
        = .value (C.from_filter_info_json subject_message.2) →
      FilterWorker.push_or_abort J C conf env self subject_message w
        = .value (FilterWorker.push C conf env self subject_message w)) := by
  refine ⟨?_, ?_, ?_⟩
  · intro doc hparse hnot
    have h : FilterWorker.push_or_abort J C conf env self subject_message w
        = .assertion "IsObject()" := by
      simp [FilterWorker.push_or_abort, from_filter_info_json_aborts J _ doc hparse hnot,
        Outcome.bind]
    refine ⟨h, ?_⟩
    intro r
    rw [h]
    simp
  · intro parsed hvalue
    have key : ∀ env2 : Interference QueueItem,
        ((FilterWorker.push (C.with_parsed parsed) conf env2 self subject_message w).1 = 0 ∨
          (FilterWorker.push (C.with_parsed parsed) conf env2 self subject_message w).1 = -1) ∧
        ((FilterWorker.push (C.with_parsed parsed) conf env2 self subject_message w).1 < 0 ↔
          ∃ filter, parsed = Except.ok filter ∧
            (w.tps_meter_in.get_tps (w.clock (w.ticks + 1))).1 < conf.discard_tps_in ∧
            (Worker.try_push env2 self.toWorker
              (subject_message.1, filter, w.clock w.ticks) 1000).result = -1) := by
      intro env2
      rw [push_result_eq]
      have hp : (C.with_parsed parsed).from_filter_info_json subject_message.2 = parsed := rfl
      rw [hp]
      cases parsed with
      | error e => simp
      | ok filter =>
        by_cases hlt : (w.tps_meter_in.get_tps (w.clock (w.ticks + 1))).1 < conf.discard_tps_in
        · by_cases hc : (Worker.try_push env2 self.toWorker
              (subject_message.1, filter, w.clock w.ticks) 1000).result = -1
          · simp [hlt, hc]
          · simp [hlt, hc]
        · simp [hlt]
    refine ⟨?_, (key env).1, ?_, (key env).2, ?_⟩
    · simp [FilterWorker.push_or_abort, hvalue, Outcome.bind]
    · rcases (key env).1 with h | h <;> rw [h] <;> decide
    · rw [(key (fun _ q => q)).2]
      constructor
      · rintro ⟨filter, h1, h2, h3⟩
        exact ⟨filter, h1, h2, (try_push_closed_iff self.toWorker _ 999).mp h3⟩
      · rintro ⟨filter, h1, h2, h3⟩
        exact ⟨filter, h1, h2, (try_push_closed_iff self.toWorker _ 999).mpr h3⟩
  · intro hagree
    simp only [FilterWorker.push_or_abort, hagree, Outcome.bind]
    rw [push_with_parsed]

/-- Witness of C11: on the payload `[]` the push ends in the failed assertion;
on the payload of an empty object the parser returns an error value and the
push returns `0`. -/
theorem push_return_codes_witness :
    scenario_json_env.Parse "[]" = some (.array []) ∧
    FilterWorker.push_or_abort scenario_json_env scenario_collaborators {} (fun _ q => q)
        (scenario_worker 3 []) ("s", "[]") (scenario_world [] [])
      = .assertion "IsObject()" ∧
    from_filter_info_json scenario_json_env "\x7b\x7d" = .value (.error "Not found messageInfo") ∧
    (FilterWorker.push (scenario_collaborators.with_parsed (.error "Not found messageInfo")) {}
        (fun _ q => q) (scenario_worker 3 []) ("s", "\x7b\x7d") (scenario_world [] [])).1 = 0 :=
  ⟨rfl,
    ((push_return_codes scenario_json_env scenario_collaborators {} (fun _ q => q)
      (scenario_worker 3 []) ("s", "[]") (scenario_world [] [])).1 (.array []) rfl rfl).1,
    rfl,
    by
      have h := ((push_return_codes scenario_json_env scenario_collaborators {} (fun _ q => q)
        (scenario_worker 3 []) ("s", "\x7b\x7d") (scenario_world [] [])).2.1
          (.error "Not found messageInfo") rfl).2.1
      rcases h with h | h
      · exact h
      · exact absurd h (by decide)⟩

section CallbackAbortLemmas

theorem pool_push_or_abort_value (J : JsonEnv) (C : Collaborators) (conf : AppConf)
    (env : Interference QueueItem) (subject message : String)
    (s : WorkerPool FilterWorker × World) (parsed : Except String filter_info_t)
    (hvalue : from_filter_info_json J message = .value parsed) :
    NatsRecvers.pool_push_or_abort J C conf env subject message s
      = .value (NatsRecvers.pool_push (C.with_parsed parsed) conf env subject message s) := by
  unfold NatsRecvers.pool_push_or_abort
  by_cases hempty : s.1.workers_.isEmpty = true
  · simp [hempty, NatsRecvers.pool_push, WorkerPool.push]
  · simp [hempty, hvalue, Outcome.bind]

theorem callback_or_abort_value {σ : Type} (push : σ → Outcome (Int × σ)) (s : σ)
    (r : Int × σ) (fuel : Nat) (hvalue : push s = .value r) (hcode : r.1 = 0 ∨ r.1 = -1) :
    NatsRecvers.callback_or_abort push (fuel + 1) s = some (.value r.2) := by
  rcases hcode with h | h <;> simp [NatsRecvers.callback_or_abort, hvalue, h]

end CallbackAbortLemmas

/-- C12 fails on a payload that is valid JSON but whose top-level value is not
an object, such as `[]`, delivered to a pool that has a worker: the first
`worker_pool.push` of the callback calls the `push` of the chosen worker, the
parser is called and the assertion `IsObject()` of rapidjson fails in it. The
push does not return and the callback does not finish: the process of the
receiving thread ends. For every payload on which the parser returns, and for
a pool without workers, the callback returns in its first iteration, after one
call of `worker_pool.push`: one iteration of fuel is enough, more fuel changes
nothing, and the state it leaves is the state after that single push, which
returned `0` or `-1`, also for a payload with a parse error, a message over
the ingress limit and a full or closed queue. The push of the pool is the push
of its least loaded worker. -/
theorem callback_single_push (J : JsonEnv) (C : Collaborators) (conf : AppConf)
    (env : Interference QueueItem) (subject message : String)
    (s : WorkerPool FilterWorker × World) (fuel : Nat) :
    (∀ doc, J.Parse message = some doc → doc.IsObject = false → s.1.workers_ ≠ [] →
      NatsRecvers.pool_push_or_abort J C conf env subject message s = .assertion "IsObject()" ∧
      NatsRecvers.callback_or_abort (NatsRecvers.pool_push_or_abort J C conf env subject message)
        (fuel + 1) s = some (.assertion "IsObject()") ∧
      ∀ s2, NatsRecvers.callback_or_abort
        (NatsRecvers.pool_push_or_abort J C conf env subject message) (fuel + 1) s
          ≠ some (.value s2)) ∧
    (∀ parsed, from_filter_info_json J message = .value parsed →
      NatsRecvers.pool_push_or_abort J C conf env subject message s
        = .value (NatsRecvers.pool_push (C.with_parsed parsed) conf env subject message s) ∧
      NatsRecvers.callback_or_abort (NatsRecvers.pool_push_or_abort J C conf env subject message)
        1 s = some (.value
          (NatsRecvers.pool_push (C.with_parsed parsed) conf env subject message s).2) ∧
      NatsRecvers.callback_or_abort (NatsRecvers.pool_push_or_abort J C conf env subject message)
        (fuel + 1) s = some (.value
          (NatsRecvers.pool_push (C.with_parsed parsed) conf env subject message s).2) ∧
      ((NatsRecvers.pool_push (C.with_parsed parsed) conf env subject message s).1 = 0 ∨
        (NatsRecvers.pool_push (C.with_parsed parsed) conf env subject message s).1 = -1)) ∧
    (s.1.workers_ = [] →
      NatsRecvers.pool_push_or_abort J C conf env subject message s = .value (-1, s) ∧
      NatsRecvers.callback_or_abort (NatsRecvers.pool_push_or_abort J C conf env subject message)
        (fuel + 1) s = some (.value s)) ∧
    (∀ i wk, std14_min_element
        (fun a b : FilterWorker => decide (a.toWorker.size < b.toWorker.size)) s.1.workers_
          = some (i, wk) →
      NatsRecvers.pool_push_or_abort J C conf env subject message s
        = (FilterWorker.push_or_abort J C conf env wk (subject, message) s.2).bind
            (fun r => .value (r.1, { workers_ := s.1.workers_.set i r.2.1 }, r.2.2))) := by
  refine ⟨?_, ?_, ?_, ?_⟩
  · intro doc hparse hnot hne
    have hempty : ¬ s.1.workers_.isEmpty = true := by
      simpa [List.isEmpty_iff] using hne
    have h : NatsRecvers.pool_push_or_abort J C conf env subject message s
        = .assertion "IsObject()" := by
      simp [NatsRecvers.pool_push_or_abort, hempty,
        from_filter_info_json_aborts J _ doc hparse hnot, Outcome.bind]
    have hc : NatsRecvers.callback_or_abort
        (NatsRecvers.pool_push_or_abort J C conf env subject message) (fuel + 1) s
          = some (.assertion "IsObject()") := by
      simp [NatsRecvers.callback_or_abort, h]
    refine ⟨h, hc, ?_⟩
    intro s2
    rw [hc]
    simp
  · intro parsed hvalue
    have hv := pool_push_or_abort_value J C conf env subject message s parsed hvalue
    have h01 := pool_push_zero_or_minus_one (C.with_parsed parsed) conf env subject message s
    exact ⟨hv, callback_or_abort_value _ s _ 0 hv h01,
      callback_or_abort_value _ s _ fuel hv h01, h01⟩
  · intro hnil
    have hv : NatsRecvers.pool_push_or_abort J C conf env subject message s = .value (-1, s) := by
      simp [NatsRecvers.pool_push_or_abort, NatsRecvers.pool_push, WorkerPool.push, hnil]
    exact ⟨hv, callback_or_abort_value _ s _ fuel hv (Or.inr rfl)⟩
  · intro i wk hmin
    have hne : ¬ s.1.workers_.isEmpty = true := by
      intro he
      have : s.1.workers_ = [] := List.isEmpty_iff.mp he
      rw [this] at hmin
      simp [std14_min_element] at hmin
    cases hj : from_filter_info_json J message with
    | value parsed =>
      simp [NatsRecvers.pool_push_or_abort, FilterWorker.push_or_abort, hne, hj, Outcome.bind,
        NatsRecvers.pool_push, WorkerPool.push, filter_worker_ops, hmin]
    | thrown what =>
      simp [NatsRecvers.pool_push_or_abort, FilterWorker.push_or_abort, hne, hj, Outcome.bind]
    | assertion condition =>
      simp [NatsRecvers.pool_push_or_abort, FilterWorker.push_or_abort, hne, hj, Outcome.bind]

/-- Witness of C12: the payload `[]` delivered to a pool of one worker ends in
the failed assertion, whatever the fuel; the payload of an empty object makes
the callback return after one push. -/
theorem callback_single_push_witness :
    scenario_json_env.Parse "[]" = some (.array []) ∧
    NatsRecvers.callback_or_abort
        (NatsRecvers.pool_push_or_abort scenario_json_env scenario_collaborators {}
          (fun _ q => q) "s" "[]") (5 + 1)
        ({ workers_ := [scenario_worker 3 []] }, scenario_world [] [])
      = some (.assertion "IsObject()") ∧
    from_filter_info_json scenario_json_env "\x7b\x7d" = .value (.error "Not found messageInfo") ∧
    NatsRecvers.callback_or_abort
        (NatsRecvers.pool_push_or_abort scenario_json_env scenario_collaborators {}
          (fun _ q => q) "s" "\x7b\x7d") (5 + 1)
        ({ workers_ := [scenario_worker 3 []] }, scenario_world [] [])
      = some (.value (NatsRecvers.pool_push
          (scenario_collaborators.with_parsed (.error "Not found messageInfo")) {}
          (fun _ q => q) "s" "\x7b\x7d"
          ({ workers_ := [scenario_worker 3 []] }, scenario_world [] [])).2) :=
  ⟨rfl,
    ((callback_single_push scenario_json_env scenario_collaborators {} (fun _ q => q) "s" "[]"
      ({ workers_ := [scenario_worker 3 []] }, scenario_world [] []) 5).1
        (.array []) rfl rfl (by simp)).2.1,
    rfl,
    ((callback_single_push scenario_json_env scenario_collaborators {} (fun _ q => q) "s"
      "\x7b\x7d" ({ workers_ := [scenario_worker 3 []] }, scenario_world [] []) 5).2.1
        (.error "Not found messageInfo") rfl).2.2.1⟩

end FilterGround
